import Mathlib

/-!
# Tilck terminal engine (`kernel/char/term.c`)

A shallow embedding of the virtual terminal engine: the ring-structured
scrollback buffer, the cursor / tab model and the terminal actions.
The wake-up timers of `kernel/timer.c` (`kernel_sleep` and the timer list)
and `save_param_iov` of `modules/tracing/ptype_iov.c` are embedded in
sections of their own.

Conventions of the embedding

* The file-scope statics of `term.c` and the fields of `struct term` are the
  fields of one record, `term`.
* `u16` / `u32` objects are natural numbers; every C operation that can wrap
  is followed by an explicit reduction modulo `2^16` / `2^32`.
* `buffer` is a map from cell index to cell, so that every address computed by
  the code has a meaning; bounds are stated separately, against the ghost
  field `buffer_size`, the size in bytes of the object behind the pointer
  (the size handed to `kmalloc`, or that of `failsafe_buffer`).
* The video backend is a table of functions acting on a backend state `σ`;
  the optional operations are `Option`s (a null function pointer is `none`).
* `accesses` is a ghost field: it records the `(row, col)` arguments of every
  `buffer_set_entry` / `buffer_get_entry` call, in call order.
-/

namespace Tilck

/-! ## Machine integers -/

/-- Conversion of an integer value to `u16`. -/
def to_u16 (x : Int) : Nat := (x % 65536).toNat

/-- Conversion of an integer value to `u32`. -/
def to_u32 (x : Int) : Nat := (x % 4294967296).toNat

/-- Conversion of a `u32` value to `int` (two's complement). -/
def to_int (x : Nat) : Int :=
  if x % 4294967296 < 2147483648 then (x % 4294967296 : Nat) else ((x % 4294967296 : Nat) : Int) - 4294967296

/-! ## External declarations -/

/-- Modelled from the spec: the cell encoding of `tilck/common/color_defs.h`
(`make_vgaentry`, `vgaentry_get_color`, `make_color` and the default colors),
which is not part of the sources. Section 6 of the spec only fixes that an
entry is built from a character and a color by a pure function and that the
color is extracted from an entry by a pure function, so the encoding is a
parameter of the embedding. -/
structure cell_encoding where
  make_vgaentry : Nat → Nat → Nat
  vgaentry_get_color : Nat → Nat
  make_color : Nat → Nat → Nat
  DEFAULT_FG_COLOR : Nat
  DEFAULT_BG_COLOR : Nat

/-- The color `make_color(DEFAULT_FG_COLOR, DEFAULT_BG_COLOR)`. -/
def cell_encoding.default_color (enc : cell_encoding) : Nat :=
  enc.make_color enc.DEFAULT_FG_COLOR enc.DEFAULT_BG_COLOR

/-- The cell `make_vgaentry(' ', make_color(DEFAULT_FG_COLOR, DEFAULT_BG_COLOR))`,
reduced to `u16` as every stored cell is. -/
def cell_encoding.blank (enc : cell_encoding) : Nat :=
  enc.make_vgaentry 32 enc.default_color % 65536

/-- Modelled from the spec: `memset16(ptr, val, n)` of `string_util.h`, which is
not part of the sources: it stores `val` in the `n` cells starting at `base`. -/
def memset16 (buf : Nat → Nat) (base val n : Nat) : Nat → Nat :=
  fun i => if base ≤ i ∧ i < base + n then val % 65536 else buf i

/-- The libc `memcpy` on cells: copies the `n` cells starting at `s` to the
`n` cells starting at `d` (the source is read before any cell is written). -/
def memcpy16 (buf : Nat → Nat) (d s n : Nat) : Nat → Nat :=
  fun i => if d ≤ i ∧ i < d + n then buf (s + (i - d)) else buf i

/-- The libc `memset(p, 0, n)` on the tab map. -/
def memset_tabs (tabs : Nat → Bool) (n : Nat) : Nat → Bool :=
  fun i => if i < n then false else tabs i

/-- Modelled from the spec: `round_up_at(n, a)` of `utils.h`, which is not part
of the sources: the smallest multiple of `a` that is at least `n`
(sections 4.3 of the spec), computed on `uptr` (32 bit) values. -/
def round_up_at (n a : Nat) : Nat :=
  ((n + a - 1) % 4294967296 / a * a) % 4294967296

/-- Modelled from the spec: the action type of `term_int.h`, which is not part
of the sources (section 3 of the spec, "Action"). -/
inductive term_action where
  | a_none
  | a_write (buf : List Nat) (color : Nat)
  | a_scroll (lines : Int)
  | a_set_col_offset (off : Nat)
  | a_move_ch_and_cur (row col : Int)
  | a_move_ch_and_cur_rel (dx dy : Int)
  | a_reset
  | a_erase_in_display (mode : Int)
  | a_erase_in_line (mode : Int)
  | a_non_buf_scroll_up (n : Nat)
  | a_non_buf_scroll_down (n : Nat)
  | a_pause_video_output
  | a_restart_video_output

/-- The value a filter call leaves behind: its return value, the color and the
action it may have overwritten through its pointer arguments, and its context. -/
structure filter_result (φ : Type) where
  accept : Bool
  color : Nat
  action : term_action
  ctx : φ

/-- The type `term_filter_func`: called as `filter(c, &color, &a, filter_ctx)`. -/
abbrev term_filter_func (φ : Type) := Nat → Nat → φ → filter_result φ

/-- The type `video_interface`: the table of backend operations, in the order
of the initializer of `no_output_vi`. -/
structure video_interface (σ : Type) where
  set_char_at : Nat → Nat → Nat → σ → σ
  set_row : Nat → (Nat → Nat) → Bool → σ → σ
  clear_row : Nat → Nat → σ → σ
  move_cursor : Nat → Nat → Nat → σ → σ
  enable_cursor : σ → σ
  disable_cursor : σ → σ
  scroll_one_line_up : Option (σ → σ)
  flush_buffers : Option (σ → σ)
  redraw_static_elements : Option (σ → σ)
  disable_static_elems_refresh : Option (σ → σ)
  enable_static_elems_refresh : Option (σ → σ)

/-- The state of the engine: `struct term` and the statics of `term.c`,
together with the state `screen` of the hardware behind the bound backend,
the kernel option `kopt_serial_mode == TERM_SERIAL_CONSOLE`, the bytes sent to
the serial port and the ghost fields `accesses` and `buffer_size`. The field
`buffer` is the memory at the address held by the pointer `buffer`, read as
`u16` cells; `buffer_size` is the size in bytes of the object that the pointer
refers to (0 for the null pointer): only the cells with an index `i` such that
`2 * i + 2 <= buffer_size` belong to that object. -/
structure term (σ φ : Type) where
  term_initialized : Bool
  term_tab_size : Int
  term_cols : Nat
  term_rows : Nat
  current_row : Nat
  current_col : Nat
  term_col_offset : Nat
  vi : video_interface σ
  saved_vi : Option (video_interface σ)
  buffer : Nat → Nat
  scroll : Nat
  max_scroll : Nat
  total_buffer_rows : Nat
  extra_buffer_rows : Nat
  term_tabs : Option (Nat → Bool)
  filter : Option (term_filter_func φ)
  filter_ctx : φ
  screen : σ
  serial_console : Bool
  serial_out : List Nat
  accesses : List (Nat × Nat)
  buffer_size : Nat

variable {σ φ : Type}

/-! ## No-output video interface -/

/-- The table `no_output_vi`: every operation is present and does nothing. -/
def no_output_vi : video_interface σ where
  set_char_at := fun _ _ _ s => s
  set_row := fun _ _ _ s => s
  clear_row := fun _ _ s => s
  move_cursor := fun _ _ _ s => s
  enable_cursor := fun s => s
  disable_cursor := fun s => s
  scroll_one_line_up := some (fun s => s)
  flush_buffers := some (fun s => s)
  redraw_static_elements := some (fun s => s)
  disable_static_elems_refresh := some (fun s => s)
  enable_static_elems_refresh := some (fun s => s)

/-- A call `vi->op(args)` of a mandatory backend operation. -/
def vi_call (t : term σ φ) (op : video_interface σ → σ → σ) : term σ φ :=
  { t with screen := op t.vi t.screen }

/-- A guarded call `if (vi->op) vi->op()` of an optional backend operation. -/
def vi_call_opt (t : term σ φ) (op : video_interface σ → Option (σ → σ)) : term σ φ :=
  match op t.vi with
  | some f => { t with screen := f t.screen }
  | none => t

/-! ## Scrollback buffer -/

/-- The index `(row + scroll) % total_buffer_rows * t->term_cols + col`,
computed on `u32`. -/
def buffer_index (t : term σ φ) (row col : Nat) : Nat :=
  ((row + t.scroll) % 4294967296 % t.total_buffer_rows * t.term_cols + col) % 4294967296

/-- The function `buffer_set_entry`. -/
def buffer_set_entry (t : term σ φ) (row col e : Nat) : term σ φ :=
  { t with
    buffer := fun i => if i = buffer_index t row col then e % 65536 else t.buffer i
    accesses := t.accesses ++ [(row, col)] }

/-- The function `buffer_get_entry`: the cell read, and the state with the
access recorded. -/
def buffer_get_entry (t : term σ φ) (row col : Nat) : Nat × term σ φ :=
  (t.buffer (buffer_index t row col), { t with accesses := t.accesses ++ [(row, col)] })

/-- The function `ts_is_at_bottom`. -/
def ts_is_at_bottom (t : term σ φ) : Bool := t.scroll == t.max_scroll

/-- The function `term_redraw` (the FPU context calls have no effect on the
engine state). -/
def term_redraw (t : term σ φ) : term σ φ :=
  (List.range t.term_rows).foldl
    (fun t row =>
      let buffer_row := (t.scroll + row) % 4294967296 % t.total_buffer_rows
      vi_call t (fun v => v.set_row row
        (fun i => t.buffer (t.term_cols * buffer_row % 4294967296 + i)) true))
    t

/-- The function `ts_set_scroll`. -/
def ts_set_scroll (t : term σ φ) (requested_scroll : Nat) : term σ φ :=
  let min_scroll :=
    if t.max_scroll > t.extra_buffer_rows then t.max_scroll - t.extra_buffer_rows else 0
  let requested_scroll := min (max requested_scroll min_scroll) t.max_scroll
  if requested_scroll = t.scroll then t
  else term_redraw { t with scroll := requested_scroll }

/-- The function `ts_scroll_up`. -/
def ts_scroll_up (t : term σ φ) (lines : Nat) : term σ φ :=
  if lines > t.scroll then ts_set_scroll t 0 else ts_set_scroll t (t.scroll - lines)

/-- The function `ts_scroll_down`. -/
def ts_scroll_down (t : term σ φ) (lines : Nat) : term σ φ :=
  ts_set_scroll t ((t.scroll + lines) % 4294967296)

/-- The function `ts_scroll_to_bottom`. -/
def ts_scroll_to_bottom (t : term σ φ) : term σ φ :=
  if t.scroll ≠ t.max_scroll then ts_set_scroll t t.max_scroll else t

/-- The function `ts_buf_clear_row`. -/
def ts_buf_clear_row (enc : cell_encoding) (t : term σ φ) (row color : Nat) : term σ φ :=
  { t with
    buffer := memset16 t.buffer
      (t.term_cols * ((row + t.scroll) % 4294967296 % t.total_buffer_rows) % 4294967296)
      (enc.make_vgaentry 32 color) t.term_cols }

/-- The function `ts_clear_row`. -/
def ts_clear_row (enc : cell_encoding) (t : term σ φ) (row color : Nat) : term σ φ :=
  vi_call (ts_buf_clear_row enc t row color) (fun v => v.clear_row row color)

/-! ## Cursor and tab model -/

/-- The statement `vi->move_cursor(current_row, current_col,
vgaentry_get_color(buffer_get_entry(t, current_row, current_col)))`, which
ends several actions. -/
def vi_move_cursor_at_current (enc : cell_encoding) (t : term σ φ) : term σ φ :=
  let r := buffer_get_entry t t.current_row t.current_col
  vi_call r.2 (fun v => v.move_cursor t.current_row t.current_col (enc.vgaentry_get_color r.1))

/-- The function `term_internal_incr_row`. The row argument `t->term_rows - 1`
of `ts_clear_row` is an `int`; it is passed on as the `u32` it is converted to
in the index computation. -/
def term_internal_incr_row (enc : cell_encoding) (t : term σ φ) (color : Nat) : term σ φ :=
  let t := { t with term_col_offset := 0 }
  if (t.current_row : Int) < (t.term_rows : Int) - 1 then
    { t with current_row := (t.current_row + 1) % 65536 }
  else
    let t := { t with max_scroll := (t.max_scroll + 1) % 4294967296 }
    let t :=
      match t.vi.scroll_one_line_up with
      | some f => { t with scroll := (t.scroll + 1) % 4294967296, screen := f t.screen }
      | none => ts_set_scroll t t.max_scroll
    ts_clear_row enc t (to_u32 ((t.term_rows : Int) - 1)) color

/-- The function `term_internal_write_printable_char`. -/
def term_internal_write_printable_char (enc : cell_encoding) (t : term σ φ) (c color : Nat) :
    term σ φ :=
  let entry := enc.make_vgaentry c color % 65536
  let t := buffer_set_entry t t.current_row t.current_col entry
  let t := vi_call t (fun v => v.set_char_at t.current_row t.current_col entry)
  { t with current_col := (t.current_col + 1) % 65536 }

/-- The function `term_internal_write_tab`. -/
def term_internal_write_tab (enc : cell_encoding) (t : term σ φ) (color : Nat) : term σ φ :=
  let rem : Int := (t.term_cols : Int) - (t.current_col : Int) - 1
  match t.term_tabs with
  | none => if rem ≠ 0 then term_internal_write_printable_char enc t 32 color else t
  | some tabs =>
    let tab_col : Int :=
      to_int (min (round_up_at (t.current_col + 1) (to_u32 t.term_tab_size))
        (to_u32 ((t.term_cols : Int) - 2)))
    { t with
      term_tabs := some (fun i =>
        if (i : Int) = (t.current_row : Int) * (t.term_cols : Int) + tab_col then true else tabs i)
      current_col := to_u16 (tab_col + 1) }

/-- The expression `term_tabs[idx]` (false when there is no tab map). -/
def term_tabs_at (t : term σ φ) (idx : Int) : Bool :=
  match t.term_tabs with
  | some tabs => tabs idx.toNat
  | none => false

/-- The loop `for (int i = t->term_tab_size - 1; i >= 0; i--)` of
`term_internal_write_backspace`; the argument is `i + 1`. -/
def backspace_tab_loop (t : term σ φ) : Nat → term σ φ
  | 0 => t
  | i + 1 =>
    if t.current_col = 0 ∨ t.current_col = t.term_col_offset then t
    else if term_tabs_at t ((t.current_row : Int) * (t.term_cols : Int) + (t.current_col : Int) - 1)
    then t
    else backspace_tab_loop (if i ≠ 0 then { t with current_col := t.current_col - 1 } else t) i

/-- The function `term_internal_write_backspace` (both `current_col--` run
with `current_col` non-zero, so they do not wrap). -/
def term_internal_write_backspace (enc : cell_encoding) (t : term σ φ) (color : Nat) : term σ φ :=
  if t.current_col = 0 ∨ t.current_col ≤ t.term_col_offset then t
  else
    let space_entry := enc.make_vgaentry 32 color % 65536
    let t := { t with current_col := t.current_col - 1 }
    if !(term_tabs_at t ((t.current_row : Int) * (t.term_cols : Int) + (t.current_col : Int))) then
      let t := buffer_set_entry t t.current_row t.current_col space_entry
      vi_call t (fun v => v.set_char_at t.current_row t.current_col space_entry)
    else
      let idx : Int := (t.current_row : Int) * (t.term_cols : Int) + (t.current_col : Int)
      let t := { t with
        term_tabs := t.term_tabs.map (fun tabs i => if (i : Int) = idx then false else tabs i) }
      backspace_tab_loop t t.term_tab_size.toNat

/-- The function `term_internal_write_char2`; `serial_write(COM1, c)` appends
the byte to `serial_out`. -/
def term_internal_write_char2 (enc : cell_encoding) (t : term σ φ) (c color : Nat) : term σ φ :=
  if t.serial_console then { t with serial_out := t.serial_out ++ [c] }
  else if c = 10 then term_internal_incr_row enc t color
  else if c = 13 then { t with current_col := 0 }
  else if c = 9 then term_internal_write_tab enc t color
  else
    let t :=
      if t.current_col = t.term_cols then term_internal_incr_row enc { t with current_col := 0 } color
      else t
    term_internal_write_printable_char enc t c color

/-! ## Terminal actions -/

/-- The function `term_int_scroll_up`. -/
def term_int_scroll_up (enc : cell_encoding) (t : term σ φ) (lines : Nat) : term σ φ :=
  let t := ts_scroll_up t lines
  let t :=
    if !ts_is_at_bottom t then vi_call t (fun v => v.disable_cursor)
    else vi_move_cursor_at_current enc (vi_call t (fun v => v.enable_cursor))
  vi_call_opt t (fun v => v.flush_buffers)

/-- The function `term_int_scroll_down`. -/
def term_int_scroll_down (enc : cell_encoding) (t : term σ φ) (lines : Nat) : term σ φ :=
  let t := ts_scroll_down t lines
  let t :=
    if ts_is_at_bottom t then vi_move_cursor_at_current enc (vi_call t (fun v => v.enable_cursor))
    else t
  vi_call_opt t (fun v => v.flush_buffers)

/-- The function `term_action_scroll`; the `int` argument is converted to the
`u32` parameter of the callee. -/
def term_action_scroll (enc : cell_encoding) (t : term σ φ) (lines : Int) : term σ φ :=
  if lines > 0 then term_int_scroll_up enc t (to_u32 lines)
  else term_int_scroll_down enc t (to_u32 (-lines))

/-- The loop of `term_action_write` over the bytes of `buf`. The dispatcher
`term_execute_action`, which is defined after it, is the parameter `exec`. -/
def term_action_write_loop (enc : cell_encoding) (exec : term_action → term σ φ → term σ φ) :
    List Nat → Nat → term σ φ → term σ φ
  | [], _, t => t
  | c :: rest, color, t =>
    match t.filter with
    | some f =>
      let r := f c color t.filter_ctx
      let t := { t with filter_ctx := r.ctx }
      let t := if r.accept then term_internal_write_char2 enc t c r.color else t
      let t :=
        match r.action with
        | term_action.a_none => t
        | a => exec a t
      term_action_write_loop enc exec rest r.color t
    | none => term_action_write_loop enc exec rest color (term_internal_write_char2 enc t c color)

/-- The function `term_action_write`; `len` is the length of `buf`. -/
def term_action_write (enc : cell_encoding) (exec : term_action → term σ φ → term σ φ)
    (t : term σ φ) (buf : List Nat) (color : Nat) : term σ φ :=
  let t := ts_scroll_to_bottom t
  let t := vi_call t (fun v => v.enable_cursor)
  let t := term_action_write_loop enc exec buf color t
  let t := vi_move_cursor_at_current enc t
  vi_call_opt t (fun v => v.flush_buffers)

/-- The function `term_action_set_col_offset`. -/
def term_action_set_col_offset (t : term σ φ) (off : Nat) : term σ φ :=
  { t with term_col_offset := off % 65536 }

/-- The function `term_action_move_ch_and_cur`. -/
def term_action_move_ch_and_cur (enc : cell_encoding) (t : term σ φ) (row col : Int) : term σ φ :=
  let t := { t with
    current_row := to_u16 (min (max row 0) ((t.term_rows : Int) - 1))
    current_col := to_u16 (min (max col 0) ((t.term_cols : Int) - 1)) }
  vi_call_opt (vi_move_cursor_at_current enc t) (fun v => v.flush_buffers)

/-- The function `term_action_move_ch_and_cur_rel`. -/
def term_action_move_ch_and_cur_rel (enc : cell_encoding) (t : term σ φ) (dx dy : Int) :
    term σ φ :=
  let t := { t with
    current_row := to_u16 (min (max ((t.current_row : Int) + dx) 0) ((t.term_rows : Int) - 1))
    current_col := to_u16 (min (max ((t.current_col : Int) + dy) 0) ((t.term_cols : Int) - 1)) }
  vi_call_opt (vi_move_cursor_at_current enc t) (fun v => v.flush_buffers)

/-- The function `term_action_reset`. -/
def term_action_reset (enc : cell_encoding) (t : term σ φ) : term σ φ :=
  let t := vi_call t (fun v => v.enable_cursor)
  let t := term_action_move_ch_and_cur enc t 0 0
  let t := { t with scroll := 0, max_scroll := 0 }
  let t := (List.range t.term_rows).foldl (fun t i => ts_clear_row enc t i enc.default_color) t
  match t.term_tabs with
  | some tabs => { t with term_tabs := some (memset_tabs tabs (t.term_cols * t.term_rows)) }
  | none => t

/-- The loop `for (u32 col = from; col < to; col++) { buffer_set_entry(t,
current_row, col, entry); vi->set_char_at(current_row, col, entry); }` of the
erase actions. -/
def erase_cells (t : term σ φ) (first last entry : Nat) : term σ φ :=
  (List.range' first (last - first)).foldl
    (fun t col =>
      vi_call (buffer_set_entry t t.current_row col entry)
        (fun v => v.set_char_at t.current_row col entry))
    t

/-- The loop `for (u32 i = from; i < to; i++) ts_clear_row(t, i,
make_color(DEFAULT_FG_COLOR, DEFAULT_BG_COLOR));` of the erase actions. -/
def clear_rows (enc : cell_encoding) (t : term σ φ) (first last : Nat) : term σ φ :=
  (List.range' first (last - first)).foldl (fun t i => ts_clear_row enc t i enc.default_color) t

/-- The function `term_action_erase_in_display`. -/
def term_action_erase_in_display (enc : cell_encoding) (t : term σ φ) (mode : Int) : term σ φ :=
  let entry := enc.blank
  if mode = 0 then
    let t := erase_cells t t.current_col t.term_cols entry
    let t := clear_rows enc t (t.current_row + 1) t.term_rows
    vi_call_opt t (fun v => v.flush_buffers)
  else if mode = 1 then
    let t := clear_rows enc t 0 t.current_row
    let t := erase_cells t 0 t.current_col entry
    vi_call_opt t (fun v => v.flush_buffers)
  else if mode = 2 then
    let t := clear_rows enc t 0 t.term_rows
    vi_call_opt t (fun v => v.flush_buffers)
  else if mode = 3 then
    let row := t.current_row
    let col := t.current_col
    let t := term_action_reset enc t
    let t := vi_call t (fun v => v.move_cursor row col enc.default_color)
    vi_call_opt t (fun v => v.flush_buffers)
  else t

/-- The function `term_action_erase_in_line`. -/
def term_action_erase_in_line (enc : cell_encoding) (t : term σ φ) (mode : Int) : term σ φ :=
  let entry := enc.blank
  if mode = 0 then
    vi_call_opt (erase_cells t t.current_col t.term_cols entry) (fun v => v.flush_buffers)
  else if mode = 1 then
    vi_call_opt (erase_cells t 0 t.current_col entry) (fun v => v.flush_buffers)
  else if mode = 2 then
    vi_call_opt (ts_clear_row enc t t.current_row (enc.vgaentry_get_color entry))
      (fun v => v.flush_buffers)
  else t

/-- The function `term_action_non_buf_scroll_up` (the `ASSERT` is compiled out
of release builds and is not part of the embedding). -/
def term_action_non_buf_scroll_up (enc : cell_encoding) (t : term σ φ) (n : Nat) : term σ φ :=
  let n := min n t.term_rows
  let t := (List.range (t.term_rows - n)).foldl
    (fun t row =>
      let s := (t.scroll + row + n) % 4294967296 % t.total_buffer_rows
      let d := (t.scroll + row) % 4294967296 % t.total_buffer_rows
      { t with
        buffer :=
          memcpy16 t.buffer (t.term_cols * d % 4294967296) (t.term_cols * s % 4294967296)
            t.term_cols })
    t
  let t := (List.range' (t.term_rows - n) n).foldl
    (fun t row => ts_buf_clear_row enc t row enc.default_color) t
  term_redraw t

/-- The function `term_action_non_buf_scroll_down` (the `ASSERT` is compiled
out of release builds and is not part of the embedding). -/
def term_action_non_buf_scroll_down (enc : cell_encoding) (t : term σ φ) (n : Nat) : term σ φ :=
  let n := min n t.term_rows
  let t := (List.range (t.term_rows - n)).reverse.foldl
    (fun t row =>
      let s := (t.scroll + row) % 4294967296 % t.total_buffer_rows
      let d := (t.scroll + row + n) % 4294967296 % t.total_buffer_rows
      { t with
        buffer :=
          memcpy16 t.buffer (t.term_cols * d % 4294967296) (t.term_cols * s % 4294967296)
            t.term_cols })
    t
  let t := (List.range n).foldl (fun t row => ts_buf_clear_row enc t row enc.default_color) t
  term_redraw t

/-- The function `term_action_pause_video_output`. -/
def term_action_pause_video_output (t : term σ φ) : term σ φ :=
  let t := vi_call_opt t (fun v => v.disable_static_elems_refresh)
  let t := vi_call t (fun v => v.disable_cursor)
  { t with saved_vi := some t.vi, vi := no_output_vi }

/-- The function `term_action_restart_video_output`. With `saved_vi` null the
C code dereferences a null pointer; the embedding leaves the state as it is. -/
def term_action_restart_video_output (t : term σ φ) : term σ φ :=
  match t.saved_vi with
  | none => t
  | some v =>
    let t := { t with vi := v }
    let t := term_redraw t
    let t := vi_call t (fun v => v.enable_cursor)
    let t := vi_call_opt t (fun v => v.redraw_static_elements)
    vi_call_opt t (fun v => v.enable_static_elems_refresh)

/-- Modelled from the spec: the dispatcher `term_execute_action` of
`term_action_wrappers.c.h`, which is not part of the sources: it runs the
function of the action (section 4.4 of the spec). The first argument bounds
the nesting of write actions that a filter emits from within a write action:
a write action nested deeper is not run. -/
def term_execute_action (enc : cell_encoding) : Nat → term_action → term σ φ → term σ φ
  | _, term_action.a_none, t => t
  | 0, term_action.a_write _ _, t => t
  | depth + 1, term_action.a_write buf color, t =>
    term_action_write enc (term_execute_action enc depth) t buf color
  | _, term_action.a_scroll lines, t => term_action_scroll enc t lines
  | _, term_action.a_set_col_offset off, t => term_action_set_col_offset t off
  | _, term_action.a_move_ch_and_cur row col, t => term_action_move_ch_and_cur enc t row col
  | _, term_action.a_move_ch_and_cur_rel dx dy, t => term_action_move_ch_and_cur_rel enc t dx dy
  | _, term_action.a_reset, t => term_action_reset enc t
  | _, term_action.a_erase_in_display mode, t => term_action_erase_in_display enc t mode
  | _, term_action.a_erase_in_line mode, t => term_action_erase_in_line enc t mode
  | _, term_action.a_non_buf_scroll_up n, t => term_action_non_buf_scroll_up enc t n
  | _, term_action.a_non_buf_scroll_down n, t => term_action_non_buf_scroll_down enc t n
  | _, term_action.a_pause_video_output, t => term_action_pause_video_output t
  | _, term_action.a_restart_video_output, t => term_action_restart_video_output t

/-! ## Initialization -/

/-- The function `init_term`, run on the initial values of the statics (all
zero, `buffer`, `term_tabs`, `filter` and `saved_vi` null). The environment is
given by the arguments: the results of `in_panic()` and
`is_kmalloc_initialized()`, the memory returned by `kmalloc` (`none`: the
allocation fails), whether the `kzmalloc` of the tab map succeeds, the state
of the video hardware, the filter context and the serial-console option.
The size handed to `kmalloc` is `2 * total_buffer_rows * t->term_cols`,
computed on `u32`: the allocated object has that many bytes, which
`buffer_size` records, whatever the number of cells that the geometry asks
for. In failsafe mode the object is `failsafe_buffer`, of `80 * 25` cells of
two bytes. `printk`, `ringbuf_init` and `printk_flush_ringbuf` belong to
other subsystems and are not part of the embedding. -/
def init_term (enc : cell_encoding) (intf : video_interface σ) (rows cols : Int)
    (in_panic kmalloc_initialized : Bool) (kmalloc_mem : Option (Nat → Nat))
    (kzmalloc_ok : Bool) (screen : σ) (ctx : φ) (serial_console : Bool) : term σ φ :=
  let t : term σ φ :=
    { term_initialized := false
      term_tab_size := 8
      term_cols := to_u16 cols
      term_rows := to_u16 rows
      current_row := 0
      current_col := 0
      term_col_offset := 0
      vi := intf
      saved_vi := none
      buffer := fun _ => 0
      scroll := 0
      max_scroll := 0
      total_buffer_rows := 0
      extra_buffer_rows := 0
      term_tabs := none
      filter := none
      filter_ctx := ctx
      screen := screen
      serial_console := serial_console
      serial_out := []
      accesses := []
      buffer_size := 0 }
  let t :=
    if !in_panic then
      { t with
        extra_buffer_rows := 9 * t.term_rows
        total_buffer_rows := t.term_rows + 9 * t.term_rows }
    else t
  let allocated : Option (Nat → Nat) :=
    if !in_panic && kmalloc_initialized then kmalloc_mem else none
  let t :=
    match allocated with
    | some mem =>
      { t with
        buffer := mem
        buffer_size := 2 * t.total_buffer_rows * t.term_cols % 4294967296
        term_tabs := if kzmalloc_ok then some (fun _ => false) else none }
    | none =>
      { t with
        term_cols := min 80 t.term_cols
        term_rows := min 25 t.term_rows
        extra_buffer_rows := 0
        total_buffer_rows := min 25 t.term_rows
        buffer := fun _ => 0
        buffer_size := 2 * (80 * 25) }
  let t := vi_call t (fun v => v.enable_cursor)
  let t := term_action_move_ch_and_cur enc t 0 0
  let t := (List.range t.term_rows).foldl (fun t i => ts_clear_row enc t i enc.default_color) t
  { t with term_initialized := true }

/-! ## Definitions used by the statements -/

/-- The clamp of the spec: `clamp(v, lo, hi)` is `v` brought into `[lo, hi]`,
over the integers. -/
def clamp (v lo hi : Int) : Int := min (max v lo) hi

/-- A sequence of `advance_line` calls (`term_internal_incr_row`), one for each
color of the list. -/
def advance_lines (enc : cell_encoding) (t : term σ φ) (colors : List Nat) : term σ φ :=
  colors.foldl (term_internal_incr_row enc) t

/-- The VGA-style cell encoding used for the concrete evaluations: the
character in the low byte, the color in the high byte. -/
def vga_encoding : cell_encoding where
  make_vgaentry := fun c color => c + 256 * color
  vgaentry_get_color := fun e => e / 256
  make_color := fun fg bg => fg + 16 * bg
  DEFAULT_FG_COLOR := 7
  DEFAULT_BG_COLOR := 0

/-- A backend call, as the recording backend stores it. -/
inductive vi_op where
  | set_char_at (row col entry : Nat)
  | set_row (row : Nat) (data : List Nat) (flush : Bool)
  | clear_row (row color : Nat)
  | move_cursor (row col color : Nat)
  | enable_cursor
  | disable_cursor
  | scroll_one_line_up
  | flush_buffers
  deriving DecidableEq

/-- A backend that records every call it receives, oldest first. It reads
`cols` cells from the row handed to `set_row`; `fast` and `flush` tell whether
it provides `scroll_one_line_up` and `flush_buffers`; it provides none of the
static-element operations. -/
def recording_vi (cols : Nat) (fast flush : Bool) : video_interface (List vi_op) where
  set_char_at := fun row col e s => s ++ [vi_op.set_char_at row col e]
  set_row := fun row data fl s => s ++ [vi_op.set_row row ((List.range cols).map data) fl]
  clear_row := fun row color s => s ++ [vi_op.clear_row row color]
  move_cursor := fun row col color s => s ++ [vi_op.move_cursor row col color]
  enable_cursor := fun s => s ++ [vi_op.enable_cursor]
  disable_cursor := fun s => s ++ [vi_op.disable_cursor]
  scroll_one_line_up := if fast then some (fun s => s ++ [vi_op.scroll_one_line_up]) else none
  flush_buffers := if flush then some (fun s => s ++ [vi_op.flush_buffers]) else none
  redraw_static_elements := none
  disable_static_elems_refresh := none
  enable_static_elems_refresh := none

/-- A small terminal for the concrete evaluations: `init_term` for 3 rows of 4
columns with the recording backend, the buffer and the tab map allocated
(30 buffer rows), the fresh memory holding the value 9999 in every cell. -/
def small_term (fast : Bool) : term (List vi_op) Unit :=
  init_term vga_encoding (recording_vi 4 fast true) 3 4 false true (some (fun _ => 9999)) true
    [] () false

/-- The terminal of the scenarios: `init_term` for 25 rows of 80 columns with
the recording backend, the buffer and the tab map allocated (250 buffer
rows), the fresh memory holding the value 9999 in every cell. -/
def std_term (fast : Bool) : term (List vi_op) Unit :=
  init_term vga_encoding (recording_vi 80 fast true) 25 80 false true (some (fun _ => 9999)) true
    [] () false

/-- Two states that differ at most in the buffer contents, the backend state
and the recorded accesses. -/
def same_frame (t t' : term σ φ) : Prop :=
  t' = { t with buffer := t'.buffer, screen := t'.screen, accesses := t'.accesses }

/-- The buffer row of the logical row `row`: `(row + scroll) % total_buffer_rows`. -/
def physical_row (t : term σ φ) (row : Nat) : Nat :=
  (row + t.scroll) % 4294967296 % t.total_buffer_rows

/-- The visible cell at the logical position `(r, c)`. -/
def cell (t : term σ φ) (r c : Nat) : Nat := (buffer_get_entry t r c).1

/-- The ring geometry does not wrap: the visible rows fit in the ring, the ring
is addressable with 32 bit and `row + scroll` does not exceed `u32`. -/
def ring_ok (t : term σ φ) : Prop :=
  t.term_rows ≤ t.total_buffer_rows ∧ t.total_buffer_rows * t.term_cols ≤ 4294967296 ∧
    t.scroll + t.term_rows ≤ 4294967296

instance ring_ok_decidable (t : term σ φ) : Decidable (ring_ok t) := by
  unfold ring_ok
  infer_instance

/-- A fully populated screen: the small terminal after the write of the
twelve letters `a` .. `l`, with the cursor moved to row 1, column 2. -/
def populated_term : term (List vi_op) Unit :=
  term_action_move_ch_and_cur vga_encoding
    (term_action_write vga_encoding (term_execute_action vga_encoding 0) (small_term true)
      [97, 98, 99, 100, 101, 102, 103, 104, 105, 106, 107, 108] 7) 1 2

/-- The state `t` with the null backend bound, `saved` as the saved backend
and `s` as the state of the video hardware. -/
def paused (t : term σ φ) (saved : Option (video_interface σ)) (s : σ) : term σ φ :=
  { t with vi := no_output_vi, saved_vi := saved, screen := s }

/-- The execution of a sequence of actions, in order. -/
def run_actions (enc : cell_encoding) (depth : Nat) (acts : List term_action) (t : term σ φ) :
    term σ φ :=
  acts.foldl (fun t a => term_execute_action enc depth a t) t

/-- A guarded call of an optional backend operation, on the backend state. -/
def call_opt (op : Option (σ → σ)) (s : σ) : σ :=
  match op with
  | some f => f s
  | none => s

/-- The 26 single-character lines `A` .. `Z`, separated by `'\n'`. -/
def az_lines : List Nat :=
  [65, 10, 66, 10, 67, 10, 68, 10, 69, 10, 70, 10, 71, 10, 72, 10, 73, 10, 74, 10, 75, 10, 76, 10,
    77, 10, 78, 10, 79, 10, 80, 10, 81, 10, 82, 10, 83, 10, 84, 10, 85, 10, 86, 10, 87, 10, 88, 10,
    89, 10, 90]

/-- The cells of the visible row `r`, from column 0 to column `cols - 1`. -/
def visible_line (t : term σ φ) (r : Nat) : List Nat := (List.range t.term_cols).map (cell t r)

/-- The line that holds the character `ch` with color `color` at column `col`
and default-colored spaces in its other `cols - 1` cells. -/
def line_with (enc : cell_encoding) (cols col ch color : Nat) : List Nat :=
  List.replicate col enc.blank ++ [enc.make_vgaentry ch color % 65536]
    ++ List.replicate (cols - col - 1) enc.blank

/-- The state of the hardware cursor after the recorded calls: whether the
last of the `enable_cursor` / `disable_cursor` calls is an `enable_cursor`. -/
def cursor_enabled (calls : List vi_op) : Bool :=
  calls.foldl
    (fun b op =>
      match op with
      | vi_op.enable_cursor => true
      | vi_op.disable_cursor => false
      | _ => b)
    false

/-- The terminal of the scenario: `init_term` for 25 rows of 80 columns with
the buffer allocated (250 buffer rows, the fresh memory holding the value 9999
in every cell), no filter and no serial console; `fast` and `flush` tell
whether the recording backend provides `scroll_one_line_up` and
`flush_buffers`, `tabs` whether the tab map could be allocated. -/
def scenario_term (fast flush tabs : Bool) : term (List vi_op) Unit :=
  init_term vga_encoding (recording_vi 80 fast flush) 25 80 false true (some (fun _ => 9999)) tabs
    [] () false

/-- The terminal of the scenario after the write-text action of `az_lines`. -/
def after_az (fast flush tabs : Bool) : term (List vi_op) Unit :=
  term_execute_action vga_encoding 1 (term_action.a_write az_lines 7)
    (scenario_term fast flush tabs)

/-- The terminal of the scenario after the write-text action and scroll(1). -/
def after_az_scroll (fast flush tabs : Bool) : term (List vi_op) Unit :=
  term_execute_action vga_encoding 1 (term_action.a_scroll 1) (after_az fast flush tabs)

/-- A dirtied 25 x 80 terminal: the terminal of the scenario after the write
of `az_lines`, scroll(1) and the write of a tab (which marks column 32 of
row 24). -/
def dirty_term : term (List vi_op) Unit :=
  term_execute_action vga_encoding 1 (term_action.a_write [9] 7) (after_az_scroll true true true)

/-- The terminal in failsafe mode: `init_term` for 25 rows of 80 columns with
`kmalloc` not yet initialised, so that the buffer is the static
`failsafe_buffer` of `80 * 25` cells and there is no tab map. -/
def failsafe_term : term (List vi_op) Unit :=
  init_term vga_encoding (recording_vi 80 false true) 25 80 false false none false [] () false

/-- The failsafe terminal after move-cursor to `(24, 0)` and the write-text
action of `bytes`. -/
def failsafe_last_row (bytes : List Nat) : term (List vi_op) Unit :=
  term_execute_action vga_encoding 1 (term_action.a_write bytes 7)
    (term_execute_action vga_encoding 1 (term_action.a_move_ch_and_cur 24 0) failsafe_term)

/-- The `move_cursor` calls among the recorded backend calls. -/
def move_cursor_calls (calls : List vi_op) : List vi_op :=
  calls.filter
    (fun op =>
      match op with
      | vi_op.move_cursor _ _ _ => true
      | _ => false)

/-- The small terminal after `2^32 - 1` line advances past the bottom, with
the view five lines above the bottom: a state that satisfies the ring
invariant (`extra_buffer_rows = 27`). -/
def late_term : term (List vi_op) Unit :=
  { small_term false with scroll := 4294967290, max_scroll := 4294967295 }

/-- The first part of `init_term`, up to the choice of the buffer: the state
before `vi->enable_cursor()` is called. -/
def init_setup (intf : video_interface σ) (rows cols : Int)
    (in_panic kmalloc_initialized : Bool) (kmalloc_mem : Option (Nat → Nat))
    (kzmalloc_ok : Bool) (screen : σ) (ctx : φ) (serial_console : Bool) : term σ φ :=
  let t : term σ φ :=
    { term_initialized := false
      term_tab_size := 8
      term_cols := to_u16 cols
      term_rows := to_u16 rows
      current_row := 0
      current_col := 0
      term_col_offset := 0
      vi := intf
      saved_vi := none
      buffer := fun _ => 0
      scroll := 0
      max_scroll := 0
      total_buffer_rows := 0
      extra_buffer_rows := 0
      term_tabs := none
      filter := none
      filter_ctx := ctx
      screen := screen
      serial_console := serial_console
      serial_out := []
      accesses := []
      buffer_size := 0 }
  let t :=
    if !in_panic then
      { t with
        extra_buffer_rows := 9 * t.term_rows
        total_buffer_rows := t.term_rows + 9 * t.term_rows }
    else t
  let allocated : Option (Nat → Nat) :=
    if !in_panic && kmalloc_initialized then kmalloc_mem else none
  match allocated with
  | some mem =>
    { t with
      buffer := mem
      buffer_size := 2 * t.total_buffer_rows * t.term_cols % 4294967296
      term_tabs := if kzmalloc_ok then some (fun _ => false) else none }
  | none =>
    { t with
      term_cols := min 80 t.term_cols
      term_rows := min 25 t.term_rows
      extra_buffer_rows := 0
      total_buffer_rows := min 25 t.term_rows
      buffer := fun _ => 0
      buffer_size := 2 * (80 * 25) }

/-- The second part of `init_term`, from `vi->enable_cursor()` on. -/
def init_finish (enc : cell_encoding) (t : term σ φ) : term σ φ :=
  let t := vi_call t (fun v => v.enable_cursor)
  let t := term_action_move_ch_and_cur enc t 0 0
  let t := (List.range t.term_rows).foldl (fun t i => ts_clear_row enc t i enc.default_color) t
  { t with term_initialized := true }

/-- The backend state after the calls of `init_term`: `enable_cursor`,
`move_cursor(0, 0, color)`, `flush_buffers` if the backend has it, and
`clear_row` for each of the `rows` rows; no `disable_cursor` is among them. -/
def init_screen (enc : cell_encoding) (v : video_interface σ) (rows color : Nat) (s : σ) : σ :=
  (List.range rows).foldl (fun s i => v.clear_row i enc.default_color s)
    (call_opt v.flush_buffers (v.move_cursor 0 0 color (v.enable_cursor s)))

/-- The filter calls of a write-text action as the filter protocol of the spec
has them (section 4.5): the filter is called once for each byte of `buf`, in
input order; each call receives the color and the context that the call before
it left behind. The list holds each byte with the result of its call. -/
def filter_calls (f : term_filter_func φ) : List Nat → Nat → φ → List (Nat × filter_result φ)
  | [], _, _ => []
  | c :: rest, color, ctx =>
    (c, f c color ctx) :: filter_calls f rest (f c color ctx).color (f c color ctx).ctx

/-- The character writes of a write-text action as the filter protocol of the
spec has them: for each filter call, in order, the context the call left is
stored and, if the call accepted the byte, the byte is written with the color
the call left. -/
def write_accepted (enc : cell_encoding) (calls : List (Nat × filter_result φ)) (t : term σ φ) :
    term σ φ :=
  calls.foldl
    (fun t call =>
      if call.2.accept then
        term_internal_write_char2 enc { t with filter_ctx := call.2.ctx } call.1 call.2.color
      else { t with filter_ctx := call.2.ctx })
    t

/-- A filter that rejects the byte `'X'`, accepts every other byte, emits no
action and appends each byte it is called on to its context. -/
def reject_x_log : term_filter_func (List Nat) :=
  fun c color ctx =>
    { accept := c != 88, color := color, action := term_action.a_none, ctx := ctx ++ [c] }

/-- The small terminal (3 rows of 4 columns, no fast scroll) with the filter
`reject_x_log` bound and an empty filter context. -/
def logging_term : term (List vi_op) (List Nat) :=
  { init_term vga_encoding (recording_vi 4 false true) 3 4 false true (some (fun _ => 9999)) true
      [] [] false with
    filter := some reject_x_log }

/-- The failsafe terminal with the letter `A` written at `(1, 5)` and the
cursor moved to the last row: `total_buffer_rows = rows = 25`. -/
def failsafe_bottom_term : term (List vi_op) Unit :=
  term_execute_action vga_encoding 1 (term_action.a_move_ch_and_cur 24 0)
    (term_execute_action vga_encoding 1 (term_action.a_write [65] 7)
      (term_execute_action vga_encoding 1 (term_action.a_move_ch_and_cur 1 5) failsafe_term))

/-- The failsafe terminal (no tab map) after the write-text action of 80
letters `a`: the cursor is at `(0, 80)`, the pending-wrap column. -/
def pending_wrap_term : term (List vi_op) Unit :=
  term_execute_action vga_encoding 1 (term_action.a_write (List.replicate 80 97) 7) failsafe_term

/-! ## Wake-up timers (`kernel/timer.c`) -/

/-- Modelled from the spec: the states of a task (`sched.h`, which is not part
of the sources; section 1 of the spec leaves the scheduler outside the
engine). `timer.c` tests for `TASK_STATE_SLEEPING` and makes a task
`TASK_STATE_RUNNABLE`; `TASK_STATE_RUNNING` stands for every other state. -/
inductive task_state where
  | TASK_STATE_RUNNABLE
  | TASK_STATE_RUNNING
  | TASK_STATE_SLEEPING
  deriving DecidableEq

/-- Modelled from the spec: the fields of `struct task` (`sched.h`, which is
not part of the sources) that `timer.c` reads and writes; the node
`wakeup_timer_node` is represented by the position of the task in
`timer_wakeup_list`. `ticks_before_wake_up` is a `u32`. -/
structure task where
  ticks_before_wake_up : Nat
  timer_ready : Bool
  state : task_state

/-- The state that the timer functions act on: the tasks (a task pointer is
the index of the task), the list `timer_wakeup_list` (the tasks whose node is
linked, head first) and the flag set by `sched_set_need_resched`. -/
structure timer_state where
  tasks : Nat → task
  timer_wakeup_list : List Nat
  need_resched : Bool

/-- An assignment to the fields of the task `ti`. -/
def update_task (s : timer_state) (ti : Nat) (f : task → task) : timer_state :=
  { s with tasks := fun tj => if tj = ti then f (s.tasks tj) else s.tasks tj }

/-- Modelled from the spec: `list_is_node_in_list(&ti->wakeup_timer_node)` of
`list.h`, which is not part of the sources: whether the node is linked. -/
def list_is_node_in_list (s : timer_state) (ti : Nat) : Bool :=
  decide (ti ∈ s.timer_wakeup_list)

/-- Modelled from the spec: `list_add_tail(&timer_wakeup_list, node)` of
`list.h`, which is not part of the sources: the node becomes the last one. -/
def list_add_tail (s : timer_state) (ti : Nat) : timer_state :=
  { s with timer_wakeup_list := s.timer_wakeup_list ++ [ti] }

/-- Modelled from the spec: `list_remove(node)` of `list.h`, which is not part
of the sources: the node is unlinked, the order of the others is kept. -/
def list_remove (s : timer_state) (ti : Nat) : timer_state :=
  { s with timer_wakeup_list := s.timer_wakeup_list.filter (fun tj => tj != ti) }

/-- Modelled from the spec: `task_change_state(ti, state)` of the scheduler,
which is not part of the sources: the make-runnable call of section 1. -/
def task_change_state (s : timer_state) (ti : Nat) (st : task_state) : timer_state :=
  update_task s ti (fun T => { T with state := st })

/-- Modelled from the spec: `sched_set_need_resched()` of the scheduler, which
is not part of the sources. -/
def sched_set_need_resched (s : timer_state) : timer_state :=
  { s with need_resched := true }

/-- The function `task_set_wakeup_timer`; `ticks` is converted to the `u32`
parameter. The result is `none` when an `ASSERT` fails. -/
def task_set_wakeup_timer (s : timer_state) (ti ticks : Nat) : Option timer_state :=
  let ticks := ticks % 4294967296
  if ticks = 0 then none
  else if (s.tasks ti).ticks_before_wake_up = 0 then
    if list_is_node_in_list s ti then none
    else
      some (update_task (list_add_tail s ti) ti (fun T => { T with ticks_before_wake_up := ticks }))
  else
    if !list_is_node_in_list s ti then none
    else some (update_task s ti (fun T => { T with ticks_before_wake_up := ticks }))

/-- The function `task_update_wakeup_timer_if_any`; `new_ticks` is converted
to the `u32` parameter. The result is `none` when an `ASSERT` fails. -/
def task_update_wakeup_timer_if_any (s : timer_state) (ti new_ticks : Nat) :
    Option timer_state :=
  let new_ticks := new_ticks % 4294967296
  if new_ticks = 0 then none
  else if (s.tasks ti).ticks_before_wake_up > 0 then
    if !list_is_node_in_list s ti then none
    else some (update_task s ti (fun T => { T with ticks_before_wake_up := new_ticks }))
  else some s

/-- The function `task_cancel_wakeup_timer`: the value returned and the state
it leaves. -/
def task_cancel_wakeup_timer (s : timer_state) (ti : Nat) : Nat × timer_state :=
  let old := (s.tasks ti).ticks_before_wake_up
  if old > 0 then
    (old, list_remove
      (update_task s ti (fun T => { T with timer_ready := false, ticks_before_wake_up := 0 })) ti)
  else (old, s)

/-- The body of the loop of `tick_all_timers` for the node `pos`; the flag is
`any_woken_up_task`. The result is `none` when the `ASSERT` fails. -/
def tick_all_timers_body (s : timer_state) (pos : Nat) (any_woken_up_task : Bool) :
    Option (timer_state × Bool) :=
  if (s.tasks pos).ticks_before_wake_up = 0 then none
  else
    let s := update_task s pos
      (fun T => { T with ticks_before_wake_up := T.ticks_before_wake_up - 1 })
    if (s.tasks pos).ticks_before_wake_up = 0 then
      let s := update_task s pos (fun T => { T with timer_ready := true })
      let s := list_remove s pos
      if (s.tasks pos).state = task_state.TASK_STATE_SLEEPING then
        some (task_change_state s pos task_state.TASK_STATE_RUNNABLE, true)
      else some (s, any_woken_up_task)
    else some (s, any_woken_up_task)

/-- The loop `list_for_each(pos, temp, &timer_wakeup_list, wakeup_timer_node)`
of `tick_all_timers` over the nodes that are linked when the loop starts (the
iteration keeps the successor of `pos` in `temp`, so that unlinking `pos` does
not disturb it). -/
def tick_all_timers_loop : List Nat → timer_state → Bool → Option (timer_state × Bool)
  | [], s, any_woken_up_task => some (s, any_woken_up_task)
  | pos :: rest, s, any_woken_up_task =>
    match tick_all_timers_body s pos any_woken_up_task with
    | some r => tick_all_timers_loop rest r.1 r.2
    | none => none

/-- The function `tick_all_timers`. -/
def tick_all_timers (s : timer_state) : Option timer_state :=
  match tick_all_timers_loop s.timer_wakeup_list s false with
  | some (s, any_woken_up_task) =>
    some (if any_woken_up_task then sched_set_need_resched s else s)
  | none => none

/-- A call that `kernel_sleep` makes, on the current task. -/
inductive sleep_call where
  | task_set_wakeup_timer (ticks : Nat)
  | task_change_state (st : task_state)
  | kernel_yield
  deriving DecidableEq

/-- The loop `for (u32 i = 0; i < q; i++)` of `kernel_sleep`: the first
argument is `q - i`, the list holds the calls made so far, oldest first, and
`pending_signals k` is the result of the call number `k` of
`pending_signals()`. The flag of the result tells whether the function has
returned from within the loop. -/
def kernel_sleep_loop (pending_signals : Nat → Bool) :
    Nat → Nat → List sleep_call → List sleep_call × Bool
  | 0, _, calls => (calls, false)
  | n + 1, i, calls =>
    let calls := calls ++ [sleep_call.task_set_wakeup_timer 4294967295,
      sleep_call.task_change_state task_state.TASK_STATE_SLEEPING, sleep_call.kernel_yield]
    if pending_signals i then (calls, true)
    else kernel_sleep_loop pending_signals n (i + 1) calls

/-- The function `kernel_sleep`, as the list of the calls it makes, oldest
first; `ticks` is converted to the `u64` parameter, and `pending_signals k` is
the result of the call number `k` of `pending_signals()`. -/
def kernel_sleep (ticks : Nat) (pending_signals : Nat → Bool) : List sleep_call :=
  let ticks := ticks % 18446744073709551616
  let rem := ticks % 4294967296
  let q := ticks / 4294967296 % 4294967296
  let r := kernel_sleep_loop pending_signals q 0 []
  if r.2 then r.1
  else
    let r : List sleep_call × Bool :=
      if q ≠ 0 then
        let calls := r.1 ++ [sleep_call.task_set_wakeup_timer q,
          sleep_call.task_change_state task_state.TASK_STATE_SLEEPING]
        if rem ≠ 0 then
          (calls ++ [sleep_call.kernel_yield], pending_signals q)
        else (calls, false)
      else (r.1, false)
    if r.2 then r.1
    else
      let calls :=
        if rem ≠ 0 then
          r.1 ++ [sleep_call.task_set_wakeup_timer rem,
            sleep_call.task_change_state task_state.TASK_STATE_SLEEPING]
        else r.1
      calls ++ [sleep_call.kernel_yield]

/-- The tick counts that the calls arm a timer with, in call order. -/
def armed_ticks (calls : List sleep_call) : List Nat :=
  calls.filterMap
    (fun call =>
      match call with
      | sleep_call.task_set_wakeup_timer ticks => some ticks
      | _ => none)

/-- The number of `kernel_yield` calls among the calls. -/
def yield_count (calls : List sleep_call) : Nat :=
  calls.count sleep_call.kernel_yield

/-- The invariant of the wake-up timer list: no node is linked twice, and the
node of a task is linked exactly if its `ticks_before_wake_up` is positive. -/
def timer_inv (s : timer_state) : Prop :=
  s.timer_wakeup_list.Nodup ∧
    ∀ ti, ti ∈ s.timer_wakeup_list ↔ 0 < (s.tasks ti).ticks_before_wake_up

/-- The call returns, no `ASSERT` having failed, and leaves a state that
satisfies the invariant of the wake-up timer list. -/
def returns_with_inv : Option timer_state → Prop
  | some s => timer_inv s
  | none => False

/-- A state with three tasks: task 1 sleeps with 3 ticks left, task 2 sleeps
with 1 tick left, every other task has no timer; the nodes of the tasks 1 and
2 are linked, in this order. -/
def sample_timers : timer_state where
  tasks := fun ti =>
    if ti = 1 then
      { ticks_before_wake_up := 3, timer_ready := false, state := task_state.TASK_STATE_SLEEPING }
    else if ti = 2 then
      { ticks_before_wake_up := 1, timer_ready := false, state := task_state.TASK_STATE_SLEEPING }
    else
      { ticks_before_wake_up := 0, timer_ready := false, state := task_state.TASK_STATE_RUNNING }
  timer_wakeup_list := [1, 2]
  need_resched := false

/-! ## Terminal states on a storing backend -/

/-- A backend without fast scroll that stores the cells it is given: its state
maps `(row, col)` to the cell shown there. `set_char_at` stores one cell,
`set_row` the first `cols` cells of the row it is handed, `clear_row` `cols`
spaces of the given color; the cursor operations leave the cells as they are
and no optional operation is provided. -/
def storing_vi (enc : cell_encoding) (cols : Nat) : video_interface (Nat → Nat → Nat) where
  set_char_at := fun row col e s => fun r c => if r = row ∧ c = col then e else s r c
  set_row := fun row data _ s => fun r c => if r = row ∧ c < cols then data c else s r c
  clear_row := fun row color s =>
    fun r c => if r = row ∧ c < cols then enc.make_vgaentry 32 color % 65536 else s r c
  move_cursor := fun _ _ _ s => s
  enable_cursor := fun s => s
  disable_cursor := fun s => s
  scroll_one_line_up := none
  flush_buffers := none
  redraw_static_elements := none
  disable_static_elems_refresh := none
  enable_static_elems_refresh := none

/-- The screen mirrors the buffer: the cell that the storing backend holds at
`(r, c)` is `buffer_get_entry(r, c)`, for all `r < rows` and `c < cols`. -/
def screen_mirrors_buffer (t : term (Nat → Nat → Nat) φ) : Bool :=
  (List.range t.term_rows).all
    (fun r => (List.range t.term_cols).all (fun c => t.screen r c == cell t r c))

/-- A terminal of 3 rows of 4 columns in failsafe mode (3 buffer rows, no tab
map) on the storing backend, whose cells all hold 0 before `init_term`. -/
def mirror_term : term (Nat → Nat → Nat) Unit :=
  init_term vga_encoding (storing_vi vga_encoding 4) 3 4 false false none false (fun _ _ => 0) ()
    false

/-- The actions that lead to the cursor at `(2, 4)`, the pending-wrap column
of the last row, with `scroll = 1` and the letter `X` in the cell `(0, 0)`:
three line feeds, move-cursor to `(0, 0)`, the write of `X`, move-cursor to
`(2, 0)` and the write of four letters `a`. -/
def mirror_actions : List term_action :=
  [term_action.a_write [10, 10, 10] 7, term_action.a_move_ch_and_cur 0 0,
    term_action.a_write [88] 7, term_action.a_move_ch_and_cur 2 0,
    term_action.a_write [97, 97, 97, 97] 7]

/-- The failsafe terminal (25 buffer rows for 25 visible rows) after
`2^32 - 1` line advances past the bottom: `scroll = max_scroll = 2^32 - 1`. -/
def wrapped_term : term (List vi_op) Unit :=
  { failsafe_term with scroll := 4294967295, max_scroll := 4294967295 }

/-- The failsafe terminal at `scroll = max_scroll = 2^32 - 1` after
move-cursor to `(r, c)` and the write-text action of the letter `X`. -/
def wrapped_x_at (r c : Int) : term (List vi_op) Unit :=
  term_execute_action vga_encoding 1 (term_action.a_write [88] 7)
    (term_execute_action vga_encoding 1 (term_action.a_move_ch_and_cur r c) wrapped_term)

/-- The failsafe terminal at `scroll = max_scroll = 2^32 - 1` with the letter
`X` in the cell `(0, 10)` and the cursor at `(21, 5)`. -/
def wrapped_erase_term : term (List vi_op) Unit :=
  term_execute_action vga_encoding 1 (term_action.a_move_ch_and_cur 21 5) (wrapped_x_at 0 10)

/-- The failsafe terminal at `scroll = max_scroll = 2^32 - 5` with the letter
`X` in the cell `(4, 10)` and the cursor at `(24, 0)`, the last row. -/
def near_wrap_term : term (List vi_op) Unit :=
  term_execute_action vga_encoding 1 (term_action.a_move_ch_and_cur 24 0)
    (term_execute_action vga_encoding 1 (term_action.a_write [88] 7)
      (term_execute_action vga_encoding 1 (term_action.a_move_ch_and_cur 4 10)
        { failsafe_term with scroll := 4294967291, max_scroll := 4294967291 }))

/-- The failsafe terminal at `scroll = max_scroll = 2^32 - 1` with the cursor
at `(24, 0)`, the last row. -/
def wrapped_last_row_term : term (List vi_op) Unit :=
  term_execute_action vga_encoding 1 (term_action.a_move_ch_and_cur 24 0) wrapped_term

/-- The 25 x 80 terminal with a tab map after the write-text action of 80
letters `a`: the cursor is at `(0, 80)`, the pending-wrap column. -/
def std_pending_wrap_term : term (List vi_op) Unit :=
  term_execute_action vga_encoding 1 (term_action.a_write (List.replicate 80 97) 7) (std_term true)

/-! ## Syscall tracing: the `iov` parameter type (`modules/tracing/ptype_iov.c`) -/

/-- Modelled from the spec: `struct iovec` of the user-space ABI, which is not
part of the sources: a base address and a length (`size_t`). -/
structure iovec where
  iov_base : Nat
  iov_len : Nat

/-- The environment of `save_param_iov`, whose callees are not part of the
sources: `copy_from_user src n` gives the array read from the user address
`src` when the copy of `n` bytes succeeds (the C function returns 0) and
`none` when it fails; `save base len off` is the result of
`ptype_buffer.save(base, len, dest_buf + off, 16)`. -/
structure iov_env where
  copy_from_user : Nat → Nat → Option (Nat → iovec)
  save : Nat → Int → Nat → Bool

/-- The loop `for (int i = 0; i < iovcnt; i++)` of `save_param_iov`: the first
argument is `iovcnt - i`, the list holds the values stored in
`((sptr *)dest_buf)[0 .. i-1]`. The flag of the result tells whether the
function has returned (with `false`) from within the loop. -/
def save_param_iov_loop (env : iov_env) (iov : Nat → iovec) :
    Nat → Nat → List Int → Bool × List Int
  | 0, _, lens => (false, lens)
  | n + 1, i, lens =>
    let lens := lens ++ [to_int (iov i).iov_len]
    let ok := env.save (iov i).iov_base (to_int (iov i).iov_len) (64 + 16 * i)
    if !ok then (true, lens)
    else save_param_iov_loop env iov n (i + 1) lens

/-- The function `save_param_iov` (the `ASSERT` is compiled out of release
builds and is not part of the embedding; `sizeof(iovec[0])` is 8): the value
returned and the lengths stored in `dest_buf`. -/
def save_param_iov (env : iov_env) (data : Nat) (iovcnt : Int) : Bool × List Int :=
  if iovcnt ≤ 0 then (false, [])
  else
    let iovcnt := min iovcnt 4
    match env.copy_from_user data (8 * iovcnt.toNat) with
    | none => (false, [])
    | some iov =>
      let r := save_param_iov_loop env iov iovcnt.toNat 0 []
      if r.1 then (false, r.2)
      else (false, r.2)

/-- An environment in which every copy from user space and every buffer save
succeeds; the entry `i` of the user array has base `4096 + 32 * i` and
length 10. -/
def succeeding_env : iov_env where
  copy_from_user := fun _ _ => some (fun i => { iov_base := 4096 + 32 * i, iov_len := 10 })
  save := fun _ _ _ => true

/-! # Theorems -/

/-! ## Frame lemmas -/

theorem foldl_screen_only {α : Type} (f : term σ φ → α → term σ φ)
    (hf : ∀ t a, f t a = { t with screen := (f t a).screen }) (l : List α) (t : term σ φ) :
    l.foldl f t = { t with screen := (l.foldl f t).screen } := by
  induction l generalizing t with
  | nil => rfl
  | cons a l ih =>
    simp only [List.foldl_cons]
    rw [ih (f t a)]
    rw [hf t a]

theorem term_redraw_eq (t : term σ φ) :
    term_redraw t = { t with screen := (term_redraw t).screen } := by
  unfold term_redraw
  exact foldl_screen_only _ (fun _ _ => rfl) _ t

theorem ts_set_scroll_eq (t : term σ φ) (v : Nat) :
    ts_set_scroll t v =
      { t with
        scroll := min (max v (if t.max_scroll > t.extra_buffer_rows
          then t.max_scroll - t.extra_buffer_rows else 0)) t.max_scroll
        screen := (ts_set_scroll t v).screen } := by
  unfold ts_set_scroll
  simp only
  split_ifs with h1 h2 h2
  · cases t; simp_all
  · rw [term_redraw_eq]
  · cases t; simp_all
  · rw [term_redraw_eq]

theorem vi_call_opt_eq (t : term σ φ) (op : video_interface σ → Option (σ → σ)) :
    vi_call_opt t op = { t with screen := (vi_call_opt t op).screen } := by
  unfold vi_call_opt
  split <;> rfl

/-! ## C1: ring invariant -/

theorem incr_row_at_bottom (enc : cell_encoding) (t : term σ φ) (color : Nat)
    (h : t.scroll = t.max_scroll) :
    (term_internal_incr_row enc t color).scroll = (term_internal_incr_row enc t color).max_scroll := by
  unfold term_internal_incr_row
  simp only
  split_ifs with h1
  · exact h
  · cases hv : t.vi.scroll_one_line_up with
    | some f => simp [ts_clear_row, ts_buf_clear_row, vi_call, h]
    | none =>
      simp only [ts_clear_row, ts_buf_clear_row, vi_call]
      rw [ts_set_scroll_eq]
      simp only
      split_ifs <;> omega

theorem advance_lines_at_bottom (enc : cell_encoding) (colors : List Nat) (t : term σ φ)
    (h : t.scroll = t.max_scroll) :
    (advance_lines enc t colors).scroll = (advance_lines enc t colors).max_scroll := by
  induction colors generalizing t with
  | nil => exact h
  | cons c cs ih => exact ih _ (incr_row_at_bottom enc t c h)

/-- C1 (ring invariant): from a state with `scroll = max_scroll = 0`, as left
by init or reset, after every finite sequence of `advance_line` calls
(`term_internal_incr_row`), whatever backend is bound (with or without
`scroll_one_line_up`), `scroll ≤ max_scroll` and
`max_scroll - scroll ≤ extra_buffer_rows`. -/
theorem ring_invariant_advance_line (enc : cell_encoding) (t : term σ φ) (colors : List Nat)
    (hs : t.scroll = 0) (hm : t.max_scroll = 0) :
    (advance_lines enc t colors).scroll ≤ (advance_lines enc t colors).max_scroll ∧
      (advance_lines enc t colors).max_scroll - (advance_lines enc t colors).scroll
        ≤ (advance_lines enc t colors).extra_buffer_rows := by
  have h := advance_lines_at_bottom enc colors t (by rw [hs, hm])
  rw [h]
  exact ⟨le_refl _, by simp⟩

/-- Witness of C1: four line advances on the small terminal without fast
scroll, the last two of them past the bottom row. -/
theorem ring_invariant_advance_line_witness :
    (small_term false).scroll = 0 ∧ (small_term false).max_scroll = 0 ∧
      (advance_lines vga_encoding (small_term false) [7, 7, 7, 7]).max_scroll = 2 ∧
      (advance_lines vga_encoding (small_term false) [7, 7, 7, 7]).scroll
        ≤ (advance_lines vga_encoding (small_term false) [7, 7, 7, 7]).max_scroll ∧
      (advance_lines vga_encoding (small_term false) [7, 7, 7, 7]).max_scroll
          - (advance_lines vga_encoding (small_term false) [7, 7, 7, 7]).scroll
        ≤ (advance_lines vga_encoding (small_term false) [7, 7, 7, 7]).extra_buffer_rows :=
  ⟨by decide, by decide, by decide,
    ring_invariant_advance_line vga_encoding (small_term false) [7, 7, 7, 7]
      (by decide) (by decide)⟩

/-! ## C2: scroll clamp -/

/-- C2 (scroll clamp): for every state and every requested value `v`, after
`ts_set_scroll(v)` the scroll offset is
`clamp(v, max(0, max_scroll - extra_buffer_rows), max_scroll)` over the
integers, and `max_scroll`, the cursor and the buffer contents are unchanged. -/
theorem ts_set_scroll_clamp (t : term σ φ) (v : Nat) :
    ((ts_set_scroll t v).scroll : Int)
        = clamp v (max 0 ((t.max_scroll : Int) - t.extra_buffer_rows)) t.max_scroll ∧
      (ts_set_scroll t v).max_scroll = t.max_scroll ∧
      (ts_set_scroll t v).current_row = t.current_row ∧
      (ts_set_scroll t v).current_col = t.current_col ∧
      (ts_set_scroll t v).buffer = t.buffer := by
  rw [ts_set_scroll_eq]
  refine ⟨?_, rfl, rfl, rfl, rfl⟩
  simp only [clamp]
  split <;> omega

/-! ## C3: write / read round trip -/

/-- C3 (write/read round trip): at every scroll offset (every state), for
`r < rows`, `c < cols` and every cell value `e` (a `u16`),
`buffer_get_entry(r, c)` right after `buffer_set_entry(r, c, e)` returns `e`;
in particular the cell `make_vgaentry(ch, color)` stored by
`term_internal_write_printable_char` at the cursor `(r, c)` is read back. -/
theorem write_read_round_trip (enc : cell_encoding) (t : term σ φ) (r c e ch color : Nat)
    (_hr : r < t.term_rows) (_hc : c < t.term_cols) (he : e < 65536) :
    (buffer_get_entry (buffer_set_entry t r c e) r c).1 = e ∧
      (buffer_get_entry
        (term_internal_write_printable_char enc { t with current_row := r, current_col := c }
          ch color) r c).1 = enc.make_vgaentry ch color % 65536 := by
  constructor
  · simp [buffer_get_entry, buffer_set_entry, buffer_index, Nat.mod_eq_of_lt he]
  · simp [buffer_get_entry, buffer_set_entry, buffer_index, term_internal_write_printable_char,
      vi_call]

/-- Witness of C3: the cell `'A'` with color 7 written at `(2, 3)` of the small
terminal after two line advances past the bottom (scroll offset 2). -/
theorem write_read_round_trip_witness :
    2 < (advance_lines vga_encoding (small_term true) [7, 7, 7, 7]).term_rows ∧
      3 < (advance_lines vga_encoding (small_term true) [7, 7, 7, 7]).term_cols ∧
      1857 < 65536 ∧
      (buffer_get_entry
        (buffer_set_entry (advance_lines vga_encoding (small_term true) [7, 7, 7, 7]) 2 3 1857)
          2 3).1 = 1857 ∧
      (buffer_get_entry
        (term_internal_write_printable_char vga_encoding
          { advance_lines vga_encoding (small_term true) [7, 7, 7, 7] with
            current_row := 2, current_col := 3 } 65 7) 2 3).1
        = vga_encoding.make_vgaentry 65 7 % 65536 :=
  ⟨by decide, by decide, by decide,
    write_read_round_trip vga_encoding (advance_lines vga_encoding (small_term true) [7, 7, 7, 7])
      2 3 1857 65 7 (by decide) (by decide) (by decide)⟩

/-! ## C4: a tab followed by a backspace -/

theorem to_int_of_small (n : Nat) (h : n < 2147483648) : to_int n = (n : Int) := by
  unfold to_int
  have : n % 4294967296 = n := Nat.mod_eq_of_lt (by omega)
  rw [this]; simp [h]

theorem same_frame_refl (t : term σ φ) : same_frame t t := rfl

theorem same_frame_trans {t t' t'' : term σ φ} (h : same_frame t t') (h' : same_frame t' t'') :
    same_frame t t'' := by
  unfold same_frame at *
  rw [h', h]

theorem same_frame_physical_row {t t' : term σ φ} (h : same_frame t t') (row : Nat) :
    physical_row t' row = physical_row t row := by
  unfold same_frame at h
  rw [h]; rfl

theorem same_frame_buffer_index {t t' : term σ φ} (h : same_frame t t') (row col : Nat) :
    buffer_index t' row col = buffer_index t row col := by
  unfold same_frame at h
  rw [h]; rfl

theorem foldl_frame_buffer {α : Type} (f : term σ φ → α → term σ φ) (p : term σ φ → α → Nat → Prop)
    (v : Nat) (hframe : ∀ t a, same_frame t (f t a))
    (hin : ∀ t a i, p t a i → (f t a).buffer i = v)
    (hout : ∀ t a i, ¬ p t a i → (f t a).buffer i = t.buffer i)
    (hp : ∀ t t' a i, same_frame t t' → (p t' a i ↔ p t a i)) (l : List α) (t : term σ φ) :
    same_frame t (l.foldl f t) ∧
      (∀ i, (∃ a ∈ l, p t a i) → (l.foldl f t).buffer i = v) ∧
      (∀ i, (¬ ∃ a ∈ l, p t a i) → (l.foldl f t).buffer i = t.buffer i) := by
  induction l generalizing t with
  | nil => exact ⟨rfl, by simp, by simp⟩
  | cons a l ih =>
    obtain ⟨h1, h2, h3⟩ := ih (f t a)
    simp only [List.foldl_cons]
    refine ⟨same_frame_trans (hframe t a) h1, ?_, ?_⟩
    · intro i hi
      by_cases hl : ∃ b ∈ l, p (f t a) b i
      · exact h2 i hl
      · rw [h3 i hl]
        obtain ⟨b, hb, hpb⟩ := hi
        rcases List.mem_cons.mp hb with rfl | hb'
        · exact hin t b i hpb
        · exact absurd ⟨b, hb', (hp t (f t a) b i (hframe t a)).mpr hpb⟩ hl
    · intro i hi
      have hl : ¬ ∃ b ∈ l, p (f t a) b i := by
        rintro ⟨b, hb, hpb⟩
        exact hi ⟨b, List.mem_cons_of_mem _ hb, (hp t (f t a) b i (hframe t a)).mp hpb⟩
      rw [h3 i hl]
      exact hout t a i (fun hpa => hi ⟨a, List.mem_cons_self _ _, hpa⟩)

theorem erase_cells_spec (t : term σ φ) (first last entry : Nat) :
    same_frame t (erase_cells t first last entry) ∧
      (∀ i, (∃ col, first ≤ col ∧ col < last ∧ i = buffer_index t t.current_row col) →
        (erase_cells t first last entry).buffer i = entry % 65536) ∧
      (∀ i, (¬ ∃ col, first ≤ col ∧ col < last ∧ i = buffer_index t t.current_row col) →
        (erase_cells t first last entry).buffer i = t.buffer i) := by
  have h := foldl_frame_buffer
    (fun (t : term σ φ) col => vi_call (buffer_set_entry t t.current_row col entry)
        (fun v => v.set_char_at t.current_row col entry))
    (fun t col i => i = buffer_index t t.current_row col) (entry % 65536)
    (fun t a => rfl)
    (fun t a i hi => by simp [vi_call, buffer_set_entry, hi])
    (fun t a i hi => by simp [vi_call, buffer_set_entry, hi])
    (fun t t' a i hf => by
      simp only
      rw [same_frame_buffer_index hf]
      have : t'.current_row = t.current_row := by unfold same_frame at hf; rw [hf]
      rw [this])
    (List.range' first (last - first)) t
  refine ⟨h.1, fun i hi => h.2.1 i ?_, fun i hi => h.2.2 i ?_⟩
  · obtain ⟨col, h1, h2, h3⟩ := hi
    exact ⟨col, by rw [List.mem_range'_1]; omega, h3⟩
  · rintro ⟨col, hm, h3⟩
    rw [List.mem_range'_1] at hm
    exact hi ⟨col, hm.1, by omega, h3⟩

theorem clear_rows_spec (enc : cell_encoding) (t : term σ φ) (first last : Nat) :
    same_frame t (clear_rows enc t first last) ∧
      (∀ i, (∃ row, first ≤ row ∧ row < last ∧
          t.term_cols * physical_row t row % 4294967296 ≤ i ∧
          i < t.term_cols * physical_row t row % 4294967296 + t.term_cols) →
        (clear_rows enc t first last).buffer i = enc.blank) ∧
      (∀ i, (¬ ∃ row, first ≤ row ∧ row < last ∧
          t.term_cols * physical_row t row % 4294967296 ≤ i ∧
          i < t.term_cols * physical_row t row % 4294967296 + t.term_cols) →
        (clear_rows enc t first last).buffer i = t.buffer i) := by
  have h := foldl_frame_buffer
    (fun (t : term σ φ) row => ts_clear_row enc t row enc.default_color)
    (fun t row i => t.term_cols * physical_row t row % 4294967296 ≤ i ∧
          i < t.term_cols * physical_row t row % 4294967296 + t.term_cols) enc.blank
    (fun t a => rfl)
    (fun t a i hi => by
      simp only [ts_clear_row, ts_buf_clear_row, vi_call, memset16, physical_row] at hi ⊢
      rw [if_pos hi]; rfl)
    (fun t a i hi => by
      simp only [ts_clear_row, ts_buf_clear_row, vi_call, memset16, physical_row] at hi ⊢
      rw [if_neg hi])
    (fun t t' a i hf => by
      simp only
      rw [same_frame_physical_row hf]
      have : t'.term_cols = t.term_cols := by unfold same_frame at hf; rw [hf]
      rw [this])
    (List.range' first (last - first)) t
  refine ⟨h.1, fun i hi => h.2.1 i ?_, fun i hi => h.2.2 i ?_⟩
  · obtain ⟨row, h1, h2, h3⟩ := hi
    exact ⟨row, by rw [List.mem_range'_1]; omega, h3⟩
  · rintro ⟨row, hm, h3⟩
    rw [List.mem_range'_1] at hm
    exact hi ⟨row, hm.1, by omega, h3⟩

theorem same_frame_ring_ok {t t' : term σ φ} (h : same_frame t t') (hg : ring_ok t) :
    ring_ok t' := by
  unfold same_frame at h
  rw [h]; exact hg

theorem physical_row_lt (t : term σ φ) (hg : ring_ok t) (r : Nat) (hr : r < t.term_rows) :
    physical_row t r < t.total_buffer_rows := by
  unfold physical_row
  exact Nat.mod_lt _ (by unfold ring_ok at hg; omega)

theorem physical_row_inj (t : term σ φ) (hg : ring_ok t) (r r' : Nat) (hr : r < t.term_rows)
    (hr' : r' < t.term_rows) (h : physical_row t r = physical_row t r') : r = r' := by
  unfold ring_ok at hg
  unfold physical_row at h
  rw [Nat.mod_eq_of_lt (by omega : r + t.scroll < 4294967296),
    Nat.mod_eq_of_lt (by omega : r' + t.scroll < 4294967296)] at h
  have h1 : r ≡ r' [MOD t.total_buffer_rows] := Nat.ModEq.add_right_cancel' t.scroll h
  unfold Nat.ModEq at h1
  rw [Nat.mod_eq_of_lt (by omega), Nat.mod_eq_of_lt (by omega)] at h1
  exact h1

theorem row_base_eq (t : term σ φ) (hg : ring_ok t) (r : Nat) (hr : r < t.term_rows) :
    t.term_cols * physical_row t r % 4294967296 = physical_row t r * t.term_cols := by
  have hlt := physical_row_lt t hg r hr
  unfold ring_ok at hg
  have : physical_row t r * t.term_cols < 4294967296 := by
    by_cases hc : t.term_cols = 0
    · rw [hc]; simp
    · calc physical_row t r * t.term_cols < t.total_buffer_rows * t.term_cols :=
            Nat.mul_lt_mul_of_pos_right hlt (Nat.pos_of_ne_zero hc)
        _ ≤ 4294967296 := hg.2.1
  rw [Nat.mul_comm, Nat.mod_eq_of_lt this]

theorem buffer_index_eq (t : term σ φ) (hg : ring_ok t) (r c : Nat) (hr : r < t.term_rows)
    (hc : c < t.term_cols) : buffer_index t r c = physical_row t r * t.term_cols + c := by
  have hlt := physical_row_lt t hg r hr
  unfold ring_ok at hg
  have h1 : (physical_row t r + 1) * t.term_cols ≤ t.total_buffer_rows * t.term_cols :=
    Nat.mul_le_mul_right _ hlt
  have : physical_row t r * t.term_cols + c < 4294967296 := by
    rw [Nat.add_mul] at h1
    omega
  unfold buffer_index
  exact Nat.mod_eq_of_lt this

theorem row_disjoint (t : term σ φ) (hg : ring_ok t) (r r' c : Nat) (hr : r < t.term_rows)
    (hr' : r' < t.term_rows) (hc : c < t.term_cols) (hne : r ≠ r') :
    ¬ (t.term_cols * physical_row t r' % 4294967296 ≤ buffer_index t r c ∧
      buffer_index t r c < t.term_cols * physical_row t r' % 4294967296 + t.term_cols) := by
  rw [row_base_eq t hg r' hr', buffer_index_eq t hg r c hr hc]
  intro ⟨h1, h2⟩
  have hp : physical_row t r ≠ physical_row t r' := fun h => hne (physical_row_inj t hg r r' hr hr' h)
  rcases Nat.lt_or_gt_of_ne hp with hlt | hgt
  · have : (physical_row t r + 1) * t.term_cols ≤ physical_row t r' * t.term_cols :=
      Nat.mul_le_mul_right _ hlt
    rw [Nat.add_mul] at this
    omega
  · have : (physical_row t r' + 1) * t.term_cols ≤ physical_row t r * t.term_cols :=
      Nat.mul_le_mul_right _ hgt
    rw [Nat.add_mul] at this
    omega

theorem row_covers (t : term σ φ) (hg : ring_ok t) (r c : Nat) (hr : r < t.term_rows)
    (hc : c < t.term_cols) :
    t.term_cols * physical_row t r % 4294967296 ≤ buffer_index t r c ∧
      buffer_index t r c < t.term_cols * physical_row t r % 4294967296 + t.term_cols := by
  rw [row_base_eq t hg r hr, buffer_index_eq t hg r c hr hc]
  omega

theorem cell_inj (t : term σ φ) (hg : ring_ok t) (r r' c c' : Nat) (hr : r < t.term_rows)
    (hr' : r' < t.term_rows) (hc : c < t.term_cols) (hc' : c' < t.term_cols)
    (h : buffer_index t r c = buffer_index t r' c') : r = r' ∧ c = c' := by
  by_cases hne : r = r'
  · subst hne
    rw [buffer_index_eq t hg r c hr hc, buffer_index_eq t hg r c' hr hc'] at h
    exact ⟨rfl, by omega⟩
  · exact absurd (h ▸ row_covers t hg r' c' hr' hc') (row_disjoint t hg r r' c hr hr' hc hne)

theorem vi_call_opt_frame (t : term σ φ) (op : video_interface σ → Option (σ → σ)) :
    same_frame t (vi_call_opt t op) := by
  unfold same_frame vi_call_opt
  split <;> rfl

theorem vi_call_opt_buffer (t : term σ φ) (op : video_interface σ → Option (σ → σ)) :
    (vi_call_opt t op).buffer = t.buffer := by
  unfold vi_call_opt
  split <;> rfl

theorem same_frame_cursor {t t' : term σ φ} (h : same_frame t t') :
    t'.current_row = t.current_row ∧ t'.current_col = t.current_col ∧
      t'.term_rows = t.term_rows ∧ t'.term_cols = t.term_cols := by
  unfold same_frame at h
  rw [h]; exact ⟨rfl, rfl, rfl, rfl⟩

theorem cell_eq (t : term σ φ) (r c : Nat) : cell t r c = t.buffer (buffer_index t r c) := rfl

theorem blank_mod (enc : cell_encoding) : enc.blank % 65536 = enc.blank := by
  unfold cell_encoding.blank
  exact Nat.mod_mod _ _

theorem erase_in_display_0_spec (enc : cell_encoding) (t : term σ φ) (hg : ring_ok t)
    (hcr : t.current_row < t.term_rows) (r c : Nat) (hr : r < t.term_rows)
    (hc : c < t.term_cols) :
    same_frame t (term_action_erase_in_display enc t 0) ∧
      cell (term_action_erase_in_display enc t 0) r c =
        if t.current_row < r ∨ (r = t.current_row ∧ t.current_col ≤ c) then enc.blank
        else cell t r c := by
  have he := erase_cells_spec t t.current_col t.term_cols enc.blank
  generalize ht1 : erase_cells t t.current_col t.term_cols enc.blank = t1 at he
  obtain ⟨hf1, hin1, hout1⟩ := he
  obtain ⟨h1r, h1c, h1rows, h1cols⟩ := same_frame_cursor hf1
  have hc2 := clear_rows_spec enc t1 (t.current_row + 1) t.term_rows
  generalize ht2 : clear_rows enc t1 (t.current_row + 1) t.term_rows = t2 at hc2
  obtain ⟨hf2, hin2, hout2⟩ := hc2
  have hdef : term_action_erase_in_display enc t 0 = vi_call_opt t2 (fun v => v.flush_buffers) := by
    unfold term_action_erase_in_display
    simp only [if_true, ht1, h1r, h1rows, ht2]
  have hf : same_frame t (term_action_erase_in_display enc t 0) := by
    rw [hdef]
    exact same_frame_trans (same_frame_trans hf1 hf2) (vi_call_opt_frame _ _)
  refine ⟨hf, ?_⟩
  rw [cell_eq, same_frame_buffer_index hf, hdef, vi_call_opt_buffer, cell_eq]
  have hg1 : ring_ok t1 := same_frame_ring_ok hf1 hg
  simp only [h1cols, same_frame_physical_row hf1] at hin2 hout2
  by_cases hrow : t.current_row < r
  · rw [if_pos (Or.inl hrow)]
    exact hin2 _ ⟨r, hrow, hr, row_covers t hg r c hr hc⟩
  · have hnot : ¬ ∃ row, t.current_row + 1 ≤ row ∧ row < t.term_rows ∧
        t.term_cols * physical_row t row % 4294967296 ≤ buffer_index t r c ∧
        buffer_index t r c < t.term_cols * physical_row t row % 4294967296 + t.term_cols := by
      rintro ⟨row, h1, h2, h3⟩
      exact row_disjoint t hg r row c hr h2 hc (by omega) h3
    rw [hout2 _ hnot]
    by_cases hcur : r = t.current_row ∧ t.current_col ≤ c
    · rw [if_pos (Or.inr hcur), hin1 _ ⟨c, hcur.2, hc, by rw [hcur.1]⟩, blank_mod]
    · rw [if_neg (by tauto)]
      refine hout1 _ ?_
      rintro ⟨col, h1, h2, h3⟩
      obtain ⟨e1, e2⟩ := cell_inj t hg r t.current_row c col hr hcr hc h2 h3
      exact hcur ⟨e1, by omega⟩

theorem erase_in_display_1_spec (enc : cell_encoding) (t : term σ φ) (hg : ring_ok t)
    (hcr : t.current_row < t.term_rows) (hcc : t.current_col ≤ t.term_cols) (r c : Nat)
    (hr : r < t.term_rows) (hc : c < t.term_cols) :
    same_frame t (term_action_erase_in_display enc t 1) ∧
      cell (term_action_erase_in_display enc t 1) r c =
        if t.current_row < r ∨ (r = t.current_row ∧ t.current_col ≤ c) then cell t r c
        else enc.blank := by
  have hc1 := clear_rows_spec enc t 0 t.current_row
  generalize ht1 : clear_rows enc t 0 t.current_row = t1 at hc1
  obtain ⟨hf1, hin1, hout1⟩ := hc1
  obtain ⟨h1r, h1c, h1rows, h1cols⟩ := same_frame_cursor hf1
  have he := erase_cells_spec t1 0 t.current_col enc.blank
  generalize ht2 : erase_cells t1 0 t.current_col enc.blank = t2 at he
  obtain ⟨hf2, hin2, hout2⟩ := he
  have hdef : term_action_erase_in_display enc t 1 = vi_call_opt t2 (fun v => v.flush_buffers) := by
    unfold term_action_erase_in_display
    simp only [one_ne_zero, if_false, if_true, ht1, h1c, ht2]
  have hf : same_frame t (term_action_erase_in_display enc t 1) := by
    rw [hdef]
    exact same_frame_trans (same_frame_trans hf1 hf2) (vi_call_opt_frame _ _)
  refine ⟨hf, ?_⟩
  rw [cell_eq, same_frame_buffer_index hf, hdef, vi_call_opt_buffer, cell_eq]
  simp only [h1r, same_frame_buffer_index hf1] at hin2 hout2
  by_cases hcur : r = t.current_row ∧ c < t.current_col
  · rw [if_neg (by omega), hin2 _ ⟨c, Nat.zero_le _, hcur.2, by rw [hcur.1]⟩, blank_mod]
  · have hnot : ¬ ∃ col, 0 ≤ col ∧ col < t.current_col ∧
        buffer_index t r c = buffer_index t t.current_row col := by
      rintro ⟨col, _, h2, h3⟩
      obtain ⟨e1, e2⟩ := cell_inj t hg r t.current_row c col hr hcr hc (by omega) h3
      exact hcur ⟨e1, by omega⟩
    rw [hout2 _ hnot]
    by_cases hrow : r < t.current_row
    · rw [if_neg (by omega)]
      exact hin1 _ ⟨r, Nat.zero_le _, hrow, row_covers t hg r c hr hc⟩
    · rw [if_pos (by omega)]
      refine hout1 _ ?_
      rintro ⟨row, _, h2, h3⟩
      exact row_disjoint t hg r row c hr (by omega) hc (by omega) h3

/-- C5, as the code has it: for every cursor position (`row < rows`,
`col ≤ cols`) in a state whose ring does not wrap
(`rows <= total_buffer_rows`, `total_buffer_rows * cols <= 2^32` and
`scroll + rows <= 2^32`), and every visible cell `(r, c)`:
erase-in-display(0) sets the cell to a default-colored space when it
is at or after the cursor and leaves it as it was otherwise; erase-in-display(1)
at the same cursor sets it when it is before the cursor and leaves it as it
was otherwise (so the two sets of written cells are disjoint and cover the
screen); mode 0 does not move the cursor, and after mode 0 followed by mode 1
the cell is a default-colored space. -/
theorem erase_modes_partition (enc : cell_encoding) (t : term σ φ) (r c : Nat)
    (hg : ring_ok t) (hcr : t.current_row < t.term_rows) (hcc : t.current_col ≤ t.term_cols)
    (hr : r < t.term_rows) (hc : c < t.term_cols) :
    (cell (term_action_erase_in_display enc t 0) r c =
        if t.current_row < r ∨ (r = t.current_row ∧ t.current_col ≤ c) then enc.blank
        else cell t r c) ∧
      (cell (term_action_erase_in_display enc t 1) r c =
        if t.current_row < r ∨ (r = t.current_row ∧ t.current_col ≤ c) then cell t r c
        else enc.blank) ∧
      (term_action_erase_in_display enc t 0).current_row = t.current_row ∧
      (term_action_erase_in_display enc t 0).current_col = t.current_col ∧
      cell (term_action_erase_in_display enc (term_action_erase_in_display enc t 0) 1) r c
        = enc.blank := by
  obtain ⟨hf0, h0⟩ := erase_in_display_0_spec enc t hg hcr r c hr hc
  obtain ⟨_, h1⟩ := erase_in_display_1_spec enc t hg hcr hcc r c hr hc
  obtain ⟨e1, e2, e3, e4⟩ := same_frame_cursor hf0
  refine ⟨h0, h1, e1, e2, ?_⟩
  obtain ⟨_, h01⟩ := erase_in_display_1_spec enc (term_action_erase_in_display enc t 0)
    (same_frame_ring_ok hf0 hg) (by omega) (by omega) r c (by omega) (by omega)
  rw [h01, e1, e2, h0]
  split_ifs <;> rfl

/-- Witness of C5 as the code has it: the populated small terminal with the cursor at `(1, 2)`,
observed at the cell `(1, 1)`, which lies before the cursor. -/
theorem erase_modes_partition_witness :
    ring_ok populated_term ∧ populated_term.current_row < populated_term.term_rows ∧
      populated_term.current_col ≤ populated_term.term_cols ∧
      1 < populated_term.term_rows ∧ 1 < populated_term.term_cols ∧
      cell populated_term 1 1 = vga_encoding.make_vgaentry 102 7 ∧
      ((cell (term_action_erase_in_display vga_encoding populated_term 0) 1 1 =
          if populated_term.current_row < 1 ∨
              (1 = populated_term.current_row ∧ populated_term.current_col ≤ 1)
            then vga_encoding.blank
          else cell populated_term 1 1) ∧
        (cell (term_action_erase_in_display vga_encoding populated_term 1) 1 1 =
          if populated_term.current_row < 1 ∨
              (1 = populated_term.current_row ∧ populated_term.current_col ≤ 1)
            then cell populated_term 1 1
          else vga_encoding.blank) ∧
        (term_action_erase_in_display vga_encoding populated_term 0).current_row
          = populated_term.current_row ∧
        (term_action_erase_in_display vga_encoding populated_term 0).current_col
          = populated_term.current_col ∧
        cell (term_action_erase_in_display vga_encoding
          (term_action_erase_in_display vga_encoding populated_term 0) 1) 1 1
          = vga_encoding.blank) :=
  ⟨by decide, by decide, by decide, by decide, by decide, by decide,
    erase_modes_partition vga_encoding populated_term 1 1 (by decide) (by decide) (by decide)
      (by decide) (by decide)⟩

/-! ## C6: pause / resume transparency -/

theorem buffer_set_entry_paused (t : term σ φ) (sv : Option (video_interface σ)) (s : σ)
    (row col e : Nat) :
    buffer_set_entry (paused t sv s) row col e = paused (buffer_set_entry t row col e) sv s := rfl

theorem buffer_get_entry_paused (t : term σ φ) (sv : Option (video_interface σ)) (s : σ)
    (row col : Nat) :
    buffer_get_entry (paused t sv s) row col
      = ((buffer_get_entry t row col).1, paused (buffer_get_entry t row col).2 sv s) := rfl

theorem foldl_null_screen {α : Type} (f : term σ φ → α → term σ φ)
    (hf : ∀ t a, f t a = { t with screen := (f t a).screen })
    (hn : ∀ t a, t.vi = no_output_vi → (f t a).screen = t.screen) (l : List α) (t : term σ φ)
    (ht : t.vi = no_output_vi) : l.foldl f t = t := by
  induction l generalizing t with
  | nil => rfl
  | cons a l ih =>
    have h1 : f t a = t := by
      rw [hf t a, hn t a ht]
    simp only [List.foldl_cons, h1]
    exact ih t ht

theorem term_redraw_null (t : term σ φ) (ht : t.vi = no_output_vi) : term_redraw t = t := by
  unfold term_redraw
  exact foldl_null_screen _ (fun _ _ => rfl) (fun t a h => by simp [vi_call, h, no_output_vi]) _ t ht

theorem term_redraw_paused (t : term σ φ) (sv : Option (video_interface σ)) (s : σ) :
    term_redraw (paused t sv s) = paused (term_redraw t) sv s := by
  rw [term_redraw_null _ rfl, term_redraw_eq t]
  rfl

theorem write_printable_char_paused (enc : cell_encoding) (t : term σ φ)
    (sv : Option (video_interface σ)) (s : σ) (c color : Nat) :
    term_internal_write_printable_char enc (paused t sv s) c color
      = paused (term_internal_write_printable_char enc t c color) sv s := rfl

theorem term_redraw_filter (t : term σ φ) : (term_redraw t).filter = t.filter := by
  rw [term_redraw_eq]

theorem ts_set_scroll_filter (t : term σ φ) (v : Nat) : (ts_set_scroll t v).filter = t.filter := by
  rw [ts_set_scroll_eq]

theorem ts_scroll_to_bottom_filter (t : term σ φ) : (ts_scroll_to_bottom t).filter = t.filter := by
  unfold ts_scroll_to_bottom
  split_ifs
  · exact ts_set_scroll_filter _ _
  · rfl

theorem incr_row_filter (enc : cell_encoding) (t : term σ φ) (color : Nat) :
    (term_internal_incr_row enc t color).filter = t.filter := by
  unfold term_internal_incr_row
  simp only
  split_ifs
  · rfl
  · cases hv : t.vi.scroll_one_line_up with
    | some f => rfl
    | none =>
      simp only [ts_clear_row, ts_buf_clear_row, vi_call]
      rw [ts_set_scroll_eq]

theorem write_tab_filter (enc : cell_encoding) (t : term σ φ) (color : Nat) :
    (term_internal_write_tab enc t color).filter = t.filter := by
  unfold term_internal_write_tab
  split
  · simp only
    split_ifs <;> rfl
  · rfl

theorem write_char2_filter (enc : cell_encoding) (t : term σ φ) (c color : Nat) :
    (term_internal_write_char2 enc t c color).filter = t.filter := by
  unfold term_internal_write_char2
  split_ifs
  · rfl
  · exact incr_row_filter _ _ _
  · rfl
  · exact write_tab_filter _ _ _
  · exact incr_row_filter enc { t with current_col := 0 } color
  · rfl

theorem write_loop_cons_some (enc : cell_encoding) (exec : term_action → term σ φ → term σ φ)
    (c : Nat) (rest : List Nat) (color : Nat) (t : term σ φ) (f : term_filter_func φ)
    (h : t.filter = some f) (ha : (f c color t.filter_ctx).action = term_action.a_none) :
    term_action_write_loop enc exec (c :: rest) color t
      = term_action_write_loop enc exec rest (f c color t.filter_ctx).color
          (if (f c color t.filter_ctx).accept
            then term_internal_write_char2 enc { t with filter_ctx := (f c color t.filter_ctx).ctx }
              c (f c color t.filter_ctx).color
            else { t with filter_ctx := (f c color t.filter_ctx).ctx }) := by
  conv_lhs => unfold term_action_write_loop
  simp only [h, ha]

theorem vi_call_opt_screen (t : term σ φ) (op : video_interface σ → Option (σ → σ)) :
    (vi_call_opt t op).screen = call_opt (op t.vi) t.screen := by
  unfold vi_call_opt call_opt
  cases op t.vi <;> rfl

theorem pause_eq (t : term σ φ) :
    term_action_pause_video_output t
      = paused t (some t.vi) (term_action_pause_video_output t).screen := by
  unfold term_action_pause_video_output
  simp only
  rw [vi_call_opt_eq]
  rfl

set_option maxRecDepth 1000000 in
/-- C7 (scenario): on the freshly initialised 25 x 80 terminal (buffer
allocated, tab map allocated or not, no filter, not in serial-console mode,
recording backend with or without fast scroll and `flush_buffers`), the
write-text action of the 26 lines `A` .. `Z` separated by `'\n'` ends with
`max_scroll = 1`; visible row 0 holds `B` (in column 1, as `'\n'` does not
return the carriage) and row 24 holds `Z` (in column 25), all other cells of
the two rows being default-colored spaces; the following scroll(1) makes row 0
hold `A` (column 0) and row 24 hold `Y` (column 24), leaves
`scroll = 0 < max_scroll = 1`, and its last cursor call to the backend is
`disable_cursor`. -/
theorem scenario_a_to_z (fast flush tabs : Bool) :
    (scenario_term fast flush tabs).term_rows = 25 ∧
      (scenario_term fast flush tabs).term_cols = 80 ∧
      (scenario_term fast flush tabs).filter.isNone = true ∧
      (scenario_term fast flush tabs).serial_console = false ∧
      (after_az fast flush tabs).max_scroll = 1 ∧ (after_az fast flush tabs).scroll = 1 ∧
      visible_line (after_az fast flush tabs) 0 = line_with vga_encoding 80 1 66 7 ∧
      visible_line (after_az fast flush tabs) 24 = line_with vga_encoding 80 25 90 7 ∧
      cursor_enabled (after_az fast flush tabs).screen = true ∧
      visible_line (after_az_scroll fast flush tabs) 0 = line_with vga_encoding 80 0 65 7 ∧
      visible_line (after_az_scroll fast flush tabs) 24 = line_with vga_encoding 80 24 89 7 ∧
      (after_az_scroll fast flush tabs).scroll = 0 ∧
      (after_az_scroll fast flush tabs).max_scroll = 1 ∧
      (after_az_scroll fast flush tabs).scroll < (after_az_scroll fast flush tabs).max_scroll ∧
      cursor_enabled (after_az_scroll fast flush tabs).screen = false ∧
      ((after_az_scroll fast flush tabs).screen.filter
          (fun op => op = vi_op.enable_cursor ∨ op = vi_op.disable_cursor)).getLast?
        = some vi_op.disable_cursor := by
  cases fast <;> cases flush <;> cases tabs <;> decide

theorem move_ch_and_cur_fields (enc : cell_encoding) (t : term σ φ) (row col : Int) :
    term_action_move_ch_and_cur enc t row col =
      { t with
        current_row := to_u16 (min (max row 0) ((t.term_rows : Int) - 1))
        current_col := to_u16 (min (max col 0) ((t.term_cols : Int) - 1))
        screen := (term_action_move_ch_and_cur enc t row col).screen
        accesses := (term_action_move_ch_and_cur enc t row col).accesses } := by
  unfold term_action_move_ch_and_cur
  simp only
  rw [vi_call_opt_eq]
  rfl

theorem clear_rows_range (enc : cell_encoding) (t : term σ φ) (n : Nat) (hn : n = t.term_rows) :
    (List.range n).foldl (fun t i => ts_clear_row enc t i enc.default_color) t
      = clear_rows enc t 0 t.term_rows := by
  unfold clear_rows
  rw [List.range_eq_range', Nat.sub_zero, hn]

/-- C8 (reset): for every prior state of a terminal with at least one row and
one column (`u16` geometry), whatever the buffer contents, the cursor, `scroll`
and `max_scroll` are, after the reset action every visible cell `(r, c)` is a
default-colored space, the cursor is at `(0, 0)`, `scroll = max_scroll = 0`,
the tab map is present exactly when it was, and each of its `cols * rows`
cells is cleared. -/
theorem reset_clears (enc : cell_encoding) (t : term σ φ) (r c : Nat)
    (hrows : 1 ≤ t.term_rows) (hrows' : t.term_rows < 65536) (hcols : 1 ≤ t.term_cols)
    (hcols' : t.term_cols < 65536) (hr : r < t.term_rows) (hc : c < t.term_cols) :
    cell (term_action_reset enc t) r c = enc.blank ∧
      (term_action_reset enc t).current_row = 0 ∧ (term_action_reset enc t).current_col = 0 ∧
      (term_action_reset enc t).scroll = 0 ∧ (term_action_reset enc t).max_scroll = 0 ∧
      (term_action_reset enc t).term_tabs.isSome = t.term_tabs.isSome ∧
      (∀ i, i < t.term_cols * t.term_rows → term_tabs_at (term_action_reset enc t) (i : Int) = false)
    := by
  generalize ht3 : ({ term_action_move_ch_and_cur enc (vi_call t (fun v => v.enable_cursor)) 0 0 with
      scroll := 0, max_scroll := 0 } : term σ φ) = t3
  have h3 : t3 = { t with
      current_row := 0, current_col := 0, scroll := 0, max_scroll := 0,
      screen := t3.screen, accesses := t3.accesses } := by
    rw [← ht3, move_ch_and_cur_fields]
    simp only [vi_call]
    have e1 : to_u16 (min (max 0 0) ((t.term_rows : Int) - 1)) = 0 := by
      unfold to_u16; omega
    have e2 : to_u16 (min (max 0 0) ((t.term_cols : Int) - 1)) = 0 := by
      unfold to_u16; omega
    rw [e1, e2]
  have hcr := clear_rows_spec enc t3 0 t3.term_rows
  generalize ht4 : clear_rows enc t3 0 t3.term_rows = t4 at hcr
  obtain ⟨hf4, hin4, -⟩ := hcr
  have hdef : term_action_reset enc t =
      match t4.term_tabs with
      | some tabs => { t4 with term_tabs := some (memset_tabs tabs (t4.term_cols * t4.term_rows)) }
      | none => t4 := by
    unfold term_action_reset
    simp only
    rw [clear_rows_range enc _ _ rfl, ht3, ht4]
  have e4 : t4 = { t3 with buffer := t4.buffer, screen := t4.screen, accesses := t4.accesses } := hf4
  have hcell : t4.buffer (buffer_index t4 r c) = enc.blank := by
    apply hin4
    refine ⟨r, Nat.zero_le _, by rw [h3]; exact hr, ?_⟩
    rw [same_frame_buffer_index hf4]
    have hX : physical_row t3 r ≤ r := by
      unfold physical_row
      rw [h3]
      simp only [Nat.add_zero]
      exact le_trans (Nat.mod_le _ _) (Nat.mod_le _ _)
    have hcols3 : t3.term_cols = t.term_cols := by rw [h3]
    have hb : (physical_row t3 r + 1) * t.term_cols ≤ 65535 * 65535 :=
      Nat.mul_le_mul (by omega) (by omega)
    rw [Nat.add_mul] at hb
    have hi : buffer_index t3 r c = physical_row t3 r * t.term_cols + c := by
      unfold buffer_index physical_row
      rw [hcols3]
      unfold physical_row at hb
      exact Nat.mod_eq_of_lt (by omega)
    rw [hi, hcols3, Nat.mul_comm t.term_cols, Nat.mod_eq_of_lt (by omega)]
    omega
  have ht4 : t4 = { t with
      current_row := 0, current_col := 0, scroll := 0, max_scroll := 0,
      buffer := t4.buffer, screen := t4.screen, accesses := t4.accesses } := by
    rw [e4, h3]
  rw [hdef]
  cases htab : t4.term_tabs with
  | none =>
    have htn : t.term_tabs = none := by rw [ht4] at htab; exact htab
    refine ⟨hcell, by rw [ht4], by rw [ht4], by rw [ht4], by rw [ht4], ?_, ?_⟩
    · simp only [htab, htn]
    · intro i _
      simp only [term_tabs_at, htab]
  | some tabs =>
    have htn : t.term_tabs = some tabs := by rw [ht4] at htab; exact htab
    refine ⟨hcell, by rw [ht4], by rw [ht4], by rw [ht4], by rw [ht4], ?_, ?_⟩
    · simp only [htn, Option.isSome_some]
    · intro i hi
      have e5 : t4.term_cols = t.term_cols := by rw [ht4]
      have e6 : t4.term_rows = t.term_rows := by rw [ht4]
      simp only [term_tabs_at, memset_tabs, Int.toNat_ofNat, e5, e6, hi, if_true]

set_option maxRecDepth 1000000 in
/-- Witness of C8: the reset of the dirtied 25 x 80 terminal, observed at the
cell `(24, 25)`, which held `Z`. -/
theorem reset_clears_witness :
    1 ≤ dirty_term.term_rows ∧ dirty_term.term_rows < 65536 ∧ 1 ≤ dirty_term.term_cols ∧
      dirty_term.term_cols < 65536 ∧ 24 < dirty_term.term_rows ∧ 25 < dirty_term.term_cols ∧
      cell dirty_term 24 25 = vga_encoding.make_vgaentry 90 7 ∧
      dirty_term.max_scroll = 1 ∧ dirty_term.current_col = 33 ∧
      term_tabs_at dirty_term (24 * 80 + 32) = true ∧
      cell (term_action_reset vga_encoding dirty_term) 24 25 = vga_encoding.blank ∧
      (term_action_reset vga_encoding dirty_term).current_row = 0 ∧
      (term_action_reset vga_encoding dirty_term).current_col = 0 ∧
      (term_action_reset vga_encoding dirty_term).scroll = 0 ∧
      (term_action_reset vga_encoding dirty_term).max_scroll = 0 ∧
      term_tabs_at (term_action_reset vga_encoding dirty_term) (24 * 80 + 32) = false :=
  ⟨by decide, by decide, by decide, by decide, by decide, by decide, by decide, by decide,
    by decide, by decide,
    (reset_clears vga_encoding dirty_term 24 25 (by decide) (by decide) (by decide) (by decide)
      (by decide) (by decide)).1,
    (reset_clears vga_encoding dirty_term 24 25 (by decide) (by decide) (by decide) (by decide)
      (by decide) (by decide)).2.1,
    (reset_clears vga_encoding dirty_term 24 25 (by decide) (by decide) (by decide) (by decide)
      (by decide) (by decide)).2.2.1,
    (reset_clears vga_encoding dirty_term 24 25 (by decide) (by decide) (by decide) (by decide)
      (by decide) (by decide)).2.2.2.1,
    (reset_clears vga_encoding dirty_term 24 25 (by decide) (by decide) (by decide) (by decide)
      (by decide) (by decide)).2.2.2.2.1,
    (reset_clears vga_encoding dirty_term 24 25 (by decide) (by decide) (by decide) (by decide)
      (by decide) (by decide)).2.2.2.2.2.2 (24 * 80 + 32) (by decide)⟩

set_option maxRecDepth 1000000 in
/-- C9, the code at the failing inputs. On the failsafe 25 x 80 terminal (25
buffer rows, no tab map), after move-cursor to `(24, 0)`: the write-text action
of 80 letters `a` ends with `buffer_get_entry(24, 80)`, a call with
`col = cols`, which reads the cell of index `2000 = 80 * 25`, one past the end
of the buffer; and the write-text action of 80 letters `a` and a tab calls
`buffer_set_entry(24, 80, ' ')`, which stores the space at index 2000. On the
terminal with an allocated buffer the write of 80 letters ends with
`buffer_get_entry(0, 80)` as well. -/
theorem cell_access_past_row_end :
    failsafe_term.term_rows = 25 ∧ failsafe_term.term_cols = 80 ∧
      failsafe_term.total_buffer_rows = 25 ∧ failsafe_term.term_tabs.isNone = true ∧
      (failsafe_last_row (List.replicate 80 97)).accesses.getLast? = some (24, 80) ∧
      buffer_index (failsafe_last_row (List.replicate 80 97)) 24 80 = 2000 ∧
      (failsafe_last_row (List.replicate 80 97)).buffer 2000 = 0 ∧
      (24, 80) ∈ (failsafe_last_row (List.replicate 80 97 ++ [9])).accesses ∧
      (failsafe_last_row (List.replicate 80 97 ++ [9])).buffer 2000
        = vga_encoding.make_vgaentry 32 7 ∧
      (term_execute_action vga_encoding 1 (term_action.a_write (List.replicate 80 97) 7)
        (std_term true)).accesses.getLast? = some (0, 80) := by
  refine ⟨by decide, by decide, by decide, by decide, by decide, by decide, by decide, by decide,
    by decide, by decide⟩

set_option maxRecDepth 1000000 in
/-- C10, the code at the failing input. On the failsafe 25 x 80 terminal (no
tab map), the write-text action of 80 letters `a` followed by a tab ends with
`current_col = 81 > cols`, and each further tab moves the cursor one more
column to the right; `current_row` stays below `rows`. -/
theorem cursor_column_past_cols :
    failsafe_term.term_cols = 80 ∧ failsafe_term.term_tabs.isNone = true ∧
      (failsafe_last_row (List.replicate 80 97)).current_col = 80 ∧
      (failsafe_last_row (List.replicate 80 97 ++ [9])).current_col = 81 ∧
      (failsafe_last_row (List.replicate 80 97 ++ [9, 9, 9])).current_col = 83 ∧
      (failsafe_last_row (List.replicate 80 97 ++ [9, 9, 9])).current_row = 24 := by
  refine ⟨by decide, by decide, by decide, by decide, by decide, by decide⟩

/-! ## C11, C13, C16: cursor moves, unknown erase modes, pause and resume -/

theorem to_u16_clamp (v hi : Int) (h0 : 0 ≤ hi) (h1 : hi < 65536) :
    ((to_u16 (min (max v 0) hi) : Nat) : Int) = clamp v 0 hi := by
  unfold to_u16 clamp
  omega

theorem move_ch_and_cur_rel_fields (enc : cell_encoding) (t : term σ φ) (dx dy : Int) :
    term_action_move_ch_and_cur_rel enc t dx dy =
      { t with
        current_row := to_u16 (min (max ((t.current_row : Int) + dx) 0) ((t.term_rows : Int) - 1))
        current_col := to_u16 (min (max ((t.current_col : Int) + dy) 0) ((t.term_cols : Int) - 1))
        screen := (term_action_move_ch_and_cur_rel enc t dx dy).screen
        accesses := (term_action_move_ch_and_cur_rel enc t dx dy).accesses } := by
  unfold term_action_move_ch_and_cur_rel
  simp only
  rw [vi_call_opt_eq]
  rfl

/-- C11 (move-cursor clamps): in a terminal with at least one row and one
column (`u16` geometry), for all integers `row`, `col` the absolute move-cursor
sets `current_row = clamp(row, 0, rows - 1)` and
`current_col = clamp(col, 0, cols - 1)`, and for all integers `dx`, `dy` (the
signed 8-bit ones among them) the relative move-cursor sets
`current_row = clamp(current_row + dx, 0, rows - 1)` and
`current_col = clamp(current_col + dy, 0, cols - 1)`; neither changes the
buffer, `scroll` or `max_scroll`. -/
theorem move_cursor_clamps (enc : cell_encoding) (t : term σ φ) (row col dx dy : Int)
    (hrows : 1 ≤ t.term_rows) (hrows' : t.term_rows < 65536) (hcols : 1 ≤ t.term_cols)
    (hcols' : t.term_cols < 65536) :
    (((term_action_move_ch_and_cur enc t row col).current_row : Nat) : Int)
        = clamp row 0 ((t.term_rows : Int) - 1) ∧
      (((term_action_move_ch_and_cur enc t row col).current_col : Nat) : Int)
        = clamp col 0 ((t.term_cols : Int) - 1) ∧
      (term_action_move_ch_and_cur enc t row col).buffer = t.buffer ∧
      (term_action_move_ch_and_cur enc t row col).scroll = t.scroll ∧
      (term_action_move_ch_and_cur enc t row col).max_scroll = t.max_scroll ∧
      (((term_action_move_ch_and_cur_rel enc t dx dy).current_row : Nat) : Int)
        = clamp ((t.current_row : Int) + dx) 0 ((t.term_rows : Int) - 1) ∧
      (((term_action_move_ch_and_cur_rel enc t dx dy).current_col : Nat) : Int)
        = clamp ((t.current_col : Int) + dy) 0 ((t.term_cols : Int) - 1) ∧
      (term_action_move_ch_and_cur_rel enc t dx dy).buffer = t.buffer ∧
      (term_action_move_ch_and_cur_rel enc t dx dy).scroll = t.scroll ∧
      (term_action_move_ch_and_cur_rel enc t dx dy).max_scroll = t.max_scroll := by
  rw [move_ch_and_cur_fields, move_ch_and_cur_rel_fields]
  exact ⟨to_u16_clamp _ _ (by omega) (by omega), to_u16_clamp _ _ (by omega) (by omega), rfl, rfl,
    rfl, to_u16_clamp _ _ (by omega) (by omega), to_u16_clamp _ _ (by omega) (by omega), rfl, rfl,
    rfl⟩

/-- Witness of C11: on the populated small terminal (3 rows of 4 columns,
cursor at `(1, 2)`), move-cursor to `(-5, 100)` ends at `(0, 3)` and the
relative move by `(127, -128)` ends at `(2, 0)`. -/
theorem move_cursor_clamps_witness :
    1 ≤ populated_term.term_rows ∧ populated_term.term_rows < 65536 ∧
      1 ≤ populated_term.term_cols ∧ populated_term.term_cols < 65536 ∧
      (term_action_move_ch_and_cur vga_encoding populated_term (-5) 100).current_row = 0 ∧
      (term_action_move_ch_and_cur vga_encoding populated_term (-5) 100).current_col = 3 ∧
      (term_action_move_ch_and_cur_rel vga_encoding populated_term 127 (-128)).current_row = 2 ∧
      (term_action_move_ch_and_cur_rel vga_encoding populated_term 127 (-128)).current_col = 0 ∧
      (((term_action_move_ch_and_cur vga_encoding populated_term (-5) 100).current_row : Nat) : Int)
        = clamp (-5) 0 ((populated_term.term_rows : Int) - 1) ∧
      (term_action_move_ch_and_cur vga_encoding populated_term (-5) 100).buffer
        = populated_term.buffer :=
  ⟨by decide, by decide, by decide, by decide, by decide, by decide, by decide, by decide,
    (move_cursor_clamps vga_encoding populated_term (-5) 100 127 (-128) (by decide) (by decide)
      (by decide) (by decide)).1,
    (move_cursor_clamps vga_encoding populated_term (-5) 100 127 (-128) (by decide) (by decide)
      (by decide) (by decide)).2.2.1⟩

/-- C13 (unknown erase modes): for every mode outside `0..3`
erase-in-display(mode), and for every mode outside `0..2` erase-in-line(mode),
returns the state it was given: the buffer, the cursor, `scroll`,
`max_scroll` and the tab map are unchanged, and so is the state of the video
hardware, whatever the backend is (no backend call is made). -/
theorem unknown_erase_mode_is_noop (enc : cell_encoding) (t : term σ φ) (mode1 mode2 : Int)
    (h1 : mode1 < 0 ∨ 3 < mode1) (h2 : mode2 < 0 ∨ 2 < mode2) :
    term_action_erase_in_display enc t mode1 = t ∧ term_action_erase_in_line enc t mode2 = t := by
  constructor
  · unfold term_action_erase_in_display
    simp only
    rw [if_neg (by omega), if_neg (by omega), if_neg (by omega), if_neg (by omega)]
  · unfold term_action_erase_in_line
    simp only
    rw [if_neg (by omega), if_neg (by omega), if_neg (by omega)]

/-- Witness of C13: the modes 4 and -1 on the populated small terminal, whose
recording backend has received the same calls before and after. -/
theorem unknown_erase_mode_is_noop_witness :
    ((4 : Int) < 0 ∨ (3 : Int) < 4) ∧ ((-1 : Int) < 0 ∨ (2 : Int) < -1) ∧
      (term_action_erase_in_display vga_encoding populated_term 4 = populated_term ∧
        term_action_erase_in_line vga_encoding populated_term (-1) = populated_term) ∧
      (term_action_erase_in_display vga_encoding populated_term 4).screen = populated_term.screen :=
  ⟨by decide, by decide,
    unknown_erase_mode_is_noop vga_encoding populated_term 4 (-1) (by decide) (by decide),
    by decide⟩

/-- C16 (pause / resume round trip): for every state, with the backend `B`
bound, pause-output binds the null backend and saves `B`; the resume-output
that follows rebinds exactly `B`, and the state after the pair is the state
before it except for the saved backend and the state of the video hardware:
the buffer contents, `scroll`, `max_scroll`, the cursor, the column offset and
the tab map are unchanged. -/
theorem pause_resume_round_trip (t : term σ φ) :
    (term_action_pause_video_output t).vi = no_output_vi ∧
      (term_action_pause_video_output t).saved_vi = some t.vi ∧
      (term_action_restart_video_output (term_action_pause_video_output t)).vi = t.vi ∧
      term_action_restart_video_output (term_action_pause_video_output t)
        = { t with
            saved_vi := some t.vi
            screen :=
              (term_action_restart_video_output (term_action_pause_video_output t)).screen } ∧
      (term_action_restart_video_output (term_action_pause_video_output t)).buffer = t.buffer ∧
      (term_action_restart_video_output (term_action_pause_video_output t)).scroll = t.scroll ∧
      (term_action_restart_video_output (term_action_pause_video_output t)).max_scroll
        = t.max_scroll ∧
      (term_action_restart_video_output (term_action_pause_video_output t)).current_row
        = t.current_row ∧
      (term_action_restart_video_output (term_action_pause_video_output t)).current_col
        = t.current_col ∧
      (term_action_restart_video_output (term_action_pause_video_output t)).term_col_offset
        = t.term_col_offset ∧
      (term_action_restart_video_output (term_action_pause_video_output t)).term_tabs
        = t.term_tabs := by
  have h : term_action_restart_video_output (term_action_pause_video_output t)
      = { t with
          saved_vi := some t.vi
          screen :=
            (term_action_restart_video_output (term_action_pause_video_output t)).screen } := by
    rw [pause_eq t]
    generalize (term_action_pause_video_output t).screen = s
    unfold term_action_restart_video_output
    have e : (paused t (some t.vi) s).saved_vi = some t.vi := rfl
    rw [e]
    simp only
    rw [vi_call_opt_eq, vi_call_opt_eq]
    simp only [vi_call]
    rw [term_redraw_eq]
    rfl
  rw [pause_eq t]
  refine ⟨rfl, rfl, ?_, ?_, ?_, ?_, ?_, ?_, ?_, ?_, ?_⟩
  all_goals rw [← pause_eq t, h]

/-! ## C12, C20: erase-in-display 3 and the scroll action -/

set_option maxRecDepth 1000000 in
/-- C12, the code at the failing input. On the dirtied 25 x 80 terminal, whose
cursor is at `(24, 33)`, erase-in-display(3) blanks the screen and zeroes
`scroll` and `max_scroll`, and its last `move_cursor` call places the hardware
cursor at `(24, 33)`; but `current_row` and `current_col` are left at `(0, 0)`
by the reset, so that the character written next lands in the cell `(0, 0)`. -/
theorem erase_display_3_cursor_not_restored :
    dirty_term.current_row = 24 ∧ dirty_term.current_col = 33 ∧
      (term_action_erase_in_display vga_encoding dirty_term 3).current_row = 0 ∧
      (term_action_erase_in_display vga_encoding dirty_term 3).current_col = 0 ∧
      (move_cursor_calls (term_action_erase_in_display vga_encoding dirty_term 3).screen).getLast?
        = some (vi_op.move_cursor 24 33 vga_encoding.default_color) ∧
      (term_action_erase_in_display vga_encoding dirty_term 3).scroll = 0 ∧
      (term_action_erase_in_display vga_encoding dirty_term 3).max_scroll = 0 ∧
      (List.range 25).all
        (fun r => visible_line (term_action_erase_in_display vga_encoding dirty_term 3) r
          == List.replicate 80 vga_encoding.blank) = true ∧
      cell (term_execute_action vga_encoding 1 (term_action.a_write [88] 7)
        (term_action_erase_in_display vga_encoding dirty_term 3)) 0 0
        = vga_encoding.make_vgaentry 88 7 := by
  refine ⟨by decide, by decide, by decide, by decide, by decide, by decide, by decide, by decide,
    by decide⟩

/-- C20, the code at the failing input. In the state `late_term`
(`scroll = 2^32 - 6`, `max_scroll = 2^32 - 1`, ring invariant satisfied),
scroll(-10) computes `scroll + 10` on `u32`, which wraps to 4, and ends at the
lower bound `max_scroll - extra_buffer_rows` (the oldest content), whereas the
clamp over the integers gives `max_scroll` (the newest content). -/
theorem scroll_down_wraps :
    late_term.scroll ≤ late_term.max_scroll ∧
      late_term.max_scroll - late_term.scroll ≤ late_term.extra_buffer_rows ∧
      late_term.max_scroll < 4294967296 ∧
      (term_action_scroll vga_encoding late_term (-10)).scroll = 4294967268 ∧
      clamp ((late_term.scroll : Int) - (-10))
          (max 0 ((late_term.max_scroll : Int) - late_term.extra_buffer_rows))
          late_term.max_scroll = 4294967295 ∧
      (((term_action_scroll vga_encoding late_term (-10)).scroll : Nat) : Int)
        ≠ clamp ((late_term.scroll : Int) - (-10))
            (max 0 ((late_term.max_scroll : Int) - late_term.extra_buffer_rows))
            late_term.max_scroll := by
  refine ⟨by decide, by decide, by decide, by decide, by decide, by decide⟩

theorem scroll_action_eq (enc : cell_encoding) (t : term σ φ) (lines : Int) :
    term_action_scroll enc t lines =
      { t with
        scroll := (term_action_scroll enc t lines).scroll
        screen := (term_action_scroll enc t lines).screen
        accesses := (term_action_scroll enc t lines).accesses } := by
  unfold term_action_scroll term_int_scroll_up term_int_scroll_down ts_scroll_up ts_scroll_down
  simp only
  split_ifs <;> rw [vi_call_opt_eq] <;>
    simp only [vi_move_cursor_at_current, vi_call, buffer_get_entry] <;>
    rw [ts_set_scroll_eq]

theorem scroll_action_scroll (enc : cell_encoding) (t : term σ φ) (lines : Int) :
    (term_action_scroll enc t lines).scroll =
      if lines > 0 then
        (if to_u32 lines > t.scroll then ts_set_scroll t 0
          else ts_set_scroll t (t.scroll - to_u32 lines)).scroll
      else (ts_set_scroll t ((t.scroll + to_u32 (-lines)) % 4294967296)).scroll := by
  unfold term_action_scroll term_int_scroll_up term_int_scroll_down ts_scroll_up ts_scroll_down
  simp only
  split_ifs <;> rw [vi_call_opt_eq] <;>
    simp only [vi_move_cursor_at_current, vi_call, buffer_get_entry]

/-- The scroll action where `scroll + |n|` does not wrap: for every `int` `n`
and every state with `scroll - n < 2^32`, scroll(n) sets `scroll` to
`clamp(scroll - n, max(0, max_scroll - extra_buffer_rows), max_scroll)` over
the integers and leaves every field but `scroll`, the state of the video
hardware and the recorded accesses as it was. -/
theorem scroll_action_no_wrap (enc : cell_encoding) (t : term σ φ) (n : Int)
    (hn : -2147483648 ≤ n) (hn' : n < 2147483648) (hw : (t.scroll : Int) - n < 4294967296) :
    (((term_action_scroll enc t n).scroll : Nat) : Int)
        = clamp ((t.scroll : Int) - n) (max 0 ((t.max_scroll : Int) - t.extra_buffer_rows))
            t.max_scroll ∧
      (term_action_scroll enc t n).buffer = t.buffer ∧
      (term_action_scroll enc t n).max_scroll = t.max_scroll ∧
      (term_action_scroll enc t n).current_row = t.current_row ∧
      (term_action_scroll enc t n).current_col = t.current_col := by
  refine ⟨?_, ?_, ?_, ?_, ?_⟩
  · rw [scroll_action_scroll]
    unfold clamp
    split_ifs with h1 h2
    · rw [ts_set_scroll_eq]
      simp only
      have : to_u32 n = n.toNat := by unfold to_u32; omega
      rw [this] at h2
      split_ifs <;> omega
    · rw [ts_set_scroll_eq]
      simp only
      have : to_u32 n = n.toNat := by unfold to_u32; omega
      rw [this] at h2 ⊢
      split_ifs <;> omega
    · rw [ts_set_scroll_eq]
      simp only
      have : to_u32 (-n) = (-n).toNat := by unfold to_u32; omega
      rw [this]
      split_ifs <;> omega
  all_goals rw [scroll_action_eq]

/-! ## C14, C15: initialisation -/

theorem init_term_eq (enc : cell_encoding) (intf : video_interface σ) (rows cols : Int)
    (in_panic kmalloc_initialized : Bool) (kmalloc_mem : Option (Nat → Nat))
    (kzmalloc_ok : Bool) (screen : σ) (ctx : φ) (serial_console : Bool) :
    init_term enc intf rows cols in_panic kmalloc_initialized kmalloc_mem kzmalloc_ok screen ctx
        serial_console
      = init_finish enc (init_setup intf rows cols in_panic kmalloc_initialized kmalloc_mem
          kzmalloc_ok screen ctx serial_console) := rfl

theorem init_setup_failsafe (intf : video_interface σ) (rows cols : Int)
    (in_panic kmalloc_initialized : Bool) (kmalloc_mem : Option (Nat → Nat))
    (kzmalloc_ok : Bool) (screen : σ) (ctx : φ) (serial_console : Bool)
    (h : in_panic = true ∨ kmalloc_initialized = false ∨ kmalloc_mem = none) :
    init_setup intf rows cols in_panic kmalloc_initialized kmalloc_mem kzmalloc_ok screen ctx
        serial_console
      = { term_initialized := false
          term_tab_size := 8
          term_cols := min 80 (to_u16 cols)
          term_rows := min 25 (to_u16 rows)
          current_row := 0
          current_col := 0
          term_col_offset := 0
          vi := intf
          saved_vi := none
          buffer := fun _ => 0
          scroll := 0
          max_scroll := 0
          total_buffer_rows := min 25 (to_u16 rows)
          extra_buffer_rows := 0
          term_tabs := none
          filter := none
          filter_ctx := ctx
          screen := screen
          serial_console := serial_console
          serial_out := []
          accesses := []
          buffer_size := 2 * (80 * 25) } := by
  unfold init_setup
  cases in_panic <;> cases kmalloc_initialized <;> cases kmalloc_mem <;> simp at h ⊢

theorem init_setup_allocated (intf : video_interface σ) (rows cols : Int)
    (mem : Nat → Nat) (kzmalloc_ok : Bool) (screen : σ) (ctx : φ) (serial_console : Bool) :
    init_setup intf rows cols false true (some mem) kzmalloc_ok screen ctx serial_console
      = { term_initialized := false
          term_tab_size := 8
          term_cols := to_u16 cols
          term_rows := to_u16 rows
          current_row := 0
          current_col := 0
          term_col_offset := 0
          vi := intf
          saved_vi := none
          buffer := mem
          scroll := 0
          max_scroll := 0
          total_buffer_rows := to_u16 rows + 9 * to_u16 rows
          extra_buffer_rows := 9 * to_u16 rows
          term_tabs := if kzmalloc_ok then some (fun _ => false) else none
          filter := none
          filter_ctx := ctx
          screen := screen
          serial_console := serial_console
          serial_out := []
          accesses := []
          buffer_size := 2 * (to_u16 rows + 9 * to_u16 rows) * to_u16 cols % 4294967296 } := by
  unfold init_setup
  simp

theorem init_setup_cases (in_panic kmalloc_initialized : Bool) (kmalloc_mem : Option (Nat → Nat)) :
    (in_panic = true ∨ kmalloc_initialized = false ∨ kmalloc_mem = none) ∨
      (in_panic = false ∧ kmalloc_initialized = true ∧ ∃ mem, kmalloc_mem = some mem) := by
  cases in_panic <;> cases kmalloc_initialized <;> cases kmalloc_mem <;> simp

theorem clear_all_rows_cell (enc : cell_encoding) (t : term σ φ) (r c : Nat)
    (hs : t.scroll = 0) (hrows : t.term_rows < 65536) (hcols : t.term_cols < 65536)
    (hr : r < t.term_rows) (hc : c < t.term_cols) :
    (clear_rows enc t 0 t.term_rows).buffer (buffer_index t r c) = enc.blank := by
  obtain ⟨-, hin, -⟩ := clear_rows_spec enc t 0 t.term_rows
  apply hin
  refine ⟨r, Nat.zero_le _, hr, ?_⟩
  have hX : physical_row t r ≤ r := by
    unfold physical_row
    rw [hs, Nat.add_zero]
    exact le_trans (Nat.mod_le _ _) (Nat.mod_le _ _)
  have hb : (physical_row t r + 1) * t.term_cols ≤ 65535 * 65535 :=
    Nat.mul_le_mul (by omega) (by omega)
  rw [Nat.add_mul] at hb
  have hi : buffer_index t r c = physical_row t r * t.term_cols + c := by
    unfold buffer_index physical_row
    unfold physical_row at hb
    exact Nat.mod_eq_of_lt (by omega)
  rw [hi, Nat.mul_comm t.term_cols, Nat.mod_eq_of_lt (by omega)]
  omega

theorem clear_fold_screen (enc : cell_encoding) (color : Nat) (l : List Nat) (t : term σ φ) :
    (l.foldl (fun t i => ts_clear_row enc t i color) t).screen
      = l.foldl (fun s i => t.vi.clear_row i color s) t.screen := by
  induction l generalizing t with
  | nil => rfl
  | cons a l ih =>
    simp only [List.foldl_cons]
    rw [ih]
    rfl

theorem init_finish_spec (enc : cell_encoding) (t : term σ φ) (hs : t.scroll = 0)
    (hrows : 1 ≤ t.term_rows) (hrows' : t.term_rows < 65536) (hcols : 1 ≤ t.term_cols)
    (hcols' : t.term_cols < 65536) :
    init_finish enc t =
        { t with
          term_initialized := true
          current_row := 0
          current_col := 0
          buffer := (init_finish enc t).buffer
          screen := init_screen enc t.vi t.term_rows (enc.vgaentry_get_color (t.buffer 0)) t.screen
          accesses := (init_finish enc t).accesses } ∧
      ∀ r c, r < t.term_rows → c < t.term_cols → cell (init_finish enc t) r c = enc.blank := by
  generalize ht3 : term_action_move_ch_and_cur enc (vi_call t (fun v => v.enable_cursor)) 0 0 = t3
  have h3 : t3 = { t with
      current_row := 0, current_col := 0,
      screen := call_opt t.vi.flush_buffers
        (t.vi.move_cursor 0 0 (enc.vgaentry_get_color (t.buffer 0)) (t.vi.enable_cursor t.screen)),
      accesses := t3.accesses } := by
    have e1 : to_u16 (min (max 0 0) ((t.term_rows : Int) - 1)) = 0 := by
      unfold to_u16; omega
    have e2 : to_u16 (min (max 0 0) ((t.term_cols : Int) - 1)) = 0 := by
      unfold to_u16; omega
    have hscr : t3.screen = call_opt t.vi.flush_buffers
        (t.vi.move_cursor 0 0 (enc.vgaentry_get_color (t.buffer 0))
          (t.vi.enable_cursor t.screen)) := by
      rw [← ht3]
      unfold term_action_move_ch_and_cur
      rw [vi_call_opt_screen]
      simp only [vi_move_cursor_at_current, vi_call, buffer_get_entry, buffer_index, e1, e2, hs]
      simp
    rw [← hscr, ← ht3, move_ch_and_cur_fields]
    simp only [vi_call]
    rw [e1, e2]
  have hcr := clear_rows_spec enc t3 0 t3.term_rows
  have hdef : init_finish enc t = { clear_rows enc t3 0 t3.term_rows with term_initialized := true } := by
    unfold init_finish
    simp only
    rw [clear_rows_range enc _ _ rfl, ht3]
  have hscr4 : (clear_rows enc t3 0 t3.term_rows).screen
      = init_screen enc t.vi t.term_rows (enc.vgaentry_get_color (t.buffer 0)) t.screen := by
    rw [← clear_rows_range enc t3 t3.term_rows rfl, clear_fold_screen]
    rw [h3]
    rfl
  obtain ⟨hf4, -, -⟩ := hcr
  have e4 : clear_rows enc t3 0 t3.term_rows
      = { t3 with
          buffer := (clear_rows enc t3 0 t3.term_rows).buffer
          screen := (clear_rows enc t3 0 t3.term_rows).screen
          accesses := (clear_rows enc t3 0 t3.term_rows).accesses } := hf4
  constructor
  · rw [hdef, e4, hscr4, h3]
  · intro r c hr hc
    have h3s : t3.scroll = 0 := by rw [h3]; exact hs
    have h3r : t3.term_rows = t.term_rows := by rw [h3]
    have h3c : t3.term_cols = t.term_cols := by rw [h3]
    have := clear_all_rows_cell enc t3 r c h3s (by omega) (by omega) (by omega) (by omega)
    rw [hdef]
    rw [cell_eq]
    have hbi : buffer_index { clear_rows enc t3 0 t3.term_rows with term_initialized := true } r c
        = buffer_index t3 r c := by
      rw [e4]; rfl
    rw [hbi]
    exact this

theorem init_finish_frame (enc : cell_encoding) (t : term σ φ) :
    init_finish enc t =
      { t with
        term_initialized := true
        current_row := (init_finish enc t).current_row
        current_col := (init_finish enc t).current_col
        buffer := (init_finish enc t).buffer
        screen := (init_finish enc t).screen
        accesses := (init_finish enc t).accesses } := by
  have hf := (clear_rows_spec enc
    (term_action_move_ch_and_cur enc (vi_call t (fun v => v.enable_cursor)) 0 0) 0
    (term_action_move_ch_and_cur enc (vi_call t (fun v => v.enable_cursor)) 0 0).term_rows).1
  unfold same_frame at hf
  unfold init_finish
  simp only
  rw [clear_rows_range enc _ _ rfl, hf, move_ch_and_cur_fields]
  rfl

theorem init_buffer_size (enc : cell_encoding) (intf : video_interface σ) (rows cols : Int)
    (mem : Nat → Nat) (kzmalloc_ok : Bool) (screen : σ) (ctx : φ) (serial_console : Bool) :
    (init_term enc intf rows cols false true (some mem) kzmalloc_ok screen ctx
        serial_console).buffer_size
      = 2 * (to_u16 rows + 9 * to_u16 rows) * to_u16 cols % 4294967296 ∧
    (init_term enc intf rows cols false true (some mem) kzmalloc_ok screen ctx
        serial_console).term_rows = to_u16 rows ∧
    (init_term enc intf rows cols false true (some mem) kzmalloc_ok screen ctx
        serial_console).term_cols = to_u16 cols ∧
    (init_term enc intf rows cols false true (some mem) kzmalloc_ok screen ctx
        serial_console).total_buffer_rows = to_u16 rows + 9 * to_u16 rows ∧
    (init_term enc intf rows cols false true (some mem) kzmalloc_ok screen ctx
        serial_console).scroll = 0 := by
  rw [init_term_eq, init_finish_frame, init_setup_allocated]
  exact ⟨rfl, rfl, rfl, rfl, rfl⟩

/-- The allocation of `init_term` for 16384 rows of 13108 columns: the size
`2 * 163840 * 13108` wraps on `u32` to 262144 bytes, while the last visible
cell `(16383, 13107)` has the index 214761471, far past the 131072 cells of
the allocated object. -/
theorem init_alloc_size_wraps (enc : cell_encoding) (intf : video_interface σ)
    (mem : Nat → Nat) (kzmalloc_ok : Bool) (screen : σ) (ctx : φ) (serial_console : Bool) :
    (init_term enc intf 16384 13108 false true (some mem) kzmalloc_ok screen ctx
        serial_console).buffer_size = 262144 ∧
      (init_term enc intf 16384 13108 false true (some mem) kzmalloc_ok screen ctx
        serial_console).term_rows = 16384 ∧
      (init_term enc intf 16384 13108 false true (some mem) kzmalloc_ok screen ctx
        serial_console).term_cols = 13108 ∧
      buffer_index (init_term enc intf 16384 13108 false true (some mem) kzmalloc_ok screen ctx
        serial_console) 16383 13107 = 214761471 ∧
      ¬ (2 * buffer_index (init_term enc intf 16384 13108 false true (some mem) kzmalloc_ok
        screen ctx serial_console) 16383 13107 + 2
          ≤ (init_term enc intf 16384 13108 false true (some mem) kzmalloc_ok screen ctx
            serial_console).buffer_size) := by
  obtain ⟨h1, h2, h3, h4, h5⟩ := init_buffer_size enc intf 16384 13108 mem kzmalloc_ok screen ctx
    serial_console
  have e1 : to_u16 16384 = 16384 := by decide
  have e2 : to_u16 13108 = 13108 := by decide
  simp only [e1, e2] at h1 h2 h3 h4
  have v1 : 2 * (16384 + 9 * 16384) * 13108 % 4294967296 = 262144 := by decide
  have v4 : 16384 + 9 * 16384 = 163840 := by decide
  rw [v1] at h1
  rw [v4] at h4
  have hi : buffer_index (init_term enc intf 16384 13108 false true (some mem) kzmalloc_ok screen
      ctx serial_console) 16383 13107 = 214761471 := by
    unfold buffer_index
    rw [h3, h4, h5]
  refine ⟨h1, h2, h3, hi, ?_⟩
  rw [hi, h1]
  decide

/-- C14, as the code has it: for every backend and all `rows`, `cols` from 1
to 65535 (the range of the `u16` fields that hold them) such that, when the
buffer is allocated, the size `2 * total_buffer_rows * cols = 20 * rows * cols`
handed to `kmalloc` does not wrap on `u32`, whether or not the buffer and the
tab map can be allocated, `init_term` run on the fresh engine state leaves
every visible cell `(r, c)` equal to a default-colored space, the cursor at
`(0, 0)`, `scroll = max_scroll = 0` and the initialized flag set; the backend
has received `enable_cursor`, `move_cursor(0, 0, _)`, `flush_buffers` if it
has it, and one `clear_row` for each row, so that the hardware cursor is
enabled; and the cell `(r, c)` has the index `r * term_cols + c`, inside the
object that `buffer` points to (the allocation, or `failsafe_buffer`). -/
theorem init_postcondition (enc : cell_encoding) (intf : video_interface σ) (rows cols : Int)
    (in_panic kmalloc_initialized : Bool) (kmalloc_mem : Option (Nat → Nat))
    (kzmalloc_ok : Bool) (screen : σ) (ctx : φ) (serial_console : Bool) (T : term σ φ) (r c : Nat)
    (hT : T = init_term enc intf rows cols in_panic kmalloc_initialized kmalloc_mem kzmalloc_ok
      screen ctx serial_console)
    (hr1 : 1 ≤ rows) (hr2 : rows ≤ 65535) (hc1 : 1 ≤ cols) (hc2 : cols ≤ 65535)
    (hsize : (in_panic = true ∨ kmalloc_initialized = false ∨ kmalloc_mem = none) ∨
      20 * rows * cols ≤ 4294967295)
    (hr : r < T.term_rows) (hc : c < T.term_cols) :
    cell T r c = enc.blank ∧ T.current_row = 0 ∧ T.current_col = 0 ∧ T.scroll = 0 ∧
      T.max_scroll = 0 ∧ T.term_initialized = true ∧
      (∃ color, T.screen = init_screen enc intf T.term_rows color screen) ∧
      buffer_index T r c = r * T.term_cols + c ∧
      2 * buffer_index T r c + 2 ≤ T.buffer_size := by
  have hu1 : 1 ≤ to_u16 rows ∧ to_u16 rows < 65536 ∧ ((to_u16 rows : Nat) : Int) = rows := by
    unfold to_u16; omega
  have hu2 : 1 ≤ to_u16 cols ∧ to_u16 cols < 65536 ∧ ((to_u16 cols : Nat) : Int) = cols := by
    unfold to_u16; omega
  rw [init_term_eq] at hT
  generalize hS : init_setup intf rows cols in_panic kmalloc_initialized kmalloc_mem kzmalloc_ok
    screen ctx serial_console = S at hT
  have hprops : S.scroll = 0 ∧ S.max_scroll = 0 ∧ 1 ≤ S.term_rows ∧ S.term_rows < 65536 ∧
      1 ≤ S.term_cols ∧ S.term_cols < 65536 ∧ S.vi = intf ∧ S.screen = screen ∧
      S.term_rows ≤ S.total_buffer_rows ∧ 2 * (S.term_rows * S.term_cols) ≤ S.buffer_size := by
    rcases init_setup_cases in_panic kmalloc_initialized kmalloc_mem with h | ⟨h1, h2, mem, h3⟩
    · rw [← hS, init_setup_failsafe intf rows cols in_panic kmalloc_initialized kmalloc_mem
        kzmalloc_ok screen ctx serial_console h]
      have hm : min 25 (to_u16 rows) * min 80 (to_u16 cols) ≤ 25 * 80 :=
        Nat.mul_le_mul (Nat.min_le_left _ _) (Nat.min_le_left _ _)
      refine ⟨rfl, rfl, ?_, ?_, ?_, ?_, rfl, rfl, ?_, ?_⟩ <;> simp only <;> omega
    · have hs : 20 * rows * cols ≤ 4294967295 := by
        rcases hsize with hf | hs
        · rcases hf with hf | hf | hf
          · rw [h1] at hf; exact absurd hf (by decide)
          · rw [h2] at hf; exact absurd hf (by decide)
          · rw [h3] at hf; exact absurd hf (by simp)
        · exact hs
      have hn : 20 * to_u16 rows * to_u16 cols ≤ 4294967295 := by
        have : ((20 * to_u16 rows * to_u16 cols : Nat) : Int) ≤ 4294967295 := by
          push_cast
          rw [hu1.2.2, hu2.2.2]
          exact hs
        exact_mod_cast this
      have he : 2 * (to_u16 rows + 9 * to_u16 rows) * to_u16 cols
          = 20 * to_u16 rows * to_u16 cols := by ring
      have hle : 2 * (to_u16 rows * to_u16 cols) ≤ 20 * to_u16 rows * to_u16 cols := by
        have : 20 * to_u16 rows * to_u16 cols = 20 * (to_u16 rows * to_u16 cols) := by ring
        omega
      rw [← hS, h1, h2, h3, init_setup_allocated]
      refine ⟨rfl, rfl, ?_, ?_, ?_, ?_, rfl, rfl, ?_, ?_⟩ <;> simp only
      · omega
      · omega
      · omega
      · omega
      · omega
      · rw [he, Nat.mod_eq_of_lt (by omega)]
        exact hle
  obtain ⟨p1, p2, p3, p4, p5, p6, p7, p8, p9, p10⟩ := hprops
  obtain ⟨heq, hcell⟩ := init_finish_spec enc S p1 p3 p4 p5 p6
  have hTr : T.term_rows = S.term_rows := by rw [hT, heq]
  have hTc : T.term_cols = S.term_cols := by rw [hT, heq]
  have hTt : T.total_buffer_rows = S.total_buffer_rows := by rw [hT, heq]
  have hTs : T.scroll = 0 := by rw [hT, heq]; exact p1
  have hTb : T.buffer_size = S.buffer_size := by rw [hT, heq]
  have hmul : (r + 1) * S.term_cols ≤ S.term_rows * S.term_cols :=
    Nat.mul_le_mul_right _ (by omega)
  rw [Nat.add_mul] at hmul
  have hmul2 : S.term_rows * S.term_cols ≤ 65535 * 65535 :=
    Nat.mul_le_mul (by omega) (by omega)
  have hidx : buffer_index T r c = r * T.term_cols + c := by
    unfold buffer_index
    rw [hTs, hTt, hTc, Nat.add_zero, Nat.mod_eq_of_lt (by omega : r < 4294967296),
      Nat.mod_eq_of_lt (by omega : r < S.total_buffer_rows)]
    exact Nat.mod_eq_of_lt (by omega)
  refine ⟨?_, ?_, ?_, hTs, ?_, ?_, ?_, hidx, ?_⟩
  · rw [hT]; exact hcell r c (by omega) (by omega)
  · rw [hT, heq]
  · rw [hT, heq]
  · rw [hT, heq]; exact p2
  · rw [hT, heq]
  · refine ⟨enc.vgaentry_get_color (S.buffer 0), ?_⟩
    rw [hTr, hT, heq, p7, p8]
  · rw [hidx, hTb, hTc]
    omega

/-- C15, as the code has it: for all `rows`, `cols` from 1 to 65535 (the
range of the `u16` fields that hold them), when the kernel is in panic, the
allocator is not initialised or the allocation fails, `init_term` yields
`extra_buffer_rows = 0`, `total_buffer_rows = term_rows = min(25, rows)`,
`term_cols = min(80, cols)` and no tab map, so that
`extra_buffer_rows = total_buffer_rows - term_rows` and every in-range cell
index `((r + s) mod total_buffer_rows) * term_cols + c` is below the `80 * 25`
cells of the static buffer, for every scroll offset `s`; when the allocation
succeeds, `term_rows = rows`, `extra_buffer_rows = 9 * rows` and
`total_buffer_rows = 10 * rows`. -/
theorem init_geometry (enc : cell_encoding) (intf : video_interface σ) (rows cols : Int)
    (in_panic kmalloc_initialized : Bool) (kmalloc_mem : Option (Nat → Nat))
    (kzmalloc_ok : Bool) (screen : σ) (ctx : φ) (serial_console : Bool) (T : term σ φ)
    (hT : T = init_term enc intf rows cols in_panic kmalloc_initialized kmalloc_mem kzmalloc_ok
      screen ctx serial_console)
    (hr1 : 1 ≤ rows) (hr2 : rows ≤ 65535) (hc1 : 1 ≤ cols) (hc2 : cols ≤ 65535) :
    ((in_panic = true ∨ kmalloc_initialized = false ∨ kmalloc_mem = none) →
        T.extra_buffer_rows = 0 ∧ T.total_buffer_rows = T.term_rows ∧
        (T.term_rows : Int) = min 25 rows ∧ (T.term_cols : Int) = min 80 cols ∧
        T.term_tabs = none ∧ T.extra_buffer_rows = T.total_buffer_rows - T.term_rows ∧
        ∀ s r c, r < T.term_rows → c < T.term_cols →
          ((r + s) % T.total_buffer_rows) * T.term_cols + c < 80 * 25) ∧
      ((in_panic = false ∧ kmalloc_initialized = true ∧ kmalloc_mem.isSome = true) →
        (T.term_rows : Int) = rows ∧ (T.extra_buffer_rows : Int) = 9 * rows ∧
        (T.total_buffer_rows : Int) = 10 * rows) := by
  have hu1 : (to_u16 rows : Int) = rows := by unfold to_u16; omega
  have hu2 : (to_u16 cols : Int) = cols := by unfold to_u16; omega
  rw [init_term_eq, init_finish_frame] at hT
  constructor
  · intro h
    rw [init_setup_failsafe intf rows cols in_panic kmalloc_initialized kmalloc_mem
      kzmalloc_ok screen ctx serial_console h] at hT
    have e1 : T.term_rows = min 25 (to_u16 rows) := by rw [hT]
    have e2 : T.term_cols = min 80 (to_u16 cols) := by rw [hT]
    have e3 : T.total_buffer_rows = min 25 (to_u16 rows) := by rw [hT]
    have e4 : T.extra_buffer_rows = 0 := by rw [hT]
    have e5 : T.term_tabs = none := by rw [hT]
    refine ⟨e4, by rw [e1, e3], by rw [e1]; omega, by rw [e2]; omega, e5, by rw [e4, e1, e3]; simp,
      ?_⟩
    intro s r c hr hc
    rw [e1] at hr
    rw [e2] at hc
    rw [e3, e2]
    have hlt : (r + s) % min 25 (to_u16 rows) < min 25 (to_u16 rows) := Nat.mod_lt _ (by omega)
    have hm : ((r + s) % min 25 (to_u16 rows) + 1) * min 80 (to_u16 cols) ≤ 25 * 80 :=
      Nat.mul_le_mul (by omega) (by omega)
    rw [Nat.add_mul] at hm
    omega
  · rintro ⟨h1, h2, h3⟩
    obtain ⟨mem, hm⟩ := Option.isSome_iff_exists.mp h3
    rw [h1, h2, hm, init_setup_allocated] at hT
    have e1 : T.term_rows = to_u16 rows := by rw [hT]
    have e3 : T.total_buffer_rows = to_u16 rows + 9 * to_u16 rows := by rw [hT]
    have e4 : T.extra_buffer_rows = 9 * to_u16 rows := by rw [hT]
    rw [e1, e3, e4]
    push_cast
    omega

set_option maxRecDepth 1000000 in
/-- Witness of C14: the failsafe terminal (25 rows of 80 columns, no buffer
allocated), observed at its last cell `(24, 79)`, whose index 1999 is the last
of the `80 * 25` cells of `failsafe_buffer`. -/
theorem init_postcondition_witness :
    (1 : Int) ≤ 25 ∧ (25 : Int) ≤ 65535 ∧ (1 : Int) ≤ 80 ∧ (80 : Int) ≤ 65535 ∧
      (20 : Int) * 25 * 80 ≤ 4294967295 ∧
      24 < failsafe_term.term_rows ∧ 79 < failsafe_term.term_cols ∧
      cell failsafe_term 24 79 = vga_encoding.blank ∧ failsafe_term.current_row = 0 ∧
      failsafe_term.current_col = 0 ∧ failsafe_term.scroll = 0 ∧ failsafe_term.max_scroll = 0 ∧
      failsafe_term.term_initialized = true ∧ cursor_enabled failsafe_term.screen = true ∧
      buffer_index failsafe_term 24 79 = 24 * failsafe_term.term_cols + 79 ∧
      2 * buffer_index failsafe_term 24 79 + 2 ≤ failsafe_term.buffer_size ∧
      buffer_index failsafe_term 24 79 = 1999 ∧ failsafe_term.buffer_size = 4000 :=
  ⟨by decide, by decide, by decide, by decide, by decide, by decide, by decide,
    (init_postcondition vga_encoding (recording_vi 80 false true) 25 80 false false none false
      [] () false failsafe_term 24 79 rfl (by decide) (by decide) (by decide) (by decide)
      (Or.inr (by decide)) (by decide) (by decide)).1,
    (init_postcondition vga_encoding (recording_vi 80 false true) 25 80 false false none false
      [] () false failsafe_term 24 79 rfl (by decide) (by decide) (by decide) (by decide)
      (Or.inr (by decide)) (by decide) (by decide)).2.1,
    (init_postcondition vga_encoding (recording_vi 80 false true) 25 80 false false none false
      [] () false failsafe_term 24 79 rfl (by decide) (by decide) (by decide) (by decide)
      (Or.inr (by decide)) (by decide) (by decide)).2.2.1,
    (init_postcondition vga_encoding (recording_vi 80 false true) 25 80 false false none false
      [] () false failsafe_term 24 79 rfl (by decide) (by decide) (by decide) (by decide)
      (Or.inr (by decide)) (by decide) (by decide)).2.2.2.1,
    (init_postcondition vga_encoding (recording_vi 80 false true) 25 80 false false none false
      [] () false failsafe_term 24 79 rfl (by decide) (by decide) (by decide) (by decide)
      (Or.inr (by decide)) (by decide) (by decide)).2.2.2.2.1,
    (init_postcondition vga_encoding (recording_vi 80 false true) 25 80 false false none false
      [] () false failsafe_term 24 79 rfl (by decide) (by decide) (by decide) (by decide)
      (Or.inr (by decide)) (by decide) (by decide)).2.2.2.2.2.1,
    by decide,
    (init_postcondition vga_encoding (recording_vi 80 false true) 25 80 false false none false
      [] () false failsafe_term 24 79 rfl (by decide) (by decide) (by decide) (by decide)
      (Or.inr (by decide)) (by decide) (by decide)).2.2.2.2.2.2.2.1,
    (init_postcondition vga_encoding (recording_vi 80 false true) 25 80 false false none false
      [] () false failsafe_term 24 79 rfl (by decide) (by decide) (by decide) (by decide)
      (Or.inr (by decide)) (by decide) (by decide)).2.2.2.2.2.2.2.2,
    by decide, by decide⟩

/-- Counterexample to C14 as stated. First, `cols = 65536` is at least 1, but
the `u16` field `term_cols` receives 0. The move of the cursor to `(0, 0)`
clamps the column to `term_cols - 1`, which is computed on `int` and stored in
the `u16` field `current_col` as 65535: the cursor is at `(0, 65535)`, not at
`(0, 0)`, with the buffer allocated as well as in failsafe mode. Second,
`rows = 16384` and `cols = 13108` fit their `u16` fields, but the size
`2 * 163840 * 13108` handed to `kmalloc` wraps on `u32` to 262144 bytes: the
last visible cell `(16383, 13107)`, which the clear loop writes, has the index
214761471 and lies outside the allocated object. -/
theorem init_cols_truncated :
    (1 : Int) ≤ 25 ∧ (1 : Int) ≤ 65536 ∧
      (init_term vga_encoding (recording_vi 80 false true) 25 65536 false true
        (some (fun _ => 9999)) true [] () false).term_cols = 0 ∧
      (init_term vga_encoding (recording_vi 80 false true) 25 65536 false true
        (some (fun _ => 9999)) true [] () false).current_row = 0 ∧
      (init_term vga_encoding (recording_vi 80 false true) 25 65536 false true
        (some (fun _ => 9999)) true [] () false).current_col = 65535 ∧
      (init_term vga_encoding (recording_vi 80 false true) 25 65536 false true
        (some (fun _ => 9999)) true [] () false).current_col ≠ 0 ∧
      (init_term vga_encoding (recording_vi 80 false true) 25 65536 false false
        none false [] () false).current_col = 65535 ∧
      (1 : Int) ≤ 16384 ∧ (16384 : Int) ≤ 65535 ∧ (1 : Int) ≤ 13108 ∧ (13108 : Int) ≤ 65535 ∧
      (init_term vga_encoding (recording_vi 80 false true) 16384 13108 false true
        (some (fun _ => 9999)) true [] () false).buffer_size = 262144 ∧
      (init_term vga_encoding (recording_vi 80 false true) 16384 13108 false true
        (some (fun _ => 9999)) true [] () false).term_rows = 16384 ∧
      (init_term vga_encoding (recording_vi 80 false true) 16384 13108 false true
        (some (fun _ => 9999)) true [] () false).term_cols = 13108 ∧
      buffer_index (init_term vga_encoding (recording_vi 80 false true) 16384 13108 false true
        (some (fun _ => 9999)) true [] () false) 16383 13107 = 214761471 ∧
      ¬ (2 * buffer_index (init_term vga_encoding (recording_vi 80 false true) 16384 13108 false
        true (some (fun _ => 9999)) true [] () false) 16383 13107 + 2
          ≤ (init_term vga_encoding (recording_vi 80 false true) 16384 13108 false true
            (some (fun _ => 9999)) true [] () false).buffer_size) :=
  ⟨by decide, by decide, by decide, by decide, by decide, by decide, by decide, by decide,
    by decide, by decide, by decide,
    init_alloc_size_wraps vga_encoding (recording_vi 80 false true) (fun _ => 9999) true [] ()
      false⟩

set_option maxRecDepth 1000000 in
/-- Witness of C15: 30 rows of 100 columns requested. Without the allocator the
terminal has 25 rows of 80 columns, and the last cell of the ring at scroll
offset 7 has an index below 2000; with the buffer allocated it has 30 rows, 270
extra rows and 300 buffer rows. -/
theorem init_geometry_witness :
    (1 : Int) ≤ 30 ∧ (30 : Int) ≤ 65535 ∧ (1 : Int) ≤ 100 ∧ (100 : Int) ≤ 65535 ∧
      (init_term vga_encoding (recording_vi 80 false true) 30 100 false false none false [] ()
        false).extra_buffer_rows = 0 ∧
      (init_term vga_encoding (recording_vi 80 false true) 30 100 false false none false [] ()
        false).total_buffer_rows = 25 ∧
      (init_term vga_encoding (recording_vi 80 false true) 30 100 false false none false [] ()
        false).term_rows = 25 ∧
      (init_term vga_encoding (recording_vi 80 false true) 30 100 false false none false [] ()
        false).term_cols = 80 ∧
      (((init_term vga_encoding (recording_vi 80 false true) 30 100 false false none false [] ()
        false).term_rows : Nat) : Int) = min 25 30 ∧
      (((init_term vga_encoding (recording_vi 80 false true) 30 100 false true
        (some (fun _ => 9999)) true [] () false).extra_buffer_rows : Nat) : Int) = 9 * 30 ∧
      (((init_term vga_encoding (recording_vi 80 false true) 30 100 false true
        (some (fun _ => 9999)) true [] () false).total_buffer_rows : Nat) : Int) = 10 * 30 :=
  ⟨by decide, by decide, by decide, by decide, by decide, by decide, by decide, by decide,
    ((init_geometry vga_encoding (recording_vi 80 false true) 30 100 false false none false [] ()
      false _ rfl (by decide) (by decide) (by decide) (by decide)).1 (Or.inr (Or.inl rfl))).2.2.1,
    ((init_geometry vga_encoding (recording_vi 80 false true) 30 100 false true
      (some (fun _ => 9999)) true [] () false _ rfl (by decide) (by decide) (by decide)
      (by decide)).2 ⟨rfl, rfl, rfl⟩).2.1,
    ((init_geometry vga_encoding (recording_vi 80 false true) 30 100 false true
      (some (fun _ => 9999)) true [] () false _ rfl (by decide) (by decide) (by decide)
      (by decide)).2 ⟨rfl, rfl, rfl⟩).2.2⟩

/-- Counterexample to C15 as stated: with `cols = 65536` and the allocator
unavailable the `u16` field `term_cols` holds 0, not `min(80, cols) = 80`; with
`rows = 65537` and the buffer allocated `term_rows` is 1, `extra_buffer_rows`
is 9 and `total_buffer_rows` is 10, not `9 * rows` and `10 * rows`; with
`rows = -1` and the allocator unavailable `term_rows` is 25, not
`min(25, rows) = -1`. -/
theorem init_geometry_truncated :
    (init_term vga_encoding (recording_vi 80 false true) 25 65536 false false none false [] ()
        false).term_cols = 0 ∧
      (min 80 65536 : Int) = 80 ∧
      (init_term vga_encoding (recording_vi 80 false true) 65537 80 false true
        (some (fun _ => 9999)) true [] () false).term_rows = 1 ∧
      (init_term vga_encoding (recording_vi 80 false true) 65537 80 false true
        (some (fun _ => 9999)) true [] () false).extra_buffer_rows = 9 ∧
      (init_term vga_encoding (recording_vi 80 false true) 65537 80 false true
        (some (fun _ => 9999)) true [] () false).total_buffer_rows = 10 ∧
      (9 * 65537 : Int) ≠ 9 ∧
      (init_term vga_encoding (recording_vi 80 false true) (-1) 80 false false none false [] ()
        false).term_rows = 25 ∧
      (min 25 (-1) : Int) = -1 := by
  decide

/-! ## C17: erase-in-line -/

theorem erase_in_line_0_eq (enc : cell_encoding) (t : term σ φ) :
    term_action_erase_in_line enc t 0 =
      vi_call_opt (erase_cells t t.current_col t.term_cols enc.blank)
        (fun v => v.flush_buffers) := rfl

theorem erase_in_line_1_eq (enc : cell_encoding) (t : term σ φ) :
    term_action_erase_in_line enc t 1 =
      vi_call_opt (erase_cells t 0 t.current_col enc.blank) (fun v => v.flush_buffers) := rfl

theorem erase_in_line_2_eq (enc : cell_encoding) (t : term σ φ) :
    term_action_erase_in_line enc t 2 =
      vi_call_opt (ts_clear_row enc t t.current_row (enc.vgaentry_get_color enc.blank))
        (fun v => v.flush_buffers) := rfl

theorem erase_in_line_frame (enc : cell_encoding) (t : term σ φ) (mode : Int) :
    same_frame t (term_action_erase_in_line enc t mode) := by
  unfold term_action_erase_in_line
  simp only
  split_ifs
  · exact same_frame_trans (erase_cells_spec t _ _ _).1 (vi_call_opt_frame _ _)
  · exact same_frame_trans (erase_cells_spec t _ _ _).1 (vi_call_opt_frame _ _)
  · have h : same_frame t (ts_clear_row enc t t.current_row (enc.vgaentry_get_color enc.blank)) :=
      rfl
    exact same_frame_trans h (vi_call_opt_frame _ _)
  · rfl

theorem erase_cells_buffer (t : term σ φ) (hg : ring_ok t) (hcr : t.current_row < t.term_rows)
    (a b entry : Nat) (hb : b ≤ t.term_cols) (i : Nat) :
    (erase_cells t a b entry).buffer i =
      if physical_row t t.current_row * t.term_cols + a ≤ i ∧
          i < physical_row t t.current_row * t.term_cols + b then entry % 65536
      else t.buffer i := by
  obtain ⟨_, hin, hout⟩ := erase_cells_spec t a b entry
  split_ifs with h
  · refine hin i ⟨i - physical_row t t.current_row * t.term_cols, by omega, by omega, ?_⟩
    rw [buffer_index_eq t hg _ _ hcr (by omega)]
    omega
  · refine hout i ?_
    rintro ⟨col, h1, h2, h3⟩
    rw [buffer_index_eq t hg _ _ hcr (by omega)] at h3
    omega

theorem erase_in_line_0_buffer (enc : cell_encoding) (t : term σ φ) (hg : ring_ok t)
    (hcr : t.current_row < t.term_rows) (i : Nat) :
    (term_action_erase_in_line enc t 0).buffer i =
      if physical_row t t.current_row * t.term_cols + t.current_col ≤ i ∧
          i < physical_row t t.current_row * t.term_cols + t.term_cols then enc.blank
      else t.buffer i := by
  rw [erase_in_line_0_eq, vi_call_opt_buffer, erase_cells_buffer t hg hcr _ _ _ (le_refl _),
    blank_mod]

theorem erase_in_line_1_buffer (enc : cell_encoding) (t : term σ φ) (hg : ring_ok t)
    (hcr : t.current_row < t.term_rows) (hcc : t.current_col ≤ t.term_cols) (i : Nat) :
    (term_action_erase_in_line enc t 1).buffer i =
      if physical_row t t.current_row * t.term_cols ≤ i ∧
          i < physical_row t t.current_row * t.term_cols + t.current_col then enc.blank
      else t.buffer i := by
  rw [erase_in_line_1_eq, vi_call_opt_buffer, erase_cells_buffer t hg hcr _ _ _ hcc, blank_mod]
  rfl

theorem erase_in_line_2_buffer (enc : cell_encoding) (t : term σ φ) (hg : ring_ok t)
    (hcr : t.current_row < t.term_rows)
    (henc : enc.make_vgaentry 32 (enc.vgaentry_get_color enc.blank) % 65536 = enc.blank)
    (i : Nat) :
    (term_action_erase_in_line enc t 2).buffer i =
      if physical_row t t.current_row * t.term_cols ≤ i ∧
          i < physical_row t t.current_row * t.term_cols + t.term_cols then enc.blank
      else t.buffer i := by
  rw [erase_in_line_2_eq, vi_call_opt_buffer, ← row_base_eq t hg _ hcr]
  show memset16 t.buffer (t.term_cols * physical_row t t.current_row % 4294967296)
    (enc.make_vgaentry 32 (enc.vgaentry_get_color enc.blank)) t.term_cols i = _
  unfold memset16
  rw [henc]

/-- C17, as the code has it: erase-in-line on a ring that does not wrap
(`rows <= total_buffer_rows`, `total_buffer_rows * cols <= 2^32` and
`scroll + rows <= 2^32`), with the cursor at `(row, col)`, `row < rows`,
`col <= cols`. Mode 0 sets exactly the cells
`(row, c)` with `col <= c < cols` to the default-colored space, mode 1 exactly
those with `c < col`, mode 2 the whole cursor row (for an encoding in which the
space built from the color of the default-colored space is that space again);
every other visible cell keeps its value; no mode changes the cursor, `scroll`
or `max_scroll`; and mode 0 followed by mode 1 gives the same buffer as
mode 2. -/
theorem erase_in_line_modes (enc : cell_encoding) (t : term σ φ) (r c : Nat) (mode : Int)
    (hg : ring_ok t) (hcr : t.current_row < t.term_rows) (hcc : t.current_col ≤ t.term_cols)
    (henc : enc.make_vgaentry 32 (enc.vgaentry_get_color enc.blank) % 65536 = enc.blank)
    (hr : r < t.term_rows) (hc : c < t.term_cols) :
    (cell (term_action_erase_in_line enc t 0) r c =
        if r = t.current_row ∧ t.current_col ≤ c then enc.blank else cell t r c) ∧
      (cell (term_action_erase_in_line enc t 1) r c =
        if r = t.current_row ∧ c < t.current_col then enc.blank else cell t r c) ∧
      (cell (term_action_erase_in_line enc t 2) r c =
        if r = t.current_row then enc.blank else cell t r c) ∧
      (term_action_erase_in_line enc t mode).current_row = t.current_row ∧
      (term_action_erase_in_line enc t mode).current_col = t.current_col ∧
      (term_action_erase_in_line enc t mode).scroll = t.scroll ∧
      (term_action_erase_in_line enc t mode).max_scroll = t.max_scroll ∧
      (term_action_erase_in_line enc (term_action_erase_in_line enc t 0) 1).buffer =
        (term_action_erase_in_line enc t 2).buffer := by
  have hidx := buffer_index_eq t hg r c hr hc
  have hrow : r ≠ t.current_row →
      ¬ (physical_row t t.current_row * t.term_cols ≤ physical_row t r * t.term_cols + c ∧
        physical_row t r * t.term_cols + c <
          physical_row t t.current_row * t.term_cols + t.term_cols) := by
    intro hne
    have h := row_disjoint t hg r t.current_row c hr hcr hc hne
    rwa [row_base_eq t hg _ hcr, hidx] at h
  have hfm := erase_in_line_frame enc t mode
  have hf0 := erase_in_line_frame enc t 0
  obtain ⟨f1, f2, f3, f4⟩ := same_frame_cursor hf0
  refine ⟨?_, ?_, ?_, ?_, ?_, ?_, ?_, ?_⟩
  · rw [cell_eq, same_frame_buffer_index hf0, erase_in_line_0_buffer enc t hg hcr, cell_eq,
      hidx]
    by_cases h : r = t.current_row
    · subst h
      simp only [true_and]
      congr 1
      apply propext
      constructor <;> intro h' <;> omega
    · rw [if_neg (fun h' => hrow h ⟨by omega, h'.2⟩), if_neg (fun h' => h h'.1)]
  · rw [cell_eq, same_frame_buffer_index (erase_in_line_frame enc t 1),
      erase_in_line_1_buffer enc t hg hcr hcc, cell_eq, hidx]
    by_cases h : r = t.current_row
    · subst h
      simp only [true_and]
      congr 1
      apply propext
      constructor <;> intro h' <;> omega
    · rw [if_neg (fun h' => hrow h ⟨h'.1, by omega⟩), if_neg (fun h' => h h'.1)]
  · rw [cell_eq, same_frame_buffer_index (erase_in_line_frame enc t 2),
      erase_in_line_2_buffer enc t hg hcr henc, cell_eq, hidx]
    by_cases h : r = t.current_row
    · subst h
      rw [if_pos ⟨by omega, by omega⟩, if_pos rfl]
    · rw [if_neg (hrow h), if_neg h]
  · unfold same_frame at hfm; rw [hfm]
  · unfold same_frame at hfm; rw [hfm]
  · unfold same_frame at hfm; rw [hfm]
  · unfold same_frame at hfm; rw [hfm]
  · funext i
    rw [erase_in_line_1_buffer enc _ (same_frame_ring_ok hf0 hg) (by rw [f1, f3]; exact hcr)
      (by rw [f2, f4]; exact hcc), erase_in_line_2_buffer enc t hg hcr henc,
      same_frame_physical_row hf0, f1, f2, f4, erase_in_line_0_buffer enc t hg hcr]
    by_cases h1 : physical_row t t.current_row * t.term_cols ≤ i ∧
        i < physical_row t t.current_row * t.term_cols + t.current_col
    · rw [if_pos h1, if_pos ⟨h1.1, by omega⟩]
    · rw [if_neg h1]
      by_cases h2 : physical_row t t.current_row * t.term_cols ≤ i ∧
          i < physical_row t t.current_row * t.term_cols + t.term_cols
      · rw [if_pos h2, if_pos ⟨by omega, h2.2⟩]
      · rw [if_neg h2, if_neg (fun h' => h2 ⟨by omega, h'.2⟩)]

/-- Witness of C17 as the code has it: the populated small terminal with the cursor at `(1, 2)`,
observed at the cell `(1, 3)`, which holds `h` and lies after the cursor. -/
theorem erase_in_line_modes_witness :
    ring_ok populated_term ∧ populated_term.current_row < populated_term.term_rows ∧
      populated_term.current_col ≤ populated_term.term_cols ∧
      vga_encoding.make_vgaentry 32 (vga_encoding.vgaentry_get_color vga_encoding.blank) % 65536
        = vga_encoding.blank ∧
      1 < populated_term.term_rows ∧ 3 < populated_term.term_cols ∧
      cell populated_term 1 3 = vga_encoding.make_vgaentry 104 7 ∧
      populated_term.current_row = 1 ∧ populated_term.current_col = 2 ∧
      ((cell (term_action_erase_in_line vga_encoding populated_term 0) 1 3 =
          if 1 = populated_term.current_row ∧ populated_term.current_col ≤ 3
            then vga_encoding.blank
          else cell populated_term 1 3) ∧
        (cell (term_action_erase_in_line vga_encoding populated_term 1) 1 3 =
          if 1 = populated_term.current_row ∧ 3 < populated_term.current_col
            then vga_encoding.blank
          else cell populated_term 1 3) ∧
        (cell (term_action_erase_in_line vga_encoding populated_term 2) 1 3 =
          if 1 = populated_term.current_row then vga_encoding.blank
          else cell populated_term 1 3) ∧
        (term_action_erase_in_line vga_encoding populated_term 2).current_row
          = populated_term.current_row ∧
        (term_action_erase_in_line vga_encoding populated_term 2).current_col
          = populated_term.current_col ∧
        (term_action_erase_in_line vga_encoding populated_term 2).scroll
          = populated_term.scroll ∧
        (term_action_erase_in_line vga_encoding populated_term 2).max_scroll
          = populated_term.max_scroll ∧
        (term_action_erase_in_line vga_encoding
          (term_action_erase_in_line vga_encoding populated_term 0) 1).buffer
          = (term_action_erase_in_line vga_encoding populated_term 2).buffer) :=
  ⟨by decide, by decide, by decide, by decide, by decide, by decide, by decide, by decide,
    by decide,
    erase_in_line_modes vga_encoding populated_term 1 3 2 (by decide) (by decide) (by decide)
      (by decide) (by decide) (by decide)⟩

/-! ## C18, C19: non-buffered scroll -/

theorem copy_row_cell (t : term σ φ) (hg : ring_ok t) (d s : Nat) (hd : d < t.term_rows)
    (hs : s < t.term_rows) (r c : Nat) (hr : r < t.term_rows) (hc : c < t.term_cols) :
    cell { t with
        buffer := memcpy16 t.buffer (t.term_cols * physical_row t d % 4294967296)
          (t.term_cols * physical_row t s % 4294967296) t.term_cols } r c =
      if r = d then cell t s c else cell t r c := by
  rw [cell_eq, cell_eq, cell_eq]
  show memcpy16 t.buffer _ _ _ (buffer_index t r c) = _
  unfold memcpy16
  by_cases h : r = d
  · subst h
    rw [if_pos (row_covers t hg r c hr hc), if_pos rfl, row_base_eq t hg r hr,
      row_base_eq t hg s hs, buffer_index_eq t hg r c hr hc, buffer_index_eq t hg s c hs hc,
      Nat.add_sub_cancel_left]
  · rw [if_neg (row_disjoint t hg r d c hr hd hc h), if_neg h]

theorem copy_fold_up (f : term σ φ → Nat → term σ φ) (m : Nat)
    (hf : ∀ t row, f t row =
      { t with
        buffer := memcpy16 t.buffer (t.term_cols * physical_row t row % 4294967296)
          (t.term_cols * physical_row t (row + m) % 4294967296) t.term_cols })
    (t : term σ φ) (hg : ring_ok t) (k : Nat) (hk : k + m ≤ t.term_rows) :
    same_frame t ((List.range k).foldl f t) ∧
      ∀ r c, r < t.term_rows → c < t.term_cols →
        cell ((List.range k).foldl f t) r c = if r < k then cell t (r + m) c else cell t r c := by
  induction k with
  | zero => exact ⟨rfl, fun r c _ _ => by simp⟩
  | succ k ih =>
    obtain ⟨hfr, hcell⟩ := ih (by omega)
    rw [List.range_succ, List.foldl_append, List.foldl_cons, List.foldl_nil]
    generalize (List.range k).foldl f t = u at hfr hcell
    obtain ⟨_, _, hrows, hcols⟩ := same_frame_cursor hfr
    have hstep : same_frame u (f u k) := by rw [hf]; rfl
    refine ⟨same_frame_trans hfr hstep, ?_⟩
    intro r c hr hc
    rw [hf, copy_row_cell u (same_frame_ring_ok hfr hg) k (k + m) (by omega) (by omega) r c
      (by omega) (by omega)]
    by_cases h : r = k
    · subst h
      rw [if_pos rfl, if_pos (by omega), hcell _ c (by omega) hc, if_neg (by omega)]
    · rw [if_neg h, hcell r c hr hc]
      by_cases h' : r < k
      · rw [if_pos h', if_pos (by omega)]
      · rw [if_neg h', if_neg (by omega)]

theorem copy_fold_down (f : term σ φ → Nat → term σ φ) (m : Nat)
    (hf : ∀ t row, f t row =
      { t with
        buffer := memcpy16 t.buffer (t.term_cols * physical_row t (row + m) % 4294967296)
          (t.term_cols * physical_row t row % 4294967296) t.term_cols })
    (t : term σ φ) (hg : ring_ok t) (n : Nat) (hn : n + m ≤ t.term_rows) (k : Nat) (hk : k ≤ n) :
    same_frame t ((List.range' (n - k) k).reverse.foldl f t) ∧
      ∀ r c, r < t.term_rows → c < t.term_cols →
        cell ((List.range' (n - k) k).reverse.foldl f t) r c =
          if n - k + m ≤ r ∧ r < n + m then cell t (r - m) c else cell t r c := by
  induction k with
  | zero => exact ⟨rfl, fun r c _ _ => by rw [if_neg (by omega)]; rfl⟩
  | succ k ih =>
    obtain ⟨hfr, hcell⟩ := ih (by omega)
    have hl : List.range' (n - (k + 1)) (k + 1) = (n - (k + 1)) :: List.range' (n - k) k := by
      rw [List.range'_succ, show n - (k + 1) + 1 = n - k by omega]
    rw [hl, List.reverse_cons, List.foldl_append, List.foldl_cons, List.foldl_nil]
    generalize (List.range' (n - k) k).reverse.foldl f t = u at hfr hcell
    obtain ⟨_, _, hrows, hcols⟩ := same_frame_cursor hfr
    have hstep : same_frame u (f u (n - (k + 1))) := by rw [hf]; rfl
    refine ⟨same_frame_trans hfr hstep, ?_⟩
    intro r c hr hc
    rw [hf, copy_row_cell u (same_frame_ring_ok hfr hg) (n - (k + 1) + m) (n - (k + 1))
      (by omega) (by omega) r c (by omega) (by omega)]
    by_cases h : r = n - (k + 1) + m
    · rw [if_pos h, if_pos (by omega), hcell _ c (by omega) hc, if_neg (by omega), h,
        Nat.add_sub_cancel]
    · rw [if_neg h, hcell r c hr hc]
      by_cases h' : n - k + m ≤ r ∧ r < n + m
      · rw [if_pos h', if_pos (by omega)]
      · rw [if_neg h', if_neg (by omega)]

theorem buf_clear_rows_spec (enc : cell_encoding) (t : term σ φ) (first count : Nat) :
    same_frame t
        ((List.range' first count).foldl
          (fun t row => ts_buf_clear_row enc t row enc.default_color) t) ∧
      (∀ i, (∃ row, first ≤ row ∧ row < first + count ∧
          t.term_cols * physical_row t row % 4294967296 ≤ i ∧
          i < t.term_cols * physical_row t row % 4294967296 + t.term_cols) →
        ((List.range' first count).foldl
          (fun t row => ts_buf_clear_row enc t row enc.default_color) t).buffer i = enc.blank) ∧
      (∀ i, (¬ ∃ row, first ≤ row ∧ row < first + count ∧
          t.term_cols * physical_row t row % 4294967296 ≤ i ∧
          i < t.term_cols * physical_row t row % 4294967296 + t.term_cols) →
        ((List.range' first count).foldl
          (fun t row => ts_buf_clear_row enc t row enc.default_color) t).buffer i = t.buffer i) := by
  have h := foldl_frame_buffer
    (fun (t : term σ φ) row => ts_buf_clear_row enc t row enc.default_color)
    (fun t row i => t.term_cols * physical_row t row % 4294967296 ≤ i ∧
          i < t.term_cols * physical_row t row % 4294967296 + t.term_cols) enc.blank
    (fun t a => rfl)
    (fun t a i hi => by
      simp only [ts_buf_clear_row, memset16, physical_row] at hi ⊢
      rw [if_pos hi]; rfl)
    (fun t a i hi => by
      simp only [ts_buf_clear_row, memset16, physical_row] at hi ⊢
      rw [if_neg hi])
    (fun t t' a i hf => by
      simp only
      rw [same_frame_physical_row hf]
      have : t'.term_cols = t.term_cols := by unfold same_frame at hf; rw [hf]
      rw [this])
    (List.range' first count) t
  refine ⟨h.1, fun i hi => h.2.1 i ?_, fun i hi => h.2.2 i ?_⟩
  · obtain ⟨row, h1, h2, h3⟩ := hi
    exact ⟨row, by rw [List.mem_range'_1]; omega, h3⟩
  · rintro ⟨row, hm, h3⟩
    rw [List.mem_range'_1] at hm
    exact hi ⟨row, hm.1, by omega, h3⟩

theorem buf_clear_rows_cell (enc : cell_encoding) (t : term σ φ) (hg : ring_ok t)
    (first count : Nat) (hfc : first + count ≤ t.term_rows) (r c : Nat) (hr : r < t.term_rows)
    (hc : c < t.term_cols) :
    cell ((List.range' first count).foldl
        (fun t row => ts_buf_clear_row enc t row enc.default_color) t) r c =
      if first ≤ r ∧ r < first + count then enc.blank else cell t r c := by
  obtain ⟨hfr, hin, hout⟩ := buf_clear_rows_spec enc t first count
  rw [cell_eq, same_frame_buffer_index hfr, cell_eq]
  by_cases h : first ≤ r ∧ r < first + count
  · rw [if_pos h]
    exact hin _ ⟨r, h.1, h.2, row_covers t hg r c hr hc⟩
  · rw [if_neg h]
    refine hout _ ?_
    rintro ⟨row, h1, h2, h3⟩
    exact row_disjoint t hg r row c hr (by omega) hc (by omega) h3

theorem non_buf_scroll_up_eq (enc : cell_encoding) (t : term σ φ) (n m : Nat)
    (hm : m = min n t.term_rows) (f : term σ φ → Nat → term σ φ)
    (hf : f = fun t row =>
      { t with
        buffer := memcpy16 t.buffer
          (t.term_cols * ((t.scroll + row) % 4294967296 % t.total_buffer_rows) % 4294967296)
          (t.term_cols * ((t.scroll + row + m) % 4294967296 % t.total_buffer_rows) % 4294967296)
          t.term_cols }) :
    term_action_non_buf_scroll_up enc t n =
      term_redraw
        ((List.range' (((List.range (t.term_rows - m)).foldl f t).term_rows - m) m).foldl
          (fun t row => ts_buf_clear_row enc t row enc.default_color)
          ((List.range (t.term_rows - m)).foldl f t)) := by
  subst hf hm
  rfl

theorem non_buf_scroll_down_eq (enc : cell_encoding) (t : term σ φ) (n m : Nat)
    (hm : m = min n t.term_rows) (f : term σ φ → Nat → term σ φ)
    (hf : f = fun t row =>
      { t with
        buffer := memcpy16 t.buffer
          (t.term_cols * ((t.scroll + row + m) % 4294967296 % t.total_buffer_rows) % 4294967296)
          (t.term_cols * ((t.scroll + row) % 4294967296 % t.total_buffer_rows) % 4294967296)
          t.term_cols }) :
    term_action_non_buf_scroll_down enc t n =
      term_redraw
        ((List.range m).foldl
          (fun t row => ts_buf_clear_row enc t row enc.default_color)
          ((List.range (t.term_rows - m)).reverse.foldl f t)) := by
  subst hf hm
  rfl

theorem copy_step_physical (t : term σ φ) (row m : Nat) :
    (t.scroll + row) % 4294967296 % t.total_buffer_rows = physical_row t row ∧
      (t.scroll + row + m) % 4294967296 % t.total_buffer_rows = physical_row t (row + m) := by
  unfold physical_row
  rw [Nat.add_comm t.scroll row, show row + t.scroll + m = row + m + t.scroll by omega]
  exact ⟨rfl, rfl⟩

theorem term_redraw_frame (t : term σ φ) : same_frame t (term_redraw t) := by
  unfold same_frame
  rw [term_redraw_eq]

theorem term_redraw_cell (t : term σ φ) (r c : Nat) : cell (term_redraw t) r c = cell t r c := by
  rw [term_redraw_eq]
  rfl

theorem non_buf_scroll_up_spec (enc : cell_encoding) (t : term σ φ) (n m : Nat)
    (hm : m = min n t.term_rows) (hg : ring_ok t) :
    same_frame t (term_action_non_buf_scroll_up enc t n) ∧
      ∀ r c, r < t.term_rows → c < t.term_cols →
        cell (term_action_non_buf_scroll_up enc t n) r c =
          if r < t.term_rows - m then cell t (r + m) c else enc.blank := by
  have hle : m ≤ t.term_rows := by rw [hm]; exact Nat.min_le_right _ _
  obtain ⟨f, hf⟩ : ∃ f : term σ φ → Nat → term σ φ, f = fun t row =>
      { t with
        buffer := memcpy16 t.buffer
          (t.term_cols * ((t.scroll + row) % 4294967296 % t.total_buffer_rows) % 4294967296)
          (t.term_cols * ((t.scroll + row + m) % 4294967296 % t.total_buffer_rows) % 4294967296)
          t.term_cols } := ⟨_, rfl⟩
  have heq := non_buf_scroll_up_eq enc t n m hm f hf
  have hfp : ∀ u row, f u row =
      { u with
        buffer := memcpy16 u.buffer (u.term_cols * physical_row u row % 4294967296)
          (u.term_cols * physical_row u (row + m) % 4294967296) u.term_cols } := by
    intro u row
    rw [hf]
    simp only
    rw [(copy_step_physical u row m).1, (copy_step_physical u row m).2]
  obtain ⟨hfr1, hcell1⟩ := copy_fold_up f m hfp t hg (t.term_rows - m) (by omega)
  generalize (List.range (t.term_rows - m)).foldl f t = U at heq hfr1 hcell1
  obtain ⟨_, _, hUrows, hUcols⟩ := same_frame_cursor hfr1
  rw [hUrows] at heq
  have hg1 := same_frame_ring_ok hfr1 hg
  have hfr2 := (buf_clear_rows_spec enc U (t.term_rows - m) m).1
  have hcell2 := fun r c hr hc =>
    buf_clear_rows_cell enc U hg1 (t.term_rows - m) m (by omega) r c hr hc
  generalize (List.range' (t.term_rows - m) m).foldl
    (fun t row => ts_buf_clear_row enc t row enc.default_color) U = V at heq hfr2 hcell2
  rw [heq]
  refine ⟨same_frame_trans (same_frame_trans hfr1 hfr2) (term_redraw_frame V), ?_⟩
  intro r c hr hc
  rw [term_redraw_cell, hcell2 r c (by omega) (by omega), hcell1 r c hr hc]
  by_cases h : r < t.term_rows - m
  · rw [if_neg (by omega), if_pos h, if_pos h]
  · rw [if_pos (by omega), if_neg h]

theorem non_buf_scroll_down_spec (enc : cell_encoding) (t : term σ φ) (n m : Nat)
    (hm : m = min n t.term_rows) (hg : ring_ok t) :
    same_frame t (term_action_non_buf_scroll_down enc t n) ∧
      ∀ r c, r < t.term_rows → c < t.term_cols →
        cell (term_action_non_buf_scroll_down enc t n) r c =
          if m ≤ r then cell t (r - m) c else enc.blank := by
  have hle : m ≤ t.term_rows := by rw [hm]; exact Nat.min_le_right _ _
  obtain ⟨f, hf⟩ : ∃ f : term σ φ → Nat → term σ φ, f = fun t row =>
      { t with
        buffer := memcpy16 t.buffer
          (t.term_cols * ((t.scroll + row + m) % 4294967296 % t.total_buffer_rows) % 4294967296)
          (t.term_cols * ((t.scroll + row) % 4294967296 % t.total_buffer_rows) % 4294967296)
          t.term_cols } := ⟨_, rfl⟩
  have heq := non_buf_scroll_down_eq enc t n m hm f hf
  have hfp : ∀ u row, f u row =
      { u with
        buffer := memcpy16 u.buffer (u.term_cols * physical_row u (row + m) % 4294967296)
          (u.term_cols * physical_row u row % 4294967296) u.term_cols } := by
    intro u row
    rw [hf]
    simp only
    rw [(copy_step_physical u row m).1, (copy_step_physical u row m).2]
  obtain ⟨hfr1, hcell1⟩ := copy_fold_down f m hfp t hg (t.term_rows - m) (by omega)
    (t.term_rows - m) (le_refl _)
  rw [Nat.sub_self, ← List.range_eq_range'] at hfr1 hcell1
  generalize (List.range (t.term_rows - m)).reverse.foldl f t = U at heq hfr1 hcell1
  obtain ⟨_, _, hUrows, hUcols⟩ := same_frame_cursor hfr1
  have hg1 := same_frame_ring_ok hfr1 hg
  rw [List.range_eq_range'] at heq
  have hfr2 := (buf_clear_rows_spec enc U 0 m).1
  have hcell2 := fun r c hr hc => buf_clear_rows_cell enc U hg1 0 m (by omega) r c hr hc
  generalize (List.range' 0 m).foldl
    (fun t row => ts_buf_clear_row enc t row enc.default_color) U = V at heq hfr2 hcell2
  rw [heq]
  refine ⟨same_frame_trans (same_frame_trans hfr1 hfr2) (term_redraw_frame V), ?_⟩
  intro r c hr hc
  rw [term_redraw_cell, hcell2 r c (by omega) (by omega), hcell1 r c hr hc]
  by_cases h : m ≤ r
  · rw [if_neg (by omega), if_pos (by omega), if_pos h]
  · rw [if_pos (by omega), if_neg h]

/-- C18, as the code has it: non-buffered scroll up on a ring that does not
wrap (`rows <= total_buffer_rows`, `total_buffer_rows * cols <= 2^32` and
`scroll + rows <= 2^32`). For every `n`
(the code asserts `n >= 1`), with `m = min(n, rows)`, after `term_action_non_buf_scroll_up(n)`
each visible row `r < rows - m` holds the previous contents of row `r + m`,
each row `r` with `rows - m <= r < rows` holds default-colored spaces, and
`scroll`, `max_scroll` and the cursor are unchanged. -/
theorem non_buf_scroll_up_shifts (enc : cell_encoding) (t : term σ φ) (n r c : Nat)
    (hg : ring_ok t) (hr : r < t.term_rows) (hc : c < t.term_cols) :
    cell (term_action_non_buf_scroll_up enc t n) r c =
        (if r < t.term_rows - min n t.term_rows then cell t (r + min n t.term_rows) c
          else enc.blank) ∧
      (term_action_non_buf_scroll_up enc t n).scroll = t.scroll ∧
      (term_action_non_buf_scroll_up enc t n).max_scroll = t.max_scroll ∧
      (term_action_non_buf_scroll_up enc t n).current_row = t.current_row ∧
      (term_action_non_buf_scroll_up enc t n).current_col = t.current_col := by
  obtain ⟨hf, hcell⟩ := non_buf_scroll_up_spec enc t n _ rfl hg
  refine ⟨hcell r c hr hc, ?_, ?_, ?_, ?_⟩ <;>
  · unfold same_frame at hf
    rw [hf]

/-- C19, as the code has it: non-buffered scroll down on a ring that does not
wrap (`rows <= total_buffer_rows`, `total_buffer_rows * cols <= 2^32` and
`scroll + rows <= 2^32`). For every `n`
(the code asserts `n >= 1`), with `m = min(n, rows)`, after `term_action_non_buf_scroll_down(n)`
each visible row `r` with `m <= r < rows` holds the previous contents of row
`r - m`, each row `r < m` holds default-colored spaces, and `scroll`,
`max_scroll` and the cursor are unchanged; this includes `n >= rows`, where no
row is copied and every visible row is cleared. -/
theorem non_buf_scroll_down_shifts (enc : cell_encoding) (t : term σ φ) (n r c : Nat)
    (hg : ring_ok t) (hr : r < t.term_rows) (hc : c < t.term_cols) :
    cell (term_action_non_buf_scroll_down enc t n) r c =
        (if min n t.term_rows ≤ r then cell t (r - min n t.term_rows) c else enc.blank) ∧
      (t.term_rows ≤ n → cell (term_action_non_buf_scroll_down enc t n) r c = enc.blank) ∧
      (term_action_non_buf_scroll_down enc t n).scroll = t.scroll ∧
      (term_action_non_buf_scroll_down enc t n).max_scroll = t.max_scroll ∧
      (term_action_non_buf_scroll_down enc t n).current_row = t.current_row ∧
      (term_action_non_buf_scroll_down enc t n).current_col = t.current_col := by
  obtain ⟨hf, hcell⟩ := non_buf_scroll_down_spec enc t n _ rfl hg
  refine ⟨hcell r c hr hc, ?_, ?_, ?_, ?_, ?_⟩
  · intro hge
    rw [hcell r c hr hc, if_neg]
    rw [Nat.min_eq_right hge]
    omega
  all_goals
    unfold same_frame at hf
    rw [hf]

/-- Witness of C18 as the code has it: the populated small terminal (3 rows of 4 columns holding
`a` .. `l`) scrolled up by one row, observed at the cell `(0, 1)`, which
receives the `f` of row 1. -/
theorem non_buf_scroll_up_shifts_witness :
    ring_ok populated_term ∧ 0 < populated_term.term_rows ∧ 1 < populated_term.term_cols ∧
      cell populated_term 0 1 = vga_encoding.make_vgaentry 98 7 ∧
      cell populated_term 1 1 = vga_encoding.make_vgaentry 102 7 ∧
      populated_term.term_rows = 3 ∧
      (cell (term_action_non_buf_scroll_up vga_encoding populated_term 1) 0 1 =
          (if 0 < populated_term.term_rows - min 1 populated_term.term_rows
            then cell populated_term (0 + min 1 populated_term.term_rows) 1
            else vga_encoding.blank) ∧
        (term_action_non_buf_scroll_up vga_encoding populated_term 1).scroll
          = populated_term.scroll ∧
        (term_action_non_buf_scroll_up vga_encoding populated_term 1).max_scroll
          = populated_term.max_scroll ∧
        (term_action_non_buf_scroll_up vga_encoding populated_term 1).current_row
          = populated_term.current_row ∧
        (term_action_non_buf_scroll_up vga_encoding populated_term 1).current_col
          = populated_term.current_col) :=
  ⟨by decide, by decide, by decide, by decide, by decide, by decide,
    non_buf_scroll_up_shifts vga_encoding populated_term 1 0 1 (by decide) (by decide)
      (by decide)⟩

/-- Witness of C19 as the code has it: the populated small terminal (3 rows of 4 columns holding
`a` .. `l`) scrolled down by one row, observed at the cell `(1, 1)`, which
receives the `b` of row 0; scrolled down by `n = rows = 3`, the cell is
cleared. -/
theorem non_buf_scroll_down_shifts_witness :
    ring_ok populated_term ∧ 1 < populated_term.term_rows ∧ 1 < populated_term.term_cols ∧
      cell populated_term 0 1 = vga_encoding.make_vgaentry 98 7 ∧
      cell populated_term 1 1 = vga_encoding.make_vgaentry 102 7 ∧
      populated_term.term_rows = 3 ∧
      cell (term_action_non_buf_scroll_down vga_encoding populated_term 1) 1 1 =
        (if min 1 populated_term.term_rows ≤ 1
          then cell populated_term (1 - min 1 populated_term.term_rows) 1
          else vga_encoding.blank) ∧
      cell (term_action_non_buf_scroll_down vga_encoding populated_term 3) 1 1
        = vga_encoding.blank ∧
      ((term_action_non_buf_scroll_down vga_encoding populated_term 1).scroll
          = populated_term.scroll ∧
        (term_action_non_buf_scroll_down vga_encoding populated_term 1).max_scroll
          = populated_term.max_scroll ∧
        (term_action_non_buf_scroll_down vga_encoding populated_term 1).current_row
          = populated_term.current_row ∧
        (term_action_non_buf_scroll_down vga_encoding populated_term 1).current_col
          = populated_term.current_col) :=
  ⟨by decide, by decide, by decide, by decide, by decide, by decide,
    (non_buf_scroll_down_shifts vga_encoding populated_term 1 1 1 (by decide) (by decide)
      (by decide)).1,
    (non_buf_scroll_down_shifts vga_encoding populated_term 3 1 1 (by decide) (by decide)
      (by decide)).2.1 (by decide),
    (non_buf_scroll_down_shifts vga_encoding populated_term 1 1 1 (by decide) (by decide)
      (by decide)).2.2⟩

/-! ## C21: the filter protocol -/

theorem incr_row_filter_ctx (enc : cell_encoding) (t : term σ φ) (color : Nat) :
    (term_internal_incr_row enc t color).filter_ctx = t.filter_ctx := by
  unfold term_internal_incr_row
  simp only
  split_ifs
  · rfl
  · cases hv : t.vi.scroll_one_line_up with
    | some f => rfl
    | none =>
      simp only [ts_clear_row, ts_buf_clear_row, vi_call]
      rw [ts_set_scroll_eq]

theorem write_tab_filter_ctx (enc : cell_encoding) (t : term σ φ) (color : Nat) :
    (term_internal_write_tab enc t color).filter_ctx = t.filter_ctx := by
  unfold term_internal_write_tab
  split
  · simp only
    split_ifs <;> rfl
  · rfl

theorem write_char2_filter_ctx (enc : cell_encoding) (t : term σ φ) (c color : Nat) :
    (term_internal_write_char2 enc t c color).filter_ctx = t.filter_ctx := by
  unfold term_internal_write_char2
  split_ifs
  · rfl
  · exact incr_row_filter_ctx _ _ _
  · rfl
  · exact write_tab_filter_ctx _ _ _
  · exact incr_row_filter_ctx enc { t with current_col := 0 } color
  · rfl

theorem filter_calls_bytes (f : term_filter_func φ) (buf : List Nat) (color : Nat) (ctx : φ) :
    (filter_calls f buf color ctx).map Prod.fst = buf := by
  induction buf generalizing color ctx with
  | nil => rfl
  | cons c rest ih =>
    unfold filter_calls
    rw [List.map_cons, ih]

theorem write_loop_filtered (enc : cell_encoding) (exec : term_action → term σ φ → term σ φ)
    (f : term_filter_func φ) (hna : ∀ c color ctx, (f c color ctx).action = term_action.a_none)
    (buf : List Nat) (color : Nat) (t : term σ φ) (hfl : t.filter = some f) :
    term_action_write_loop enc exec buf color t
      = write_accepted enc (filter_calls f buf color t.filter_ctx) t := by
  induction buf generalizing color t with
  | nil => rfl
  | cons c rest ih =>
    rw [write_loop_cons_some enc exec c rest color t f hfl (hna _ _ _)]
    unfold filter_calls write_accepted
    rw [List.foldl_cons]
    by_cases hacc : (f c color t.filter_ctx).accept = true
    · rw [if_pos hacc]
      have h := ih (f c color t.filter_ctx).color
        (term_internal_write_char2 enc { t with filter_ctx := (f c color t.filter_ctx).ctx } c
          (f c color t.filter_ctx).color)
        ((write_char2_filter enc _ c _).trans hfl)
      rw [h, write_char2_filter_ctx]
      rfl
    · rw [if_neg hacc]
      have h := ih (f c color t.filter_ctx).color
        { t with filter_ctx := (f c color t.filter_ctx).ctx } hfl
      rw [h]
      rfl

theorem write_rejected (enc : cell_encoding) (calls : List (Nat × filter_result φ))
    (hrej : ∀ call ∈ calls, call.2.accept = false) (t : term σ φ) :
    write_accepted enc calls t
      = { t with filter_ctx := (write_accepted enc calls t).filter_ctx } := by
  induction calls generalizing t with
  | nil => rfl
  | cons call rest ih =>
    have h0 : ¬ (call.2.accept = true) := by
      rw [hrej call (List.mem_cons_self _ _)]; decide
    unfold write_accepted
    rw [List.foldl_cons, if_neg h0]
    have := ih (fun x hx => hrej x (List.mem_cons_of_mem _ hx)) { t with filter_ctx := call.2.ctx }
    unfold write_accepted at this
    rw [this]

theorem ts_scroll_to_bottom_eq (t : term σ φ) :
    ts_scroll_to_bottom t =
      { t with
        scroll := (ts_scroll_to_bottom t).scroll
        screen := (ts_scroll_to_bottom t).screen } := by
  unfold ts_scroll_to_bottom
  split_ifs
  · rw [ts_set_scroll_eq]
  · rfl

/-- C21 (filter protocol): with a filter `f` bound that never emits an action,
the write-text action of `buf` is the run of the protocol: `f` is called once
for each byte of `buf`, in input order, each call on the color and the context
the call before it left; the state after the action is the one obtained by
storing, for each call in order, the context it left and writing the byte, with
the color that call left, exactly if the call accepted it, between the
scroll-to-bottom and cursor-enable that start the action and the cursor update
that ends it. If every call rejects its byte, the buffer and the logical cursor
are as they were before the action. -/
theorem filter_protocol (enc : cell_encoding) (exec : term_action → term σ φ → term σ φ)
    (t : term σ φ) (f : term_filter_func φ) (buf : List Nat) (color : Nat)
    (hfl : t.filter = some f)
    (hna : ∀ c color ctx, (f c color ctx).action = term_action.a_none) :
    (filter_calls f buf color t.filter_ctx).length = buf.length ∧
      (filter_calls f buf color t.filter_ctx).map Prod.fst = buf ∧
      term_action_write enc exec t buf color
        = vi_call_opt
            (vi_move_cursor_at_current enc
              (write_accepted enc (filter_calls f buf color t.filter_ctx)
                (vi_call (ts_scroll_to_bottom t) (fun v => v.enable_cursor))))
            (fun v => v.flush_buffers) ∧
      ((∀ call ∈ filter_calls f buf color t.filter_ctx, call.2.accept = false) →
        (term_action_write enc exec t buf color).buffer = t.buffer ∧
        (term_action_write enc exec t buf color).current_row = t.current_row ∧
        (term_action_write enc exec t buf color).current_col = t.current_col) := by
  have hb := filter_calls_bytes f buf color t.filter_ctx
  have hlen : (filter_calls f buf color t.filter_ctx).length = buf.length := by
    rw [← List.length_map, hb]
  have hfl0 : (vi_call (ts_scroll_to_bottom t) (fun v => v.enable_cursor)).filter = some f :=
    (ts_scroll_to_bottom_filter t).trans hfl
  have hctx0 : (vi_call (ts_scroll_to_bottom t) (fun v => v.enable_cursor)).filter_ctx
      = t.filter_ctx := by
    rw [ts_scroll_to_bottom_eq]
    rfl
  have heq : term_action_write enc exec t buf color
      = vi_call_opt
          (vi_move_cursor_at_current enc
            (write_accepted enc (filter_calls f buf color t.filter_ctx)
              (vi_call (ts_scroll_to_bottom t) (fun v => v.enable_cursor))))
          (fun v => v.flush_buffers) := by
    unfold term_action_write
    simp only
    rw [write_loop_filtered enc exec f hna buf color _ hfl0, hctx0]
  refine ⟨hlen, hb, heq, ?_⟩
  intro hrej
  rw [heq, vi_call_opt_eq,
    write_rejected enc _ hrej (vi_call (ts_scroll_to_bottom t) (fun v => v.enable_cursor)),
    ts_scroll_to_bottom_eq]
  exact ⟨rfl, rfl, rfl⟩

/-- Witness of C21: on the small terminal with the filter `reject_x_log`
bound, the write-text action of `a`, `X`, `b` calls the filter on the three
bytes in order (its context ends as the list of the three bytes) and writes
`a` and `b` into the cells `(0, 0)` and `(0, 1)`; the write-text action of
`X`, `X` leaves the buffer and the cursor as they were. -/
theorem filter_protocol_witness :
    logging_term.filter.isSome = true ∧
      (reject_x_log 88 7 []).accept = false ∧
      (term_action_write vga_encoding (term_execute_action vga_encoding 0) logging_term
        [97, 88, 98] 7).filter_ctx = [97, 88, 98] ∧
      cell (term_action_write vga_encoding (term_execute_action vga_encoding 0) logging_term
        [97, 88, 98] 7) 0 0 = vga_encoding.make_vgaentry 97 7 ∧
      cell (term_action_write vga_encoding (term_execute_action vga_encoding 0) logging_term
        [97, 88, 98] 7) 0 1 = vga_encoding.make_vgaentry 98 7 ∧
      (term_action_write vga_encoding (term_execute_action vga_encoding 0) logging_term
        [97, 88, 98] 7).current_col = 2 ∧
      (filter_calls reject_x_log [97, 88, 98] 7 logging_term.filter_ctx).length
        = [97, 88, 98].length ∧
      (filter_calls reject_x_log [97, 88, 98] 7 logging_term.filter_ctx).map Prod.fst
        = [97, 88, 98] ∧
      term_action_write vga_encoding (term_execute_action vga_encoding 0) logging_term
          [97, 88, 98] 7
        = vi_call_opt
            (vi_move_cursor_at_current vga_encoding
              (write_accepted vga_encoding
                (filter_calls reject_x_log [97, 88, 98] 7 logging_term.filter_ctx)
                (vi_call (ts_scroll_to_bottom logging_term) (fun v => v.enable_cursor))))
            (fun v => v.flush_buffers) ∧
      ((term_action_write vga_encoding (term_execute_action vga_encoding 0) logging_term
          [88, 88] 7).buffer = logging_term.buffer ∧
        (term_action_write vga_encoding (term_execute_action vga_encoding 0) logging_term
          [88, 88] 7).current_row = logging_term.current_row ∧
        (term_action_write vga_encoding (term_execute_action vga_encoding 0) logging_term
          [88, 88] 7).current_col = logging_term.current_col) :=
  ⟨by decide, by decide, by decide, by decide, by decide, by decide,
    (filter_protocol vga_encoding (term_execute_action vga_encoding 0) logging_term reject_x_log
      [97, 88, 98] 7 rfl (fun _ _ _ => rfl)).1,
    (filter_protocol vga_encoding (term_execute_action vga_encoding 0) logging_term reject_x_log
      [97, 88, 98] 7 rfl (fun _ _ _ => rfl)).2.1,
    (filter_protocol vga_encoding (term_execute_action vga_encoding 0) logging_term reject_x_log
      [97, 88, 98] 7 rfl (fun _ _ _ => rfl)).2.2.1,
    (filter_protocol vga_encoding (term_execute_action vga_encoding 0) logging_term reject_x_log
      [88, 88] 7 rfl (fun _ _ _ => rfl)).2.2.2 (by decide)⟩

/-! ## C22: auto-wrap -/

theorem incr_row_at_last_row_eq (enc : cell_encoding) (t : term σ φ) (color : Nat)
    (hrow : t.current_row + 1 = t.term_rows) (hb : t.scroll = t.max_scroll)
    (hs : t.scroll + 1 < 4294967296) (hrows : t.term_rows ≤ 4294967296) :
    term_internal_incr_row enc t color =
      { t with
        term_col_offset := 0
        max_scroll := t.max_scroll + 1
        scroll := t.scroll + 1
        buffer := memset16 t.buffer
          (t.term_cols * physical_row { t with scroll := t.scroll + 1 } (t.term_rows - 1)
            % 4294967296)
          (enc.make_vgaentry 32 color) t.term_cols
        screen := (term_internal_incr_row enc t color).screen } := by
  have h32 : to_u32 ((t.term_rows : Int) - 1) = t.term_rows - 1 := by
    unfold to_u32; omega
  have hm : (t.max_scroll + 1) % 4294967296 = t.scroll + 1 := by
    rw [← hb]; exact Nat.mod_eq_of_lt hs
  have hm' : (t.scroll + 1) % 4294967296 = t.scroll + 1 := Nat.mod_eq_of_lt hs
  have hlt : ¬ ((t.current_row : Int) < (t.term_rows : Int) - 1) := by omega
  cases hfast : t.vi.scroll_one_line_up with
  | some f =>
    unfold term_internal_incr_row
    simp only [hfast, if_neg hlt, h32, hm, hm']
    rw [← hb]
    rfl
  | none =>
    have hmin : min (max (t.scroll + 1)
        (if t.scroll + 1 > t.extra_buffer_rows then t.scroll + 1 - t.extra_buffer_rows else 0))
        (t.scroll + 1) = t.scroll + 1 := by
      split_ifs <;> omega
    unfold term_internal_incr_row
    simp only [hfast, if_neg hlt, hm]
    rw [ts_set_scroll_eq]
    simp only [h32, hmin]
    rw [← hb]
    rfl

/-- C23, as the code has it: `term_internal_incr_row` on the last visible
row. When `current_row = rows - 1`, the view is at the bottom
(`scroll = max_scroll`), `rows <= total_buffer_rows` (failsafe mode, where the
two are equal, included) and neither the index nor `scroll + 1 + rows` wraps on
`u32` (`total_buffer_rows * cols <= 2^32`, `scroll + 1 + rows <= 2^32`), the
call
increments `max_scroll` and `scroll` by one, with and without
`scroll_one_line_up` in the backend, leaves `current_row = rows - 1`, makes
every visible row `r < rows - 1` hold the previous contents of row `r + 1` and
fills the last row with spaces of the given color. -/
theorem incr_row_at_last_row (enc : cell_encoding) (t : term σ φ) (color r c : Nat)
    (hrow : t.current_row + 1 = t.term_rows) (hb : t.scroll = t.max_scroll)
    (hrt : t.term_rows ≤ t.total_buffer_rows)
    (htc : t.total_buffer_rows * t.term_cols ≤ 4294967296)
    (hs : t.scroll + 1 + t.term_rows ≤ 4294967296) (hr : r < t.term_rows)
    (hc : c < t.term_cols) :
    (term_internal_incr_row enc t color).max_scroll = t.max_scroll + 1 ∧
      (term_internal_incr_row enc t color).scroll = t.scroll + 1 ∧
      (term_internal_incr_row enc t color).current_row = t.current_row ∧
      cell (term_internal_incr_row enc t color) r c =
        (if r + 1 < t.term_rows then cell t (r + 1) c
          else enc.make_vgaentry 32 color % 65536) := by
  have heq := incr_row_at_last_row_eq enc t color hrow hb (by omega) (by omega)
  have hg : ring_ok { t with scroll := t.scroll + 1 } := ⟨hrt, htc, by simp only; omega⟩
  refine ⟨by rw [heq], by rw [heq], by rw [heq], ?_⟩
  rw [heq, cell_eq, cell_eq]
  show memset16 t.buffer _ _ _ (buffer_index { t with scroll := t.scroll + 1 } r c) = _
  unfold memset16
  by_cases h : r + 1 < t.term_rows
  · rw [if_pos h, if_neg (row_disjoint { t with scroll := t.scroll + 1 } hg r (t.term_rows - 1) c
      hr (by simp only; omega) hc (by omega))]
    have : buffer_index { t with scroll := t.scroll + 1 } r c = buffer_index t (r + 1) c := by
      unfold buffer_index
      simp only
      rw [show r + (t.scroll + 1) = r + 1 + t.scroll by omega]
    rw [this]
  · have hr1 : r = t.term_rows - 1 := by omega
    rw [if_neg h, hr1, if_pos (row_covers { t with scroll := t.scroll + 1 } hg _ c
      (by simp only; omega) hc)]

set_option maxRecDepth 1000000 in
/-- Witness of C23 as the code has it: the failsafe terminal (`total_buffer_rows = rows = 25`,
no fast scroll) with `A` at `(1, 5)` and the cursor on the last row; after the
call with color 31 the `A` is at `(0, 5)`. -/
theorem incr_row_at_last_row_witness :
    (failsafe_bottom_term.current_row + 1 = failsafe_bottom_term.term_rows ∧
        failsafe_bottom_term.scroll = failsafe_bottom_term.max_scroll ∧
        failsafe_bottom_term.term_rows ≤ failsafe_bottom_term.total_buffer_rows ∧
        failsafe_bottom_term.total_buffer_rows * failsafe_bottom_term.term_cols ≤ 4294967296 ∧
        failsafe_bottom_term.scroll + 1 + failsafe_bottom_term.term_rows ≤ 4294967296 ∧
        0 < failsafe_bottom_term.term_rows ∧ 5 < failsafe_bottom_term.term_cols) ∧
      failsafe_bottom_term.total_buffer_rows = failsafe_bottom_term.term_rows ∧
      cell failsafe_bottom_term 1 5 = vga_encoding.make_vgaentry 65 7 ∧
      cell (term_internal_incr_row vga_encoding failsafe_bottom_term 31) 0 5
        = vga_encoding.make_vgaentry 65 7 ∧
      ((term_internal_incr_row vga_encoding failsafe_bottom_term 31).max_scroll
          = failsafe_bottom_term.max_scroll + 1 ∧
        (term_internal_incr_row vga_encoding failsafe_bottom_term 31).scroll
          = failsafe_bottom_term.scroll + 1 ∧
        (term_internal_incr_row vga_encoding failsafe_bottom_term 31).current_row
          = failsafe_bottom_term.current_row ∧
        cell (term_internal_incr_row vga_encoding failsafe_bottom_term 31) 0 5 =
          (if 0 + 1 < failsafe_bottom_term.term_rows then cell failsafe_bottom_term (0 + 1) 5
            else vga_encoding.make_vgaentry 32 31 % 65536)) :=
  ⟨⟨by decide, by decide, by decide, by decide, by decide, by decide, by decide⟩, by decide,
    by decide, by decide,
    incr_row_at_last_row vga_encoding failsafe_bottom_term 31 0 5 (by decide) (by decide)
      (by decide) (by decide) (by decide) (by decide) (by decide)⟩

/-! ## C24, C25: tabs -/

theorem round_up_at_spec (n a : Nat) (ha : 0 < a) (h : n + a ≤ 4294967296) :
    a ∣ round_up_at n a ∧ n ≤ round_up_at n a ∧ round_up_at n a < n + a := by
  have h1 : (n + a - 1) % 4294967296 = n + a - 1 := Nat.mod_eq_of_lt (by omega)
  have h2 := Nat.div_add_mod (n + a - 1) a
  have h3 := Nat.mod_lt (n + a - 1) ha
  have h4 : (n + a - 1) / a * a = a * ((n + a - 1) / a) := Nat.mul_comm _ _
  have h5 : (n + a - 1) / a * a % 4294967296 = (n + a - 1) / a * a :=
    Nat.mod_eq_of_lt (by omega)
  unfold round_up_at
  rw [h1, h5]
  exact ⟨Dvd.intro_left _ rfl, by omega, by omega⟩

theorem write_tab_without_map (enc : cell_encoding) (t : term σ φ) (color : Nat)
    (htabs : t.term_tabs = none) :
    (t.current_col + 1 = t.term_cols → term_internal_write_tab enc t color = t) ∧
      (t.current_col + 1 ≠ t.term_cols →
        term_internal_write_tab enc t color
          = term_internal_write_printable_char enc t 32 color) := by
  unfold term_internal_write_tab
  simp only [htabs]
  constructor
  · intro h
    rw [if_neg (by omega)]
  · intro h
    rw [if_pos (by omega)]

set_option maxRecDepth 1000000 in
/-- C25, the code at the failing input. On the failsafe 25 x 80 terminal (no
tab map) with the cursor at the pending-wrap column `c = cols = 80` of row 0,
`rem = cols - c - 1` is `-1` and passes the test `if (rem)`:
`term_internal_write_tab` calls `buffer_set_entry(0, 80, ' ')`, a write to
column `80 = cols`, whose index 80 is that of the cell `(1, 0)`; that cell
changes from the default-colored space to the space of the given color 31,
and `current_col` becomes 81. At `c = cols - 1 = 79` the state is left as it
is. -/
theorem tab_at_pending_wrap_writes :
    pending_wrap_term.term_tabs.isNone = true ∧ pending_wrap_term.term_cols = 80 ∧
      pending_wrap_term.current_row = 0 ∧ pending_wrap_term.current_col = 80 ∧
      (term_internal_write_tab vga_encoding pending_wrap_term 31).current_col = 81 ∧
      (term_internal_write_tab vga_encoding pending_wrap_term 31).accesses.getLast?
        = some (0, 80) ∧
      buffer_index pending_wrap_term 0 80 = 80 ∧ buffer_index pending_wrap_term 1 0 = 80 ∧
      cell pending_wrap_term 1 0 = vga_encoding.blank ∧
      cell (term_internal_write_tab vga_encoding pending_wrap_term 31) 1 0
        = vga_encoding.make_vgaentry 32 31 ∧
      cell (term_internal_write_tab vga_encoding pending_wrap_term 31) 1 0
        ≠ cell pending_wrap_term 1 0 ∧
      (term_internal_write_tab vga_encoding { pending_wrap_term with current_col := 79 } 31).buffer
          (buffer_index pending_wrap_term 0 79)
        = pending_wrap_term.buffer (buffer_index pending_wrap_term 0 79) ∧
      (term_internal_write_tab vga_encoding { pending_wrap_term with current_col := 79 } 31).current_col
        = 79 := by
  refine ⟨by decide, by decide, by decide, by decide, by decide, by decide, by decide, by decide,
    by decide, by decide, by decide, by decide, by decide⟩

/-! ## C26: backspace -/

theorem backspace_tab_loop_bounds (n : Nat) (u : term σ φ) :
    (backspace_tab_loop u n).current_col ≤ u.current_col ∧
      u.current_col ≤ (backspace_tab_loop u n).current_col + (n - 1) ∧
      (u.term_col_offset ≤ u.current_col →
        u.term_col_offset ≤ (backspace_tab_loop u n).current_col) ∧
      (backspace_tab_loop u n).current_row = u.current_row := by
  induction n generalizing u with
  | zero => exact ⟨le_refl _, by simp [backspace_tab_loop], fun h => h, rfl⟩
  | succ n ih =>
    unfold backspace_tab_loop
    split_ifs with h1 h2 h3
    · exact ⟨le_refl _, by omega, fun h => h, rfl⟩
    · exact ⟨le_refl _, by omega, fun h => h, rfl⟩
    · obtain ⟨a, b, c, d⟩ := ih { u with current_col := u.current_col - 1 }
      simp only at a b c d
      exact ⟨by omega, by omega, fun h => c (by omega), d⟩
    · obtain ⟨a, b, c, d⟩ := ih u
      have hn : n = 0 := by simpa using h3
      subst hn
      exact ⟨a, by omega, c, d⟩

/-- C26: `term_internal_write_backspace` on a state with `term_tab_size >= 1`
(it is 8 from `init_term` on). It returns the state as it is when
`current_col = 0` or `current_col <= term_col_offset`. Otherwise it moves the
cursor left by at least 1 and at most `term_tab_size` columns, not below
`term_col_offset`, and leaves `current_row` as it is; and when the cell left
of the cursor is not a tab mark it moves exactly one column and the cell it
vacates holds a space of the given color afterwards. -/
theorem backspace_margin (enc : cell_encoding) (t : term σ φ) (color : Nat)
    (hts : 1 ≤ t.term_tab_size) :
    ((t.current_col = 0 ∨ t.current_col ≤ t.term_col_offset) →
        term_internal_write_backspace enc t color = t) ∧
      (¬ (t.current_col = 0 ∨ t.current_col ≤ t.term_col_offset) →
        (term_internal_write_backspace enc t color).current_col + 1 ≤ t.current_col ∧
        (t.current_col : Int)
          ≤ (term_internal_write_backspace enc t color).current_col + t.term_tab_size ∧
        t.term_col_offset ≤ (term_internal_write_backspace enc t color).current_col ∧
        (term_internal_write_backspace enc t color).current_row = t.current_row ∧
        (term_tabs_at t ((t.current_row : Int) * (t.term_cols : Int)
            + ((t.current_col - 1 : Nat) : Int)) = false →
          (term_internal_write_backspace enc t color).current_col = t.current_col - 1 ∧
          cell (term_internal_write_backspace enc t color) t.current_row (t.current_col - 1)
            = enc.make_vgaentry 32 color % 65536)) := by
  constructor
  · intro h
    unfold term_internal_write_backspace
    rw [if_pos h]
  · intro h
    have hmod : enc.make_vgaentry 32 color % 65536 % 65536 = enc.make_vgaentry 32 color % 65536 :=
      Nat.mod_mod _ _
    by_cases hm : term_tabs_at t ((t.current_row : Int) * (t.term_cols : Int)
        + ((t.current_col - 1 : Nat) : Int)) = false
    · have hdef : term_internal_write_backspace enc t color =
          vi_call (buffer_set_entry { t with current_col := t.current_col - 1 } t.current_row
            (t.current_col - 1) (enc.make_vgaentry 32 color % 65536))
            (fun v => v.set_char_at t.current_row (t.current_col - 1)
              (enc.make_vgaentry 32 color % 65536)) := by
        unfold term_internal_write_backspace
        rw [if_neg h]
        have hm' : term_tabs_at { t with current_col := t.current_col - 1 }
            ((t.current_row : Int) * (t.term_cols : Int) + ((t.current_col - 1 : Nat) : Int))
            = false := hm
        simp only [hm', Bool.not_false, if_true]
        rfl
      rw [hdef]
      refine ⟨?_, ?_, ?_, rfl, fun _ => ⟨rfl, ?_⟩⟩
      · show t.current_col - 1 + 1 ≤ t.current_col
        omega
      · show (t.current_col : Int) ≤ ((t.current_col - 1 : Nat) : Int) + t.term_tab_size
        omega
      · show t.term_col_offset ≤ t.current_col - 1
        omega
      · rw [cell_eq]
        show (if buffer_index t t.current_row (t.current_col - 1)
            = buffer_index t t.current_row (t.current_col - 1) then _ else _) = _
        rw [if_pos rfl, hmod]
    · have hm1 : term_tabs_at t ((t.current_row : Int) * (t.term_cols : Int)
          + ((t.current_col - 1 : Nat) : Int)) = true := by
        cases hx : term_tabs_at t ((t.current_row : Int) * (t.term_cols : Int)
          + ((t.current_col - 1 : Nat) : Int))
        · exact absurd hx hm
        · rfl
      have hdef : term_internal_write_backspace enc t color =
          backspace_tab_loop
            { t with
              current_col := t.current_col - 1
              term_tabs := t.term_tabs.map (fun tabs i =>
                if (i : Int) = (t.current_row : Int) * (t.term_cols : Int)
                  + ((t.current_col - 1 : Nat) : Int) then false else tabs i) }
            t.term_tab_size.toNat := by
        unfold term_internal_write_backspace
        rw [if_neg h]
        have hm' : term_tabs_at { t with current_col := t.current_col - 1 }
            ((t.current_row : Int) * (t.term_cols : Int) + ((t.current_col - 1 : Nat) : Int))
            = true := hm1
        simp only [hm', Bool.not_true, Bool.false_eq_true, if_false]
      rw [hdef]
      obtain ⟨a, b, c, d⟩ := backspace_tab_loop_bounds t.term_tab_size.toNat
        { t with
          current_col := t.current_col - 1
          term_tabs := t.term_tabs.map (fun tabs i =>
            if (i : Int) = (t.current_row : Int) * (t.term_cols : Int)
              + ((t.current_col - 1 : Nat) : Int) then false else tabs i) }
      simp only at a b c d
      generalize backspace_tab_loop
        { t with
          current_col := t.current_col - 1
          term_tabs := t.term_tabs.map (fun tabs i =>
            if (i : Int) = (t.current_row : Int) * (t.term_cols : Int)
              + ((t.current_col - 1 : Nat) : Int) then false else tabs i) }
        t.term_tab_size.toNat = L at a b c d ⊢
      clear hdef
      refine ⟨by omega, by omega, c (by omega), d, fun hx => absurd hx hm⟩

set_option maxRecDepth 1000000 in
/-- Witness of C26: on the populated small terminal (cursor at `(1, 2)`, no
tab mark) the backspace with color 31 moves to column 1 and leaves a space of
color 31 there; on the dirtied 25 x 80 terminal (cursor at `(24, 33)`, tab
mark at column 32) it moves the cursor 8 columns to the left, to column 25. -/
theorem backspace_margin_witness :
    1 ≤ populated_term.term_tab_size ∧
      ¬ (populated_term.current_col = 0 ∨
        populated_term.current_col ≤ populated_term.term_col_offset) ∧
      term_tabs_at populated_term ((populated_term.current_row : Int)
        * (populated_term.term_cols : Int) + ((populated_term.current_col - 1 : Nat) : Int))
        = false ∧
      populated_term.current_col = 2 ∧
      ((term_internal_write_backspace vga_encoding populated_term 31).current_col
          = populated_term.current_col - 1 ∧
        cell (term_internal_write_backspace vga_encoding populated_term 31)
          populated_term.current_row (populated_term.current_col - 1)
          = vga_encoding.make_vgaentry 32 31 % 65536) ∧
      1 ≤ dirty_term.term_tab_size ∧
      ¬ (dirty_term.current_col = 0 ∨ dirty_term.current_col ≤ dirty_term.term_col_offset) ∧
      dirty_term.current_col = 33 ∧
      (term_internal_write_backspace vga_encoding dirty_term 7).current_col = 25 ∧
      (term_internal_write_backspace vga_encoding dirty_term 7).current_col + 1
        ≤ dirty_term.current_col ∧
      (dirty_term.current_col : Int)
        ≤ (term_internal_write_backspace vga_encoding dirty_term 7).current_col
          + dirty_term.term_tab_size ∧
      dirty_term.term_col_offset
        ≤ (term_internal_write_backspace vga_encoding dirty_term 7).current_col ∧
      (term_internal_write_backspace vga_encoding dirty_term 7).current_row
        = dirty_term.current_row :=
  ⟨by decide, by decide, by decide, by decide,
    ((backspace_margin vga_encoding populated_term 31 (by decide)).2 (by decide)).2.2.2.2
      (by decide),
    by decide, by decide, by decide, by decide,
    ((backspace_margin vga_encoding dirty_term 7 (by decide)).2 (by decide)).1,
    ((backspace_margin vga_encoding dirty_term 7 (by decide)).2 (by decide)).2.1,
    ((backspace_margin vga_encoding dirty_term 7 (by decide)).2 (by decide)).2.2.1,
    ((backspace_margin vga_encoding dirty_term 7 (by decide)).2 (by decide)).2.2.2.1⟩

/-! ## C27, C28: kernel_sleep and the wake-up timer list -/

theorem armed_ticks_append (a b : List sleep_call) :
    armed_ticks (a ++ b) = armed_ticks a ++ armed_ticks b := by
  unfold armed_ticks
  exact List.filterMap_append _ _ _

theorem yield_count_append (a b : List sleep_call) :
    yield_count (a ++ b) = yield_count a + yield_count b := by
  unfold yield_count
  exact List.count_append _ _ _

theorem kernel_sleep_loop_spec (n i : Nat) (calls : List sleep_call) :
    (kernel_sleep_loop (fun _ => false) n i calls).2 = false ∧
      armed_ticks (kernel_sleep_loop (fun _ => false) n i calls).1
        = armed_ticks calls ++ List.replicate n 4294967295 ∧
      yield_count (kernel_sleep_loop (fun _ => false) n i calls).1 = yield_count calls + n := by
  induction n generalizing i calls with
  | zero => exact ⟨rfl, by simp [kernel_sleep_loop], rfl⟩
  | succ n ih =>
    unfold kernel_sleep_loop
    simp only [Bool.false_eq_true, if_false]
    obtain ⟨h1, h2, h3⟩ := ih (i + 1) (calls ++ [sleep_call.task_set_wakeup_timer 4294967295,
      sleep_call.task_change_state task_state.TASK_STATE_SLEEPING, sleep_call.kernel_yield])
    refine ⟨h1, ?_, ?_⟩
    · rw [h2, armed_ticks_append, List.replicate_succ, List.append_assoc]
      rfl
    · rw [h3, yield_count_append]
      have : yield_count [sleep_call.task_set_wakeup_timer 4294967295,
        sleep_call.task_change_state task_state.TASK_STATE_SLEEPING, sleep_call.kernel_yield]
          = 1 := by decide
      rw [this]
      omega

/-- C27: `kernel_sleep` splits a 64-bit tick count exactly. For every
`ticks < 2^64`, with `q = ticks >> 32` and `rem = ticks mod 2^32` and no
pending signal, the timers armed by `kernel_sleep(ticks)` are, in order, `q`
timers of `2^32 - 1` ticks, one of `q` ticks if `q > 0` and one of `rem` ticks
if `rem > 0`; the armed values sum to `ticks`, each is a non-zero `u32` value
(the `ASSERT(ticks > 0)` of `task_set_wakeup_timer` holds at each call), and
`kernel_yield` is called `q + 1` times, and once more if both `q` and `rem`
are non-zero: at least once, also for `ticks = 0`. -/
theorem kernel_sleep_splits (ticks : Nat) (h : ticks < 18446744073709551616) :
    armed_ticks (kernel_sleep ticks (fun _ => false))
        = List.replicate (ticks / 4294967296) 4294967295
          ++ (if 0 < ticks / 4294967296 then [ticks / 4294967296] else [])
          ++ (if 0 < ticks % 4294967296 then [ticks % 4294967296] else []) ∧
      (armed_ticks (kernel_sleep ticks (fun _ => false))).sum = ticks ∧
      (∀ a ∈ armed_ticks (kernel_sleep ticks (fun _ => false)), 0 < a ∧ a < 4294967296) ∧
      yield_count (kernel_sleep ticks (fun _ => false))
        = ticks / 4294967296
          + (if 0 < ticks / 4294967296 ∧ 0 < ticks % 4294967296 then 1 else 0) + 1 ∧
      1 ≤ yield_count (kernel_sleep ticks (fun _ => false)) := by
  have hq : ticks / 4294967296 % 4294967296 = ticks / 4294967296 :=
    Nat.mod_eq_of_lt (by omega)
  have ht : ticks % 18446744073709551616 = ticks := Nat.mod_eq_of_lt h
  obtain ⟨l1, l2, l3⟩ := kernel_sleep_loop_spec (ticks / 4294967296) 0 []
  have harm : armed_ticks (kernel_sleep ticks (fun _ => false))
      = List.replicate (ticks / 4294967296) 4294967295
        ++ (if 0 < ticks / 4294967296 then [ticks / 4294967296] else [])
        ++ (if 0 < ticks % 4294967296 then [ticks % 4294967296] else []) ∧
      yield_count (kernel_sleep ticks (fun _ => false))
        = ticks / 4294967296
          + (if 0 < ticks / 4294967296 ∧ 0 < ticks % 4294967296 then 1 else 0) + 1 := by
    unfold kernel_sleep
    simp only [ht, hq, l1, Bool.false_eq_true, if_false]
    generalize (kernel_sleep_loop (fun _ => false) (ticks / 4294967296) 0 []).1 = L at l2 l3
    have l2' : armed_ticks L = List.replicate (ticks / 4294967296) 4294967295 := by
      rw [l2]; rfl
    have l3' : yield_count L = ticks / 4294967296 := by
      rw [l3]; show 0 + _ = _; omega
    have hA1 : ∀ n, armed_ticks [sleep_call.task_set_wakeup_timer n,
        sleep_call.task_change_state task_state.TASK_STATE_SLEEPING] = [n] := fun _ => rfl
    have hA2 : armed_ticks [sleep_call.kernel_yield] = [] := rfl
    have hY1 : ∀ n, yield_count [sleep_call.task_set_wakeup_timer n,
        sleep_call.task_change_state task_state.TASK_STATE_SLEEPING] = 0 := fun _ => rfl
    have hY2 : yield_count [sleep_call.kernel_yield] = 1 := rfl
    by_cases h1 : ticks / 4294967296 = 0 <;> by_cases h2 : ticks % 4294967296 = 0 <;>
      simp only [h1, h2, ne_eq, not_true_eq_false, not_false_eq_true, if_true, if_false,
        Bool.false_eq_true, armed_ticks_append, yield_count_append, l2', l3', hA1, hA2, hY1, hY2,
        Nat.pos_iff_ne_zero, List.replicate_zero, List.append_nil, List.nil_append, and_self,
        and_false, false_and, Nat.add_zero, Nat.zero_add, List.append_assoc, and_true]
  refine ⟨harm.1, ?_, ?_, harm.2, by rw [harm.2]; omega⟩
  · rw [harm.1, List.sum_append, List.sum_append, List.sum_replicate, smul_eq_mul]
    by_cases h1 : 0 < ticks / 4294967296 <;> by_cases h2 : 0 < ticks % 4294967296 <;>
      simp only [h1, h2, if_true, if_false, List.sum_cons, List.sum_nil] <;> omega
  · intro a ha
    rw [harm.1, List.mem_append, List.mem_append] at ha
    rcases ha with (ha | ha) | ha
    · rw [List.eq_of_mem_replicate ha]
      omega
    · split_ifs at ha with h1
      · rw [List.mem_singleton] at ha
        omega
      · exact absurd ha (List.not_mem_nil _)
    · split_ifs at ha with h2
      · rw [List.mem_singleton] at ha
        omega
      · exact absurd ha (List.not_mem_nil _)

/-- Witness of C27: `ticks = 2 * 2^32 + 5`: two timers of `2^32 - 1` ticks,
one of 2 ticks and one of 5 ticks, and four calls of `kernel_yield`. -/
theorem kernel_sleep_splits_witness :
    8589934597 < 18446744073709551616 ∧
      armed_ticks (kernel_sleep 8589934597 (fun _ => false)) = [4294967295, 4294967295, 2, 5] ∧
      yield_count (kernel_sleep 8589934597 (fun _ => false)) = 4 ∧
      yield_count (kernel_sleep 0 (fun _ => false)) = 1 ∧
      (armed_ticks (kernel_sleep 8589934597 (fun _ => false))).sum = 8589934597 ∧
      1 ≤ yield_count (kernel_sleep 8589934597 (fun _ => false)) :=
  ⟨by decide, by decide, by decide, by decide,
    (kernel_sleep_splits 8589934597 (by decide)).2.1,
    (kernel_sleep_splits 8589934597 (by decide)).2.2.2.2⟩

theorem tick_body_spec (s : timer_state) (pos : Nat) (any : Bool)
    (hp : 0 < (s.tasks pos).ticks_before_wake_up) :
    ∃ r, tick_all_timers_body s pos any = some r ∧
      (∀ tj, (r.1.tasks tj).ticks_before_wake_up =
        if tj = pos then (s.tasks tj).ticks_before_wake_up - 1
        else (s.tasks tj).ticks_before_wake_up) ∧
      r.1.timer_wakeup_list = s.timer_wakeup_list.filter
        (fun tj => !(decide (tj = pos) && decide ((s.tasks tj).ticks_before_wake_up = 1))) := by
  have hne : ¬ ((s.tasks pos).ticks_before_wake_up = 0) := by omega
  have hdec : ((update_task s pos
      (fun T => { T with ticks_before_wake_up := T.ticks_before_wake_up - 1 })).tasks
        pos).ticks_before_wake_up = (s.tasks pos).ticks_before_wake_up - 1 := by
    simp [update_task]
  unfold tick_all_timers_body
  rw [if_neg hne]
  simp only [hdec]
  by_cases h1 : (s.tasks pos).ticks_before_wake_up = 1
  · have hfilter : s.timer_wakeup_list.filter (fun tj => tj != pos)
        = s.timer_wakeup_list.filter
          (fun tj => !(decide (tj = pos) && decide ((s.tasks tj).ticks_before_wake_up = 1))) := by
      apply List.filter_congr
      intro x _
      by_cases hx : x = pos
      · subst hx; simp [h1]
      · simp [hx]
    rw [if_pos (by omega)]
    split_ifs
    · refine ⟨_, rfl, ?_, hfilter⟩
      intro tj
      by_cases hx : tj = pos
      · subst hx; simp [update_task, task_change_state, list_remove]
      · simp [update_task, task_change_state, list_remove, hx]
    · refine ⟨_, rfl, ?_, hfilter⟩
      intro tj
      by_cases hx : tj = pos
      · subst hx; simp [update_task, list_remove]
      · simp [update_task, list_remove, hx]
  · rw [if_neg (by omega)]
    refine ⟨_, rfl, ?_, ?_⟩
    · intro tj
      by_cases hx : tj = pos
      · subst hx; simp [update_task]
      · simp [update_task, hx]
    · show s.timer_wakeup_list = _
      symm
      rw [List.filter_eq_self]
      intro x _
      by_cases hx : x = pos
      · subst hx; simp [h1]
      · simp [hx]

theorem tick_loop_spec (l : List Nat) (s : timer_state) (any : Bool) (hnd : l.Nodup)
    (hpos : ∀ tj ∈ l, 0 < (s.tasks tj).ticks_before_wake_up) :
    ∃ r, tick_all_timers_loop l s any = some r ∧
      (∀ tj, (r.1.tasks tj).ticks_before_wake_up =
        if tj ∈ l then (s.tasks tj).ticks_before_wake_up - 1
        else (s.tasks tj).ticks_before_wake_up) ∧
      r.1.timer_wakeup_list = s.timer_wakeup_list.filter
        (fun tj => !(decide (tj ∈ l) && decide ((s.tasks tj).ticks_before_wake_up = 1))) := by
  induction l generalizing s any with
  | nil =>
    refine ⟨(s, any), rfl, fun tj => by simp, ?_⟩
    simp
  | cons pos rest ih =>
    have hnd' := (List.nodup_cons.mp hnd).2
    have hnotin := (List.nodup_cons.mp hnd).1
    obtain ⟨r1, hbody, hticks, hlist⟩ := tick_body_spec s pos any
      (hpos pos (List.mem_cons_self _ _))
    have hpos1 : ∀ tj ∈ rest, 0 < (r1.1.tasks tj).ticks_before_wake_up := by
      intro tj htj
      have hx : tj ≠ pos := fun h => hnotin (h ▸ htj)
      rw [hticks tj, if_neg hx]
      exact hpos tj (List.mem_cons_of_mem _ htj)
    obtain ⟨r, hrun, ht', hl'⟩ := ih r1.1 r1.2 hnd' hpos1
    refine ⟨r, ?_, ?_, ?_⟩
    · conv_lhs => unfold tick_all_timers_loop
      rw [hbody]
      exact hrun
    · intro tj
      rw [ht' tj, hticks tj]
      by_cases hx : tj = pos
      · subst hx
        simp [hnotin]
      · simp [hx]
    · rw [hl', hlist, List.filter_filter]
      apply List.filter_congr
      intro x _
      rw [hticks x]
      by_cases hx : x = pos
      · subst hx
        simp [hnotin]
      · simp [hx]

theorem tick_all_timers_spec (s : timer_state) (hinv : timer_inv s) :
    ∃ s', tick_all_timers s = some s' ∧
      (∀ tj, (s'.tasks tj).ticks_before_wake_up =
        if tj ∈ s.timer_wakeup_list then (s.tasks tj).ticks_before_wake_up - 1
        else (s.tasks tj).ticks_before_wake_up) ∧
      s'.timer_wakeup_list = s.timer_wakeup_list.filter
        (fun tj => decide ((s.tasks tj).ticks_before_wake_up ≠ 1)) := by
  obtain ⟨r, hrun, ht, hl⟩ := tick_loop_spec s.timer_wakeup_list s false hinv.1
    (fun tj htj => (hinv.2 tj).mp htj)
  have hl' : r.1.timer_wakeup_list = s.timer_wakeup_list.filter
      (fun tj => decide ((s.tasks tj).ticks_before_wake_up ≠ 1)) := by
    rw [hl]
    apply List.filter_congr
    intro x hx
    simp [hx]
  unfold tick_all_timers
  rw [hrun]
  simp only
  split_ifs
  · exact ⟨_, rfl, ht, hl'⟩
  · exact ⟨_, rfl, ht, hl'⟩

theorem tick_all_timers_inv (s s' : timer_state) (hinv : timer_inv s)
    (ht : ∀ tj, (s'.tasks tj).ticks_before_wake_up =
      if tj ∈ s.timer_wakeup_list then (s.tasks tj).ticks_before_wake_up - 1
      else (s.tasks tj).ticks_before_wake_up)
    (hl : s'.timer_wakeup_list = s.timer_wakeup_list.filter
      (fun tj => decide ((s.tasks tj).ticks_before_wake_up ≠ 1))) : timer_inv s' := by
  refine ⟨by rw [hl]; exact hinv.1.filter _, ?_⟩
  intro ti
  have h := hinv.2 ti
  rw [hl, List.mem_filter, ht ti]
  by_cases hin : ti ∈ s.timer_wakeup_list
  · have hp := h.mp hin
    rw [if_pos hin]
    constructor
    · rintro ⟨_, hd⟩
      have hne : (s.tasks ti).ticks_before_wake_up ≠ 1 := of_decide_eq_true hd
      omega
    · intro hgt
      exact ⟨hin, decide_eq_true (by omega)⟩
  · have h0 : (s.tasks ti).ticks_before_wake_up = 0 := by
      by_contra hne
      exact hin (h.mpr (by omega))
    rw [if_neg hin, h0]
    constructor
    · rintro ⟨hi, _⟩
      exact absurd hi hin
    · intro hgt
      omega

/-- C28: the invariant of the wake-up timer list (the node of a task is linked
exactly if its `ticks_before_wake_up` is positive, and no node is linked
twice). From a state that satisfies it, `task_set_wakeup_timer` (with a
non-zero `u32` value `ticks`), `task_update_wakeup_timer_if_any` (the same),
`task_cancel_wakeup_timer` and `tick_all_timers` return without a failed
`ASSERT` and leave a state that satisfies it; `task_set_wakeup_timer` leaves
`ticks` in the counter of the task; and `tick_all_timers` decrements the
counter of every task whose node is linked by exactly one, leaves the other
counters as they are and unlinks exactly the nodes of the tasks whose counter
was 1, i.e. has reached 0. -/
theorem timer_list_invariant (s : timer_state) (ti tj ticks : Nat) (hinv : timer_inv s)
    (hticks : 0 < ticks) (hlt : ticks < 4294967296) :
    returns_with_inv (task_set_wakeup_timer s ti ticks) ∧
      (task_set_wakeup_timer s ti ticks).map (fun s' => (s'.tasks ti).ticks_before_wake_up)
        = some ticks ∧
      returns_with_inv (task_update_wakeup_timer_if_any s ti ticks) ∧
      timer_inv (task_cancel_wakeup_timer s ti).2 ∧
      (task_cancel_wakeup_timer s ti).1 = (s.tasks ti).ticks_before_wake_up ∧
      returns_with_inv (tick_all_timers s) ∧
      (tick_all_timers s).map (fun s' => (s'.tasks tj).ticks_before_wake_up)
        = some (if tj ∈ s.timer_wakeup_list then (s.tasks tj).ticks_before_wake_up - 1
            else (s.tasks tj).ticks_before_wake_up) ∧
      (tick_all_timers s).map (fun s' => s'.timer_wakeup_list)
        = some (s.timer_wakeup_list.filter
            (fun tk => decide ((s.tasks tk).ticks_before_wake_up ≠ 1))) := by
  have hmod : ticks % 4294967296 = ticks := Nat.mod_eq_of_lt hlt
  have hmem := hinv.2 ti
  have hset : ∀ (u : timer_state), u.timer_wakeup_list.Nodup →
      (∀ tk, tk ≠ ti → (tk ∈ u.timer_wakeup_list ↔ 0 < (s.tasks tk).ticks_before_wake_up)) →
      ti ∈ u.timer_wakeup_list → u.tasks = s.tasks →
      timer_inv (update_task u ti (fun T => { T with ticks_before_wake_up := ticks })) := by
    intro u hnd hother hin htasks
    refine ⟨hnd, fun tk => ?_⟩
    by_cases hx : tk = ti
    · subst hx
      simp [update_task, hin, hticks]
    · simp only [update_task, hx, if_false, htasks]
      exact hother tk hx
  refine ⟨?_, ?_, ?_, ?_, ?_, ?_, ?_, ?_⟩
  · unfold task_set_wakeup_timer
    simp only [hmod, if_neg (by omega : ¬ ticks = 0), list_is_node_in_list]
    by_cases h0 : (s.tasks ti).ticks_before_wake_up = 0
    · have hnin : ti ∉ s.timer_wakeup_list := fun h => by have := hmem.mp h; omega
      simp only [h0, if_true, hnin, decide_False, Bool.false_eq_true, if_false]
      apply hset (list_add_tail s ti)
      · show (s.timer_wakeup_list ++ [ti]).Nodup
        rw [List.nodup_append]
        refine ⟨hinv.1, List.nodup_singleton _, ?_⟩
        intro a ha hb
        rw [List.mem_singleton] at hb
        exact hnin (hb ▸ ha)
      · intro tk hx
        show tk ∈ s.timer_wakeup_list ++ [ti] ↔ _
        rw [List.mem_append, List.mem_singleton]
        constructor
        · rintro (h | h)
          · exact (hinv.2 tk).mp h
          · exact absurd h hx
        · intro h
          exact Or.inl ((hinv.2 tk).mpr h)
      · show ti ∈ s.timer_wakeup_list ++ [ti]
        simp
      · rfl
    · have hin : ti ∈ s.timer_wakeup_list := hmem.mpr (by omega)
      simp only [h0, if_false, hin, decide_True, Bool.not_true, Bool.false_eq_true]
      exact hset s hinv.1 (fun tk _ => hinv.2 tk) hin rfl
  · unfold task_set_wakeup_timer
    simp only [hmod, if_neg (by omega : ¬ ticks = 0), list_is_node_in_list]
    by_cases h0 : (s.tasks ti).ticks_before_wake_up = 0
    · have hnin : ti ∉ s.timer_wakeup_list := fun h => by have := hmem.mp h; omega
      simp [h0, hnin, update_task]
    · have hin : ti ∈ s.timer_wakeup_list := hmem.mpr (by omega)
      simp [h0, hin, update_task]
  · unfold task_update_wakeup_timer_if_any
    simp only [hmod, if_neg (by omega : ¬ ticks = 0), list_is_node_in_list]
    by_cases h0 : (s.tasks ti).ticks_before_wake_up > 0
    · have hin : ti ∈ s.timer_wakeup_list := hmem.mpr h0
      simp only [h0, if_true, hin, decide_True, Bool.not_true, Bool.false_eq_true, if_false]
      exact hset s hinv.1 (fun tk _ => hinv.2 tk) hin rfl
    · simp only [h0, if_false]
      exact hinv
  · unfold task_cancel_wakeup_timer
    simp only
    split_ifs with h0
    · refine ⟨?_, fun tk => ?_⟩
      · show (s.timer_wakeup_list.filter (fun x => x != ti)).Nodup
        exact hinv.1.filter _
      · show tk ∈ s.timer_wakeup_list.filter (fun x => x != ti) ↔ _
        rw [List.mem_filter]
        by_cases hx : tk = ti
        · subst hx
          simp [update_task, list_remove]
        · simp only [update_task, list_remove, hx, if_false, bne_iff_ne, ne_eq,
            not_false_eq_true, and_true]
          exact hinv.2 tk
    · exact hinv
  · unfold task_cancel_wakeup_timer
    simp only
    split_ifs <;> rfl
  · obtain ⟨s', he, ht, hl⟩ := tick_all_timers_spec s hinv
    rw [he]
    exact tick_all_timers_inv s s' hinv ht hl
  · obtain ⟨s', he, ht, hl⟩ := tick_all_timers_spec s hinv
    rw [he, Option.map_some', ht tj]
  · obtain ⟨s', he, ht, hl⟩ := tick_all_timers_spec s hinv
    rw [he, Option.map_some', hl]

/-- Witness of C28: the state `sample_timers` (task 1 with 3 ticks left, task
2 with 1 tick left, both linked), the task 3 (no timer) armed with 5 ticks,
and the counter of task 2 observed over one tick: it reaches 0, the node of
task 2 is unlinked, the task is made runnable and a reschedule is asked for. -/
theorem timer_list_invariant_witness :
    timer_inv sample_timers ∧ 0 < 5 ∧ 5 < 4294967296 ∧
      (task_set_wakeup_timer sample_timers 3 5).map (fun s => s.timer_wakeup_list)
        = some [1, 2, 3] ∧
      (tick_all_timers sample_timers).map (fun s => s.timer_wakeup_list) = some [1] ∧
      (tick_all_timers sample_timers).map (fun s => (s.tasks 1).ticks_before_wake_up)
        = some 2 ∧
      (tick_all_timers sample_timers).map (fun s => (s.tasks 2).state)
        = some task_state.TASK_STATE_RUNNABLE ∧
      (tick_all_timers sample_timers).map (fun s => (s.tasks 2).timer_ready) = some true ∧
      (tick_all_timers sample_timers).map (fun s => s.need_resched) = some true ∧
      (task_cancel_wakeup_timer sample_timers 1).2.timer_wakeup_list = [2] ∧
      (returns_with_inv (task_set_wakeup_timer sample_timers 3 5) ∧
        (task_set_wakeup_timer sample_timers 3 5).map
            (fun s' => (s'.tasks 3).ticks_before_wake_up)
          = some 5 ∧
        returns_with_inv (task_update_wakeup_timer_if_any sample_timers 3 5) ∧
        timer_inv (task_cancel_wakeup_timer sample_timers 3).2 ∧
        (task_cancel_wakeup_timer sample_timers 3).1
          = (sample_timers.tasks 3).ticks_before_wake_up ∧
        returns_with_inv (tick_all_timers sample_timers) ∧
        (tick_all_timers sample_timers).map (fun s' => (s'.tasks 2).ticks_before_wake_up)
          = some (if 2 ∈ sample_timers.timer_wakeup_list
              then (sample_timers.tasks 2).ticks_before_wake_up - 1
              else (sample_timers.tasks 2).ticks_before_wake_up) ∧
        (tick_all_timers sample_timers).map (fun s' => s'.timer_wakeup_list)
          = some (sample_timers.timer_wakeup_list.filter
              (fun tk => decide ((sample_timers.tasks tk).ticks_before_wake_up ≠ 1)))) :=
  have hinv : timer_inv sample_timers :=
    ⟨by decide, fun ti => by
      by_cases h1 : ti = 1
      · subst h1; decide
      · by_cases h2 : ti = 2
        · subst h2; decide
        · simp [sample_timers, h1, h2]⟩
  ⟨hinv, by decide, by decide, by decide, by decide, by decide, by decide, by decide, by decide,
    by decide, timer_list_invariant sample_timers 3 2 5 hinv (by decide) (by decide)⟩

/-! ## C29: screen and buffer -/

/-- C29, the code at the failing input. On the 3 x 4 failsafe terminal with
the storing backend (no fast scroll, no tab map), the screen mirrors the
buffer after `init_term` and after the actions `mirror_actions`, which leave
`scroll = 1`, `X` in the cell `(0, 0)` and the cursor at `(2, 4)`. The
write-text action of a tab that follows calls `buffer_set_entry(2, 4, ' ')`
(`rem = -1` passes the test `if (rem)`): the index
`((2 + 1) mod 3) * 4 + 4 = 4` is that of the cell `(0, 0)`, which now holds a
space in the buffer, whereas the backend, which was handed the cell for
`(2, 4)`, still shows `X` at `(0, 0)`. -/
theorem screen_differs_from_buffer :
    screen_mirrors_buffer mirror_term = true ∧
      screen_mirrors_buffer (run_actions vga_encoding 1 mirror_actions mirror_term) = true ∧
      mirror_term.term_tabs.isNone = true ∧ mirror_term.total_buffer_rows = 3 ∧
      (run_actions vga_encoding 1 mirror_actions mirror_term).scroll = 1 ∧
      (run_actions vga_encoding 1 mirror_actions mirror_term).current_row = 2 ∧
      (run_actions vga_encoding 1 mirror_actions mirror_term).current_col = 4 ∧
      cell (run_actions vga_encoding 1 mirror_actions mirror_term) 0 0
        = vga_encoding.make_vgaentry 88 7 ∧
      buffer_index (run_actions vga_encoding 1 mirror_actions mirror_term) 2 4 = 4 ∧
      buffer_index (run_actions vga_encoding 1 mirror_actions mirror_term) 0 0 = 4 ∧
      cell (term_execute_action vga_encoding 1 (term_action.a_write [9] 7)
          (run_actions vga_encoding 1 mirror_actions mirror_term)) 0 0
        = vga_encoding.make_vgaentry 32 7 ∧
      (term_execute_action vga_encoding 1 (term_action.a_write [9] 7)
          (run_actions vga_encoding 1 mirror_actions mirror_term)).screen 0 0
        = vga_encoding.make_vgaentry 88 7 ∧
      (term_execute_action vga_encoding 1 (term_action.a_write [9] 7)
          (run_actions vga_encoding 1 mirror_actions mirror_term)).screen 2 4
        = vga_encoding.make_vgaentry 32 7 ∧
      screen_mirrors_buffer (term_execute_action vga_encoding 1 (term_action.a_write [9] 7)
        (run_actions vga_encoding 1 mirror_actions mirror_term)) = false := by
  refine ⟨by decide, by decide, by decide, by decide, by decide, by decide, by decide, by decide,
    by decide, by decide, by decide, by decide, by decide, by decide⟩

/-! ## C30: cell writes -/

/-- C30, as the code has it: whenever `rows <= total_buffer_rows`,
`total_buffer_rows * cols <= 2^32` and `scroll + rows <= 2^32` (so that neither
`row + scroll` nor the index wraps on `u32`), the index computed by
`buffer_set_entry` / `buffer_get_entry` for a logical `(r, c)`, `r < rows`,
`c < cols`, is `((r + scroll) mod total_buffer_rows) * cols + c`, lies below
`total_buffer_rows * cols` and is different from that of every other in-range
`(r', c')`; so `buffer_set_entry(r, c, e)` makes `buffer_get_entry(r, c)`
return `e` and leaves `buffer_get_entry(r', c')` unchanged. -/
theorem cell_write_frame (t : term σ φ) (r c r' c' e : Nat) (hg : ring_ok t)
    (hr : r < t.term_rows) (hc : c < t.term_cols) (hr' : r' < t.term_rows)
    (hc' : c' < t.term_cols) (hne : (r', c') ≠ (r, c)) :
    buffer_index t r c = (r + t.scroll) % t.total_buffer_rows * t.term_cols + c ∧
      buffer_index t r c < t.total_buffer_rows * t.term_cols ∧
      buffer_index t r' c' ≠ buffer_index t r c ∧
      cell (buffer_set_entry t r c e) r c = e % 65536 ∧
      cell (buffer_set_entry t r c e) r' c' = cell t r' c' := by
  have hidx := buffer_index_eq t hg r c hr hc
  have hlt := physical_row_lt t hg r hr
  have hphys : physical_row t r = (r + t.scroll) % t.total_buffer_rows := by
    have h : (r + t.scroll) % 4294967296 = r + t.scroll :=
      Nat.mod_eq_of_lt (by unfold ring_ok at hg; omega)
    unfold physical_row
    rw [h]
  have hinj : buffer_index t r' c' ≠ buffer_index t r c := by
    intro h
    obtain ⟨e1, e2⟩ := cell_inj t hg r' r c' c hr' hr hc' hc h
    exact hne (by rw [e1, e2])
  refine ⟨by rw [hidx, hphys], ?_, hinj, ?_, ?_⟩
  · rw [hidx]
    have h1 : (physical_row t r + 1) * t.term_cols ≤ t.total_buffer_rows * t.term_cols :=
      Nat.mul_le_mul_right _ hlt
    rw [Nat.add_mul] at h1
    omega
  · rw [cell_eq]
    show (if buffer_index t r c = buffer_index t r c then e % 65536 else _) = _
    rw [if_pos rfl]
  · rw [cell_eq, cell_eq]
    show (if buffer_index t r' c' = buffer_index t r c then e % 65536 else _) = _
    rw [if_neg hinj]
    rfl

/-- Witness of C30 as the code has it: on the populated small terminal the
write of the cell `(1, 2)` leaves the cell `(2, 2)`, which holds `k`, as it
is. -/
theorem cell_write_frame_witness :
    ring_ok populated_term ∧ 1 < populated_term.term_rows ∧ 2 < populated_term.term_cols ∧
      ((2, 2) : Nat × Nat) ≠ (1, 2) ∧
      cell populated_term 2 2 = vga_encoding.make_vgaentry 107 7 ∧
      (buffer_index populated_term 1 2
          = (1 + populated_term.scroll) % populated_term.total_buffer_rows
              * populated_term.term_cols + 2 ∧
        buffer_index populated_term 1 2
          < populated_term.total_buffer_rows * populated_term.term_cols ∧
        buffer_index populated_term 2 2 ≠ buffer_index populated_term 1 2 ∧
        cell (buffer_set_entry populated_term 1 2 600) 1 2 = 600 % 65536 ∧
        cell (buffer_set_entry populated_term 1 2 600) 2 2 = cell populated_term 2 2) :=
  ⟨by decide, by decide, by decide, by decide, by decide,
    cell_write_frame populated_term 1 2 2 2 600 (by decide) (by decide) (by decide) (by decide)
      (by decide) (by decide)⟩

set_option maxRecDepth 1000000 in
/-- Counterexample to C30 as stated: in the failsafe terminal
(`rows = total_buffer_rows = 25`) with `scroll = 2^32 - 1`, the sum
`row + scroll` wraps on `u32` for every `row >= 1`, and the rows 0 and 21 share
the buffer row 20: `buffer_set_entry(0, 0, e)` changes
`buffer_get_entry(21, 0)`. -/
theorem cell_write_aliases_after_wrap :
    wrapped_term.term_rows ≤ wrapped_term.total_buffer_rows ∧
      wrapped_term.scroll ≤ wrapped_term.max_scroll ∧
      21 < wrapped_term.term_rows ∧ 0 < wrapped_term.term_cols ∧
      ((21, 0) : Nat × Nat) ≠ (0, 0) ∧
      buffer_index wrapped_term 0 0 = 1600 ∧ buffer_index wrapped_term 21 0 = 1600 ∧
      cell wrapped_term 21 0 = vga_encoding.blank ∧
      cell (buffer_set_entry wrapped_term 0 0 (vga_encoding.make_vgaentry 88 7)) 21 0
        = vga_encoding.make_vgaentry 88 7 ∧
      cell (buffer_set_entry wrapped_term 0 0 (vga_encoding.make_vgaentry 88 7)) 21 0
        ≠ cell wrapped_term 21 0 := by
  refine ⟨by decide, by decide, by decide, by decide, by decide, by decide, by decide, by decide,
    by decide, by decide⟩

/-! ## C31, C32: a tab at the pending-wrap column and save_param_iov -/

theorem write_tab_not_backwards (enc : cell_encoding) (t : term σ φ) (tabs : Nat → Bool)
    (color : Nat) (htabs : t.term_tabs = some tabs) (hcols2 : 2 ≤ t.term_cols)
    (hcols : t.term_cols < 65536) (hts : 1 ≤ t.term_tab_size) (hts' : t.term_tab_size ≤ 65536)
    (hcol : t.current_col + 1 ≤ t.term_cols) :
    t.current_col ≤ (term_internal_write_tab enc t color).current_col := by
  have hu : ((to_u32 t.term_tab_size : Nat) : Int) = t.term_tab_size := by
    unfold to_u32; omega
  obtain ⟨_, hge, _⟩ := round_up_at_spec (t.current_col + 1) (to_u32 t.term_tab_size)
    (by omega) (by omega)
  have h2 : to_u32 ((t.term_cols : Int) - 2) = t.term_cols - 2 := by
    unfold to_u32; omega
  generalize hM : round_up_at (t.current_col + 1) (to_u32 t.term_tab_size) = M at hge
  generalize hT : min M (t.term_cols - 2) = T
  have hTle : T ≤ t.term_cols - 2 := by rw [← hT]; exact min_le_right _ _
  have hTge : min (t.current_col + 1) (t.term_cols - 2) ≤ T := by
    rw [← hT]; exact min_le_min hge (le_refl _)
  have h16 : to_u16 ((T : Int) + 1) = T + 1 := by unfold to_u16; omega
  have hdef : (term_internal_write_tab enc t color).current_col = T + 1 := by
    unfold term_internal_write_tab
    simp only [htabs, h2, hM, hT]
    rw [to_int_of_small T (by omega), h16]
  rw [hdef]
  omega

set_option maxRecDepth 1000000 in
/-- C31, the code at the failing input. On the 25 x 80 terminal with a tab
map, after the write-text action of 80 letters `a` the cursor is at the
pending-wrap column `c = cols = 80`. `term_internal_write_tab` then computes
`tab_col = min(round_up_at(81, 8), 78) = 78`, marks the cell `(0, 78)` and sets
`current_col = 79 < 80`: the cursor has moved backwards, and the letter
written next replaces the last `a`, in the cell `(0, 79)`. -/
theorem tab_moves_cursor_backwards :
    std_pending_wrap_term.term_tabs.isSome = true ∧ 2 ≤ std_pending_wrap_term.term_cols ∧
      std_pending_wrap_term.term_cols = 80 ∧ std_pending_wrap_term.current_row = 0 ∧
      std_pending_wrap_term.current_col = 80 ∧
      cell std_pending_wrap_term 0 79 = vga_encoding.make_vgaentry 97 7 ∧
      (term_internal_write_tab vga_encoding std_pending_wrap_term 7).current_col = 79 ∧
      (term_internal_write_tab vga_encoding std_pending_wrap_term 7).current_col
        < std_pending_wrap_term.current_col ∧
      term_tabs_at (term_internal_write_tab vga_encoding std_pending_wrap_term 7) 78 = true ∧
      (term_execute_action vga_encoding 1 (term_action.a_write (List.replicate 80 97 ++ [9]) 7)
        (std_term true)).current_col = 79 ∧
      cell (term_execute_action vga_encoding 1
          (term_action.a_write (List.replicate 80 97 ++ [9, 88]) 7) (std_term true)) 0 79
        = vga_encoding.make_vgaentry 88 7 ∧
      (term_execute_action vga_encoding 1
          (term_action.a_write (List.replicate 80 97 ++ [9, 88]) 7) (std_term true)).current_row
        = 0 := by
  refine ⟨by decide, by decide, by decide, by decide, by decide, by decide, by decide, by decide,
    by decide, by decide, by decide, by decide⟩

theorem save_param_iov_returns_false (env : iov_env) (data : Nat) (iovcnt : Int) :
    (save_param_iov env data iovcnt).1 = false := by
  unfold save_param_iov
  split_ifs
  · rfl
  · simp only
    split
    · rfl
    · split_ifs <;> rfl

/-- C32, the code at the failing input. With `iovcnt = 2`, a copy from user
space that succeeds and buffer saves that all succeed, `save_param_iov` stores
the two lengths in `dest_buf`, runs the loop to its end and then executes its
last statement, `return false;`: it reports failure although every step has
succeeded. The same holds for `iovcnt = 1` and for `iovcnt = 7`, where 4
entries are saved. -/
theorem save_param_iov_reports_failure :
    (succeeding_env.copy_from_user 0 16).isSome = true ∧
      succeeding_env.save 4096 10 64 = true ∧ succeeding_env.save 4128 10 80 = true ∧
      save_param_iov_loop succeeding_env (fun i => { iov_base := 4096 + 32 * i, iov_len := 10 })
        2 0 [] = (false, [10, 10]) ∧
      save_param_iov succeeding_env 0 2 = (false, [10, 10]) ∧
      (save_param_iov succeeding_env 0 2).1 = false ∧
      (save_param_iov succeeding_env 0 1).1 = false ∧
      save_param_iov succeeding_env 0 7 = (false, [10, 10, 10, 10]) := by
  refine ⟨by decide, by decide, by decide, by decide, by decide, by decide, by decide, by decide⟩

/-! ## C5, C17, C18, C19, C23: after the scroll counter has passed `2^32 - rows`

`scroll` and `max_scroll` are `u32` counters that `term_internal_incr_row`
only increments, and `row + scroll` is computed on `u32` before it is reduced
modulo `total_buffer_rows`. When `2^32` is not a multiple of
`total_buffer_rows` (25 in failsafe mode), the rows of the window whose sum
wraps land on buffer rows that other rows of the window use already. With
`scroll = 2^32 - 1` the row 0 is the buffer row 20 and a row `r >= 1` is the
buffer row `r - 1`: the rows 0 and 21 are the same buffer row. -/

set_option maxRecDepth 1000000 in
/-- Counterexample to C5 as stated: in the failsafe terminal
(`rows = total_buffer_rows = 25`) with `scroll = max_scroll = 2^32 - 1`, the
letter `X` in the cell `(0, 10)` and the cursor at `(21, 5)`, the rows 0 and 21
share the buffer row 20. The cell `(0, 10)` is before the cursor, but
erase-in-display(0) at that cursor overwrites it, and so does
erase-in-display(1): the two sets of written cells are not disjoint. -/
theorem erase_display_aliases_after_wrap :
    wrapped_erase_term.term_rows ≤ wrapped_erase_term.total_buffer_rows ∧
      wrapped_erase_term.scroll ≤ wrapped_erase_term.max_scroll ∧
      wrapped_erase_term.scroll = 4294967295 ∧
      wrapped_erase_term.current_row = 21 ∧ wrapped_erase_term.current_col = 5 ∧
      wrapped_erase_term.term_rows = 25 ∧ wrapped_erase_term.term_cols = 80 ∧
      cell wrapped_erase_term 0 10 = vga_encoding.make_vgaentry 88 7 ∧
      buffer_index wrapped_erase_term 0 10 = 1610 ∧
      buffer_index wrapped_erase_term 21 10 = 1610 ∧
      cell (term_action_erase_in_display vga_encoding wrapped_erase_term 0) 0 10
        = vga_encoding.blank ∧
      cell (term_action_erase_in_display vga_encoding wrapped_erase_term 0) 0 10
        ≠ cell wrapped_erase_term 0 10 ∧
      cell (term_action_erase_in_display vga_encoding wrapped_erase_term 1) 0 10
        ≠ cell wrapped_erase_term 0 10 := by
  refine ⟨by decide, by decide, by decide, by decide, by decide, by decide, by decide, by decide,
    by decide, by decide, by decide, by decide, by decide⟩

set_option maxRecDepth 1000000 in
/-- Counterexample to C17 as stated: in the failsafe terminal with
`scroll = max_scroll = 2^32 - 1`, the letter `X` in the cell `(0, 10)` and the
cursor at `(21, 5)`, erase-in-line with mode 0, and with mode 2, replaces the
`X` of the cell `(0, 10)` by a space, although row 0 is not the cursor row:
the rows 0 and 21 share the buffer row 20. -/
theorem erase_line_aliases_after_wrap :
    wrapped_erase_term.current_row = 21 ∧ wrapped_erase_term.current_col = 5 ∧
      wrapped_erase_term.current_row < wrapped_erase_term.term_rows ∧
      wrapped_erase_term.current_col ≤ wrapped_erase_term.term_cols ∧
      wrapped_erase_term.term_rows ≤ wrapped_erase_term.total_buffer_rows ∧
      cell wrapped_erase_term 0 10 = vga_encoding.make_vgaentry 88 7 ∧
      cell (term_action_erase_in_line vga_encoding wrapped_erase_term 0) 0 10
        = vga_encoding.blank ∧
      cell (term_action_erase_in_line vga_encoding wrapped_erase_term 0) 0 10
        ≠ cell wrapped_erase_term 0 10 ∧
      cell (term_action_erase_in_line vga_encoding wrapped_erase_term 2) 0 10
        ≠ cell wrapped_erase_term 0 10 := by
  refine ⟨by decide, by decide, by decide, by decide, by decide, by decide, by decide, by decide,
    by decide⟩

set_option maxRecDepth 1000000 in
/-- Counterexample to C18 as stated: in the failsafe terminal with
`scroll = max_scroll = 2^32 - 1` and the letter `X` in the cell `(1, 3)`,
non-buffered scroll up by `n = 1` first copies the buffer row 0 (row 1) onto
the buffer row 20 (row 0, and row 21), and later copies that buffer row onto
row 20: afterwards the cell `(20, 3)` holds the `X` and not the space that the
cell `(21, 3)` held, and the cell `(0, 3)` holds a space and not the `X` that
the cell `(1, 3)` held. -/
theorem scroll_up_after_wrap :
    (wrapped_x_at 1 3).term_rows = 25 ∧ (wrapped_x_at 1 3).total_buffer_rows = 25 ∧
      (wrapped_x_at 1 3).scroll = 4294967295 ∧
      cell (wrapped_x_at 1 3) 1 3 = vga_encoding.make_vgaentry 88 7 ∧
      cell (wrapped_x_at 1 3) 21 3 = vga_encoding.blank ∧
      cell (term_action_non_buf_scroll_up vga_encoding (wrapped_x_at 1 3) 1) 20 3
        = vga_encoding.make_vgaentry 88 7 ∧
      cell (term_action_non_buf_scroll_up vga_encoding (wrapped_x_at 1 3) 1) 20 3
        ≠ cell (wrapped_x_at 1 3) 21 3 ∧
      cell (term_action_non_buf_scroll_up vga_encoding (wrapped_x_at 1 3) 1) 0 3
        = vga_encoding.blank ∧
      cell (term_action_non_buf_scroll_up vga_encoding (wrapped_x_at 1 3) 1) 0 3
        ≠ cell (wrapped_x_at 1 3) 1 3 := by
  refine ⟨by decide, by decide, by decide, by decide, by decide, by decide, by decide, by decide,
    by decide⟩

set_option maxRecDepth 1000000 in
/-- Counterexample to C19 as stated: in the failsafe terminal with
`scroll = max_scroll = 2^32 - 1` and the letter `X` in the cell `(20, 3)`,
non-buffered scroll down by `n = 1` copies row 20 onto the buffer row 20 (row
21, and row 0), copies that buffer row onto row 1 and at the end clears it as
row 0: afterwards the cell `(21, 3)` holds a space and not the `X` that the
cell `(20, 3)` held, and the cell `(1, 3)` holds the `X` and not the space that
the cell `(0, 3)` held. -/
theorem scroll_down_after_wrap :
    (wrapped_x_at 20 3).term_rows = 25 ∧ (wrapped_x_at 20 3).total_buffer_rows = 25 ∧
      (wrapped_x_at 20 3).scroll = 4294967295 ∧
      cell (wrapped_x_at 20 3) 20 3 = vga_encoding.make_vgaentry 88 7 ∧
      cell (wrapped_x_at 20 3) 0 3 = vga_encoding.blank ∧
      cell (term_action_non_buf_scroll_down vga_encoding (wrapped_x_at 20 3) 1) 21 3
        = vga_encoding.blank ∧
      cell (term_action_non_buf_scroll_down vga_encoding (wrapped_x_at 20 3) 1) 21 3
        ≠ cell (wrapped_x_at 20 3) 20 3 ∧
      cell (term_action_non_buf_scroll_down vga_encoding (wrapped_x_at 20 3) 1) 1 3
        = vga_encoding.make_vgaentry 88 7 ∧
      cell (term_action_non_buf_scroll_down vga_encoding (wrapped_x_at 20 3) 1) 1 3
        ≠ cell (wrapped_x_at 20 3) 0 3 := by
  refine ⟨by decide, by decide, by decide, by decide, by decide, by decide, by decide, by decide,
    by decide⟩

set_option maxRecDepth 1000000 in
/-- Counterexample to C23 as stated: in the failsafe terminal
(`total_buffer_rows = rows = 25`) with `scroll = max_scroll = 2^32 - 5`, the
cursor on the last row and the letter `X` in the cell `(4, 10)`,
`term_internal_incr_row` makes `scroll = max_scroll = 2^32 - 4`; the new last
row 24 and the new row 3 are both the buffer row 20, which held the old row 4,
so that the clearing of the last row leaves a space in the cell `(3, 10)`
instead of the `X`. And with `scroll = max_scroll = 2^32 - 1` the two counters
become 0 instead of being incremented by one. -/
theorem incr_row_aliases_near_wrap :
    near_wrap_term.current_row + 1 = near_wrap_term.term_rows ∧
      near_wrap_term.scroll = near_wrap_term.max_scroll ∧
      near_wrap_term.scroll = 4294967291 ∧
      near_wrap_term.term_rows ≤ near_wrap_term.total_buffer_rows ∧
      cell near_wrap_term 4 10 = vga_encoding.make_vgaentry 88 7 ∧
      (term_internal_incr_row vga_encoding near_wrap_term 7).scroll = 4294967292 ∧
      (term_internal_incr_row vga_encoding near_wrap_term 7).max_scroll = 4294967292 ∧
      cell (term_internal_incr_row vga_encoding near_wrap_term 7) 3 10
        = vga_encoding.make_vgaentry 32 7 ∧
      cell (term_internal_incr_row vga_encoding near_wrap_term 7) 3 10
        ≠ cell near_wrap_term 4 10 ∧
      wrapped_last_row_term.current_row + 1 = wrapped_last_row_term.term_rows ∧
      wrapped_last_row_term.scroll = wrapped_last_row_term.max_scroll ∧
      wrapped_last_row_term.scroll = 4294967295 ∧
      (term_internal_incr_row vga_encoding wrapped_last_row_term 7).scroll = 0 ∧
      (term_internal_incr_row vga_encoding wrapped_last_row_term 7).max_scroll = 0 := by
  refine ⟨by decide, by decide, by decide, by decide, by decide, by decide, by decide, by decide,
    by decide, by decide, by decide, by decide, by decide, by decide⟩

end Tilck
